import Mathlib

/-! # go-mydumper: the table dumper and the catalog selection of the orchestrator

A shallow embedding of `common/dumper.go`.

* Go strings are modelled by `String`; Go's `len` (a byte count) is
  `String.utf8ByteSize`.
* `strings.Join(xs, sep)` is `String.intercalate sep xs`.
* A result-set value (`sqltypes.Value` of the wire-protocol client) is a record of
  what the dumper reads from it: `Raw()`, `String()` and the type predicates.
* `EscapeBytes` lives in another file of package `common`; the functions that call
  it take it as a parameter.
* `WriteFile(path, content)` is modelled by appending `(path, content)` to the list
  of writes carried in the loop state.
* A streaming cursor is the finite list of rows it yields.
-/

namespace GoMydumper

/-! ## Values and configuration -/

/-- A result-set value as seen by the dumper: `Raw()` is `none` for SQL NULL,
`String()` is the canonical rendering, the five flags are `IsSigned()`,
`IsUnsigned()`, `IsFloat()`, `IsIntegral()` and `Type() == querypb.Type_DECIMAL`. -/
structure Value where
  Raw : Option String
  String : String
  IsSigned : Bool
  IsUnsigned : Bool
  IsFloat : Bool
  IsIntegral : Bool
  IsDecimal : Bool
  deriving DecidableEq, Repr

/-- The fields of `config.Config` that `dumper.go` reads or updates.  The three maps
`Wheres`, `Selects` and `Filters` are modelled by their lookup functions (a missing key,
or a missing inner map, is `none`). -/
structure Config where
  Outdir : String
  Threads : Int
  Database : String
  DatabaseRegexp : String
  DatabaseInvertRegexp : Bool
  Table : String
  Format : String
  ChunksizeInMB : Int
  StmtSize : Int
  Allbytes : Nat
  Allrows : Nat
  Wheres : String → Option String
  Selects : String → String → Option String
  Filters : String → String → Option String

/-- Go's `len` of a string: its number of bytes. -/
def len (s : String) : Nat := s.utf8ByteSize

/-- The modulus of `uint64` arithmetic. -/
def u64 : Nat := 2 ^ 64

/-- `fmt.Sprintf("%05d", n)` for a non-negative `n`: decimal digits, left-padded with
zeros to width five. -/
def pad5 (n : Nat) : String :=
  let d := Nat.repr n
  String.mk (List.replicate (5 - d.length) '0') ++ d

/-! ## Row encoding (SQL format), `dumpTable` lines 97-111 -/

/-- The `switch` condition of `dumpTable` line 104. -/
def isNumeric (v : Value) : Bool :=
  v.IsSigned || v.IsUnsigned || v.IsFloat || v.IsIntegral || v.IsDecimal

/-- One iteration of `for _, v := range row` in `dumpTable` (lines 99-109): the string
appended to `values`. -/
def sqlValue (EscapeBytes : String → String) (v : Value) : String :=
  match v.Raw with
  | none => "NULL"
  | some raw =>
    if isNumeric v then v.String
    else "\"" ++ EscapeBytes raw ++ "\""

/-- The loop `for _, v := range row` of `dumpTable`, appending to `values`. -/
def sqlValues (EscapeBytes : String → String) (row : List Value) : List String :=
  row.foldl (fun values v => values ++ [sqlValue EscapeBytes v]) []

/-- Line 111: `r := "(" + strings.Join(values, ",") + ")"`. -/
def sqlTuple (EscapeBytes : String → String) (row : List Value) : String :=
  "(" ++ String.intercalate "," (sqlValues EscapeBytes row) ++ ")"

/-! ## Collaborators: cursors and connections

`AssertNil(err)` stops the process when a collaborator reports an error; the embedding
describes the runs in which the wire-protocol client and the file system succeed, so a
cursor is the list of field descriptors and the finite list of rows that it delivers. -/

/-- A field descriptor returned by `cursor.Fields()`; the dumper reads only its name. -/
structure Field where
  Name : String
  deriving DecidableEq, Repr

/-- A streaming cursor: what `Fields()` returns and the rows that successive
`Next()`/`RowValues()` calls deliver. -/
structure Cursor where
  Fields : List Field
  Rows : List (List Value)

/-- A leased connection: its identity and the answers of the server to `StreamFetch`
and `Fetch` (the latter gives `qr.Rows`). -/
structure Connection where
  ID : Nat
  StreamFetch : String → Cursor
  Fetch : String → List (List Value)

/-! ## Column discovery, `dumpTable` lines 57-79 -/

/-- The two lists built by the discovery loop of `dumpTable`. -/
structure Columns where
  fields : List String
  selfields : List String
  deriving DecidableEq, Repr

/-- ``fmt.Sprintf("`%s`", name)``. -/
def quoteName (name : String) : String := "`" ++ name ++ "`"

/-- The select expression of one emitted column (lines 70-75). -/
def selectExpr (args : Config) (table : String) (name : String) : String :=
  match args.Selects table name with
  | some replacement => replacement ++ " AS `" ++ name ++ "`"
  | none => "`" ++ name ++ "`"

/-- The body of `for _, fld := range flds` in `dumpTable` (lines 63-76). -/
def dumpTableField (args : Config) (table : String) (acc : Columns) (fld : Field) :
    Columns :=
  match args.Filters table fld.Name with
  | some _ => acc
  | none =>
    { fields := acc.fields ++ [quoteName fld.Name]
      selfields := acc.selfields ++ [selectExpr args table fld.Name] }

/-- The discovery block of `dumpTable` (lines 57-79) run on the probe cursor's fields. -/
def dumpTableColumns (args : Config) (table : String) (flds : List Field) : Columns :=
  flds.foldl (dumpTableField args table) { fields := [], selfields := [] }

/-- Lines 81-83: the predicate appended to the data query. -/
def whereClause (args : Config) (table : String) : String :=
  match args.Wheres table with
  | some v => " WHERE " ++ v
  | none => ""

/-- The probe query of line 59. -/
def probeQuery (database table : String) : String :=
  "SELECT * FROM `" ++ database ++ "`.`" ++ table ++ "` LIMIT 1"

/-- The data query of line 85. -/
def dataQuery (args : Config) (database table : String) (selfields : List String) : String :=
  "SELECT " ++ String.intercalate ", " selfields ++ " FROM `" ++ database ++ "`.`" ++ table
    ++ "` " ++ whereClause args table

/-! ## The SQL-format dump loop, `dumpTable` lines 88-148 -/

/-- The local variables of `dumpTable`, the two run-wide counters of `args`, and the
`WriteFile` calls made so far (path and content, oldest first). -/
structure SqlDump where
  fileNo : Nat
  stmtsize : Nat
  chunkbytes : Nat
  rows : List String
  inserts : List String
  allBytes : Nat
  allRows : Nat
  Allbytes : Nat
  Allrows : Nat
  files : List (String × String)
  deriving DecidableEq, Repr

/-- Lines 122 and 141: the text of one INSERT statement. -/
def insertone (table : String) (fields rows : List String) : String :=
  "INSERT INTO `" ++ table ++ "`(" ++ String.intercalate "," fields ++ ") VALUES\n"
    ++ String.intercalate ",\n" rows

/-- Lines 129 and 145: the content of one chunk file. -/
def sqlQuery (inserts : List String) : String :=
  String.intercalate ";\n" inserts ++ ";\n"

/-- Lines 130 and 146: `fmt.Sprintf("%s/%s.%s.%05d.sql", ...)`. -/
def sqlFile (args : Config) (database table : String) (fileNo : Nat) : String :=
  args.Outdir ++ "/" ++ database ++ "." ++ table ++ "." ++ pad5 fileNo ++ ".sql"

/-- Lines 112-119: the tuple `r` is buffered and counted. -/
def countRow (s : SqlDump) (r : String) : SqlDump :=
  { s with
    rows := s.rows ++ [r]
    allRows := (s.allRows + 1) % u64
    stmtsize := s.stmtsize + len r
    chunkbytes := s.chunkbytes + len r
    allBytes := (s.allBytes + len r % u64) % u64
    Allbytes := (s.Allbytes + len r % u64) % u64
    Allrows := (s.Allrows + 1) % u64 }

/-- Lines 121-126: the statement is closed when its size reaches `args.StmtSize`. -/
def closeStmt (args : Config) (table : String) (fields : List String) (s : SqlDump) :
    SqlDump :=
  if args.StmtSize ≤ (s.stmtsize : Int) then
    { s with
      inserts := s.inserts ++ [insertone table fields s.rows]
      rows := []
      stmtsize := 0 }
  else s

/-- Lines 128-137: the chunk file is written when the byte count reaches
`args.ChunksizeInMB` megabytes. -/
def rollChunk (args : Config) (database table : String) (s : SqlDump) : SqlDump :=
  if args.ChunksizeInMB ≤ ((s.chunkbytes / 1024 / 1024 : Nat) : Int) then
    { s with
      files := s.files ++ [(sqlFile args database table s.fileNo, sqlQuery s.inserts)]
      inserts := []
      chunkbytes := 0
      fileNo := s.fileNo + 1 }
  else s

/-- One iteration of `for cursor.Next()` (lines 93-138) on the tuple `r` of the row. -/
def dumpTableStep (args : Config) (database table : String) (fields : List String)
    (s : SqlDump) (r : String) : SqlDump :=
  rollChunk args database table (closeStmt args table fields (countRow s r))

/-- The state at line 88-92, before the first row. -/
def dumpTableInit (args : Config) : SqlDump :=
  { fileNo := 1, stmtsize := 0, chunkbytes := 0, rows := [], inserts := []
    allBytes := 0, allRows := 0, Allbytes := args.Allbytes
    Allrows := args.Allrows, files := [] }

/-- The loop of lines 93-138 over the tuples of the rows, in stream order. -/
def dumpTableLoop (args : Config) (database table : String) (fields : List String)
    (tuples : List String) : SqlDump :=
  tuples.foldl (dumpTableStep args database table fields) (dumpTableInit args)

/-- Lines 139-148: what is written after the stream has ended. -/
def dumpTableFinish (args : Config) (database table : String) (fields : List String)
    (s : SqlDump) : SqlDump :=
  if 0 < s.chunkbytes then
    let inserts :=
      if 0 < s.rows.length then s.inserts ++ [insertone table fields s.rows] else s.inserts
    { s with
      inserts := inserts
      files := s.files ++ [(sqlFile args database table s.fileNo, sqlQuery inserts)] }
  else s

/-- The emitted column list of `dumpTable` (lines 57-79) on the connection `conn`. -/
def dumpTableFields (conn : Connection) (args : Config) (database table : String) :
    List String :=
  (dumpTableColumns args table (conn.StreamFetch (probeQuery database table)).Fields).fields

/-- The rows of the data cursor opened by `dumpTable` at line 85. -/
def dumpTableRows (conn : Connection) (args : Config) (database table : String) :
    List (List Value) :=
  (conn.StreamFetch (dataQuery args database table
    (dumpTableColumns args table
      (conn.StreamFetch (probeQuery database table)).Fields).selfields)).Rows

/-- The function `dumpTable`: column discovery on the probe cursor, the data query, the
loop over its rows and the final write.  The result carries the files written. -/
def dumpTable (EscapeBytes : String → String) (conn : Connection) (args : Config)
    (database table : String) : SqlDump :=
  dumpTableFinish args database table (dumpTableFields conn args database table)
    (dumpTableLoop args database table (dumpTableFields conn args database table)
      ((dumpTableRows conn args database table).map (sqlTuple EscapeBytes)))

/-! ## The statement-level view of the SQL-format dump loop

The same loop as `dumpTableStep`, keeping the rows of every closed statement instead of
its text, and for every file written its sequence number, the row groups of its
statements and the tuples counted in `chunkbytes` when it was written. -/

/-- One chunk file in the statement-level view. -/
structure StmtFile where
  fileNo : Nat
  stmts : List (List String)
  counted : List String
  deriving DecidableEq, Repr

/-- The loop state in the statement-level view; `counted` holds the tuples added to
`chunkbytes` since the last rollover. -/
structure StmtDump where
  fileNo : Nat
  stmtsize : Nat
  chunkbytes : Nat
  rows : List String
  inserts : List (List String)
  counted : List String
  files : List StmtFile
  deriving DecidableEq, Repr

/-- The statement-level view of one loop iteration (`countRow`, `closeStmt`,
`rollChunk` in turn). -/
def stmtStep (args : Config) (t : StmtDump) (r : String) : StmtDump :=
  let t1 : StmtDump :=
    { t with
      rows := t.rows ++ [r]
      stmtsize := t.stmtsize + len r
      chunkbytes := t.chunkbytes + len r
      counted := t.counted ++ [r] }
  let t2 : StmtDump :=
    if args.StmtSize ≤ (t1.stmtsize : Int) then
      { t1 with inserts := t1.inserts ++ [t1.rows], rows := [], stmtsize := 0 }
    else t1
  if args.ChunksizeInMB ≤ ((t2.chunkbytes / 1024 / 1024 : Nat) : Int) then
    { t2 with
      files := t2.files ++ [{ fileNo := t2.fileNo, stmts := t2.inserts, counted := t2.counted }]
      inserts := []
      counted := []
      chunkbytes := 0
      fileNo := t2.fileNo + 1 }
  else t2

/-- The statement-level view of the state before the first row. -/
def stmtInit : StmtDump :=
  { fileNo := 1, stmtsize := 0, chunkbytes := 0, rows := [], inserts := [], counted := []
    files := [] }

/-- The statement-level view of the loop. -/
def stmtLoop (args : Config) (tuples : List String) : StmtDump :=
  tuples.foldl (stmtStep args) stmtInit

/-- The text of a file of the statement-level view, as `dumpTable` writes it. -/
def renderFile (args : Config) (database table : String) (fields : List String)
    (f : StmtFile) : String × String :=
  (sqlFile args database table f.fileNo, sqlQuery (f.stmts.map (insertone table fields)))

/-- The sum of the byte lengths of a list of tuples. -/
def totalLen (rows : List String) : Nat := (rows.map len).sum

/-- A group of rows closed by the statement-size rule: it is not empty, its tuples
reach the threshold together, and no shorter non-empty run of its first rows does. -/
def ClosedAt (stmtSize : Int) (g : List String) : Prop :=
  g ≠ [] ∧ stmtSize ≤ (totalLen g : Int) ∧
    ∀ k, 0 < k → k < g.length → (totalLen (g.take k) : Int) < stmtSize

/-- The statement-level view of `dumpTableFinish`. -/
def stmtFinish (t : StmtDump) : StmtDump :=
  if 0 < t.chunkbytes then
    let inserts := if 0 < t.rows.length then t.inserts ++ [t.rows] else t.inserts
    { t with
      inserts := inserts
      files := t.files ++ [{ fileNo := t.fileNo, stmts := inserts, counted := t.counted }] }
  else t

/-- The state `s` of the dump loop is the text of the statement-level state `t`. -/
def Renders (args : Config) (database table : String) (fields : List String)
    (t : StmtDump) (s : SqlDump) : Prop :=
  s.fileNo = t.fileNo ∧ s.stmtsize = t.stmtsize ∧ s.chunkbytes = t.chunkbytes ∧
    s.rows = t.rows ∧ s.inserts = t.inserts.map (insertone table fields) ∧
    s.files = t.files.map (renderFile args database table fields)

/-- What the statement-level state `t` keeps true of the tuples read so far: the closed
statements followed by the open one are the tuples in stream order, `stmtsize` is the
size of the open statement, no non-empty run of first rows of the open statement has
reached the threshold, and every closed statement was closed by the threshold rule. -/
structure StmtInv (args : Config) (tuples : List String) (t : StmtDump) : Prop where
  order : ((t.files.map (fun f => f.stmts)).flatten ++ t.inserts).flatten ++ t.rows = tuples
  size : t.stmtsize = totalLen t.rows
  below : ∀ k, 0 < k → k ≤ t.rows.length → (totalLen (t.rows.take k) : Int) < args.StmtSize
  closed : ∀ g, g ∈ (t.files.map (fun f => f.stmts)).flatten ++ t.inserts →
    ClosedAt args.StmtSize g

/-- What the statement-level state `t` keeps true of the byte count: the tuples counted
for the files written, followed by those counted since the last rollover, are the tuples
read; `chunkbytes` is the size of the latter, which is below the threshold; and every
file was written when its count reached the threshold with its last tuple. -/
structure ChunkInv (args : Config) (tuples : List String) (t : StmtDump) : Prop where
  order : (t.files.map (fun f => f.counted)).flatten ++ t.counted = tuples
  size : t.chunkbytes = totalLen t.counted
  pending : t.counted = [] ∨
    ((totalLen t.counted / 1024 / 1024 : Nat) : Int) < args.ChunksizeInMB
  written : ∀ f, f ∈ t.files →
    f.counted ≠ [] ∧ args.ChunksizeInMB ≤ ((totalLen f.counted / 1024 / 1024 : Nat) : Int) ∧
    (f.counted.dropLast = [] ∨
      ((totalLen f.counted.dropLast / 1024 / 1024 : Nat) : Int) < args.ChunksizeInMB)

/-! ## The delimited dump, `dumpTableCsv` lines 156-253

`encoding/csv` is a collaborator: `csvRecord sep record` stands for the bytes that a
`csv.Writer` with `Comma = sep` emits for `Write(record)`.  Every `Write` is followed by
a `Flush` before the writer is replaced or the function returns, so the bytes are
appended to the writer's file at once.  The file system is the list of paths with their
contents. -/

/-- The three lists built by the discovery loop of `dumpTableCsv`. -/
structure CsvColumns where
  fields : List String
  selfields : List String
  headerfields : List String
  deriving DecidableEq, Repr

/-- The body of `for _, fld := range flds` in `dumpTableCsv` (lines 169-183). -/
def dumpTableCsvField (args : Config) (table : String) (acc : CsvColumns) (fld : Field) :
    CsvColumns :=
  match args.Filters table fld.Name with
  | some _ => acc
  | none =>
    { fields := acc.fields ++ [quoteName fld.Name]
      headerfields := acc.headerfields ++ [fld.Name]
      selfields := acc.selfields ++ [selectExpr args table fld.Name] }

/-- The discovery block of `dumpTableCsv` (lines 163-186). -/
def dumpTableCsvColumns (args : Config) (table : String) (flds : List Field) : CsvColumns :=
  flds.foldl (dumpTableCsvField args table) { fields := [], selfields := [], headerfields := [] }

/-- One iteration of `for _, v := range row` in `dumpTableCsv` (lines 213-226): the
value appended and the amount added to `rowsize`. -/
def csvValue (EscapeBytes : String → String) (v : Value) : String × Nat :=
  match v.Raw with
  | none => ("NULL", 4)
  | some raw =>
    if isNumeric v then (v.String, len v.String)
    else (EscapeBytes raw, len raw)

/-- The inner loop of lines 210-227: `values` and `rowsize` of a row. -/
def csvValues (EscapeBytes : String → String) (row : List Value) : List String × Nat :=
  row.foldl
    (fun acc v => (acc.1 ++ [(csvValue EscapeBytes v).1], acc.2 + (csvValue EscapeBytes v).2))
    ([], 0)

/-- `os.Create(path)`: the file is created, or truncated when it exists. -/
def osCreate (fs : List (String × String)) (path : String) : List (String × String) :=
  if fs.any (fun e => e.1 == path) then
    fs.map (fun e => if e.1 = path then (e.1, "") else e)
  else fs ++ [(path, "")]

/-- Bytes written through a writer reach the end of the file at `path`. -/
def fsWrite (fs : List (String × String)) (path data : String) : List (String × String) :=
  fs.map (fun e => if e.1 = path then (e.1, e.2 ++ data) else e)

/-- The content of the file at `path`, if there is one. -/
def fsRead (fs : List (String × String)) (path : String) : Option String :=
  (fs.find? (fun e => e.1 == path)).map (fun e => e.2)

/-- Lines 196 and 237: `fmt.Sprintf("%s/%s.%s.%05d.csv", ...)`. -/
def csvFile (args : Config) (database table : String) (fileNo : Nat) : String :=
  args.Outdir ++ "/" ++ database ++ "." ++ table ++ "." ++ pad5 fileNo ++ ".csv"

/-- The local variables of `dumpTableCsv`, the run-wide counters, the `os.Create` calls
made so far (oldest first), the path of the file behind the current writer, and the
file system. -/
structure CsvDump where
  fileNo : Nat
  chunkbytes : Nat
  allBytes : Nat
  allRows : Nat
  Allbytes : Nat
  Allrows : Nat
  created : List String
  file : String
  fs : List (String × String)
  deriving DecidableEq, Repr

/-- Lines 195-205: the first file is created and the header row written. -/
def dumpTableCsvInit (csvRecord : Char → List String → String) (args : Config)
    (database table : String) (separator : Char) (headerfields : List String)
    (fs : List (String × String)) : CsvDump :=
  let file := csvFile args database table 1
  { fileNo := 1, chunkbytes := 0, allBytes := 0, allRows := 0, Allbytes := args.Allbytes
    Allrows := args.Allrows, created := [file], file := file
    fs := fsWrite (osCreate fs file) file (csvRecord separator headerfields) }

/-- One iteration of `for cursor.Next()` in `dumpTableCsv` (lines 206-247). -/
def dumpTableCsvStep (EscapeBytes : String → String)
    (csvRecord : Char → List String → String) (args : Config) (database table : String)
    (separator : Char) (headerfields : List String) (s : CsvDump) (row : List Value) :
    CsvDump :=
  let values := (csvValues EscapeBytes row).1
  let rowsize := (csvValues EscapeBytes row).2
  let s1 : CsvDump :=
    { s with
      fs := fsWrite s.fs s.file (csvRecord separator values)
      chunkbytes := s.chunkbytes + rowsize
      allRows := (s.allRows + 1) % u64
      Allbytes := (s.Allbytes + rowsize % u64) % u64
      Allrows := (s.Allrows + 1) % u64 }
  if args.ChunksizeInMB ≤ ((s1.chunkbytes / 1024 / 1024 : Nat) : Int) then
    let file := csvFile args database table s1.fileNo
    { s1 with
      created := s1.created ++ [file]
      file := file
      fs := fsWrite (osCreate s1.fs file) file (csvRecord separator headerfields)
      chunkbytes := 0
      fileNo := s1.fileNo + 1 }
  else s1

/-- The loop of lines 206-247 over the rows of the data cursor. -/
def dumpTableCsvLoop (EscapeBytes : String → String)
    (csvRecord : Char → List String → String) (args : Config) (database table : String)
    (separator : Char) (headerfields : List String) (s : CsvDump) (rows : List (List Value)) :
    CsvDump :=
  rows.foldl (dumpTableCsvStep EscapeBytes csvRecord args database table separator headerfields)
    s

/-- The header row of `dumpTableCsv` on the connection `conn`. -/
def dumpTableCsvHeader (conn : Connection) (args : Config) (database table : String) :
    List String :=
  (dumpTableCsvColumns args table
    (conn.StreamFetch (probeQuery database table)).Fields).headerfields

/-- The rows of the data cursor opened by `dumpTableCsv` at line 192. -/
def dumpTableCsvRows (conn : Connection) (args : Config) (database table : String) :
    List (List Value) :=
  (conn.StreamFetch (dataQuery args database table
    (dumpTableCsvColumns args table
      (conn.StreamFetch (probeQuery database table)).Fields).selfields)).Rows

/-- The function `dumpTableCsv` started on the file system `fs`. -/
def dumpTableCsv (EscapeBytes : String → String) (csvRecord : Char → List String → String)
    (conn : Connection) (args : Config) (database table : String) (separator : Char)
    (fs : List (String × String)) : CsvDump :=
  dumpTableCsvLoop EscapeBytes csvRecord args database table separator
    (dumpTableCsvHeader conn args database table)
    (dumpTableCsvInit csvRecord args database table separator
      (dumpTableCsvHeader conn args database table) fs)
    (dumpTableCsvRows conn args database table)

/-! ## Catalog selection, `Dumper` lines 299-358 -/

/-- A compiled regular expression (package `regexp`), seen through `MatchString`. -/
structure Regexp where
  MatchString : String → Bool

/-- `strings.Split(s, ",")` on the characters of `s`: the pieces between the commas. -/
def splitComma : List Char → List (List Char)
  | [] => [[]]
  | c :: cs =>
    if c = ',' then [] :: splitComma cs
    else
      match splitComma cs with
      | [] => [[c]]
      | w :: ws => (c :: w) :: ws

/-- `strings.Split(s, ",")`. -/
def stringsSplit (s : String) : List String :=
  (splitComma s.data).map String.mk

/-- The loops of `allTables` and `allDatabases`: `t[0].String()` of every row is
appended; indexing an empty row stops the process (`none`). -/
def firstColumn : List (List Value) → List String → Option (List String)
  | [], names => some names
  | [] :: _, _ => none
  | (v :: _) :: rest, names => firstColumn rest (names ++ [v.String])

/-- The function `allTables`. -/
def allTables (conn : Connection) (database : String) : Option (List String) :=
  firstColumn (conn.Fetch ("SHOW TABLES FROM `" ++ database ++ "`")) []

/-- The function `allDatabases`. -/
def allDatabases (conn : Connection) : Option (List String) :=
  firstColumn (conn.Fetch "SHOW DATABASES") []

/-- The loop of `filterDatabases` (lines 282-286). -/
def filterDatabasesLoop (filter : Regexp) (invert : Bool) :
    List (List Value) → List String → Option (List String)
  | [], databases => some databases
  | [] :: _, _ => none
  | (v :: _) :: rest, databases =>
    if (!invert && filter.MatchString v.String) || (invert && !filter.MatchString v.String) then
      filterDatabasesLoop filter invert rest (databases ++ [v.String])
    else filterDatabasesLoop filter invert rest databases

/-- The function `filterDatabases`. -/
def filterDatabases (conn : Connection) (filter : Regexp) (invert : Bool) :
    Option (List String) :=
  filterDatabasesLoop filter invert (conn.Fetch "SHOW DATABASES") []

/-- Lines 303-312 of `Dumper`: the database list.  `MustCompile` is
`regexp.MustCompile`, which stops the process (`none`) on a pattern that does not
compile. -/
def dumperDatabases (MustCompile : String → Option Regexp) (conn : Connection)
    (args : Config) : Option (List String) :=
  if args.DatabaseRegexp ≠ "" then
    match MustCompile args.DatabaseRegexp with
    | none => none
    | some r => filterDatabases conn r args.DatabaseInvertRegexp
  else if args.Database ≠ "" then some (stringsSplit args.Database)
  else allDatabases conn

/-- Lines 317-324 of `Dumper`: the table list of every database, in database order. -/
def dumperTables (conn : Connection) (args : Config) :
    List String → Option (List (List String))
  | [] => some []
  | database :: rest =>
    match (if args.Table ≠ "" then some (stringsSplit args.Table) else allTables conn database),
      dumperTables conn args rest with
    | some ts, some tss => some (ts :: tss)
    | _, _ => none

/-- Lines 328-358 of `Dumper`: the (database, table) pairs for which a table schema is
written and a worker is launched, in launch order. -/
def dumperJobs : List String → List (List String) → List (String × String)
  | database :: databases, ts :: tables =>
    ts.map (fun table => (database, table)) ++ dumperJobs databases tables
  | _, _ => []

/-- The catalog phase of `Dumper`: the databases whose schema is written (lines 313-315),
their table lists, and the jobs launched. -/
structure DumperPlan where
  databases : List String
  tables : List (List String)
  jobs : List (String × String)
  deriving DecidableEq, Repr

/-- The catalog phase of `Dumper` (lines 299-358). -/
def dumperPlan (MustCompile : String → Option Regexp) (conn : Connection) (args : Config) :
    Option DumperPlan :=
  match dumperDatabases MustCompile conn args with
  | none => none
  | some databases =>
    match dumperTables conn args databases with
    | none => none
    | some tables =>
      some { databases := databases, tables := tables, jobs := dumperJobs databases tables }

/-- The number written by a string of decimal digits, leading zeros allowed. -/
def digitsValue (digits : List Char) : Nat :=
  digits.foldl (fun acc c => acc * 10 + (c.toNat - 48)) 0

/-! ## The per-database pools and the workers, `Dumper` lines 327-358 -/

/-- Go's `/` on `int`: the quotient truncated toward zero; a zero divisor stops the
process (`none`). -/
def goDiv (a b : Int) : Option Int :=
  if b = 0 then none else some (Int.tdiv a b)

/-- A call made on the pool of a database by the loop of lines 328-358: `NewPool` with
its size (line 329), or `pool.Get()` for a table (line 337) on the pool of that size. -/
inductive PoolCall where
  | NewPool (database : String) (size : Int)
  | Get (database : String) (size : Int) (table : String)
  deriving DecidableEq, Repr

/-- The loop of lines 328-358 with `len(databases) = n`: for every database the quotient
`args.Threads / len(databases)` is evaluated and the pool constructed, then a connection
is requested from the pool for every table of the database.  The calls are listed in
program order, as made when each of them returns. -/
def dumperPoolCalls (threads : Int) (n : Nat) :
    List String → List (List String) → Option (List PoolCall)
  | database :: databases, ts :: tables =>
    match goDiv threads n with
    | none => none
    | some size =>
      match dumperPoolCalls threads n databases tables with
      | none => none
      | some rest =>
        some (PoolCall.NewPool database size :: ts.map (PoolCall.Get database size) ++ rest)
  | _, _ => some []

/-- The pool calls of `Dumper`: the catalog phase, then the loop of lines 328-358. -/
def dumperPools (MustCompile : String → Option Regexp) (conn : Connection) (args : Config) :
    Option (List PoolCall) :=
  match dumperPlan MustCompile conn args with
  | none => none
  | some plan => dumperPoolCalls args.Threads plan.databases.length plan.databases plan.tables

/-- The sizes of the pools constructed by a list of pool calls. -/
def poolSizes : List PoolCall → List Int
  | [] => []
  | PoolCall.NewPool _ size :: calls => size :: poolSizes calls
  | PoolCall.Get _ _ _ :: calls => poolSizes calls

/-- What a table worker has done when it ends without error. -/
inductive WorkerResult where
  | mysql (dump : SqlDump)
  | delimited (dump : CsvDump)
  deriving DecidableEq, Repr

/-- The body of the worker of lines 339-356: the dumper chosen by `args.Format`, or the
error of line 352. -/
def dumpWorker (EscapeBytes : String → String) (csvRecord : Char → List String → String)
    (conn : Connection) (args : Config) (database table : String)
    (fs : List (String × String)) : Except String WorkerResult :=
  if args.Format = "mysql" then
    Except.ok (WorkerResult.mysql (dumpTable EscapeBytes conn args database table))
  else if args.Format = "tsv" then
    Except.ok (WorkerResult.delimited
      (dumpTableCsv EscapeBytes csvRecord conn args database table '\t' fs))
  else if args.Format = "csv" then
    Except.ok (WorkerResult.delimited
      (dumpTableCsv EscapeBytes csvRecord conn args database table ',' fs))
  else Except.error "Unknown dump format"

/-! ## The connection pool seen by the workers of one database

The pool itself (`NewPool`, `Get`, `Put`) is in another file of package `common`.  The
loop of lines 332-357 takes a connection with `pool.Get()` before it starts the worker of
a table (line 337), and the worker gives the connection back with `pool.Put(conn)` when it
ends (line 342). -/

/-- Modelled from the spec: the connection pool (`NewPool`, `Get`, `Put`), which is not in
`dumper.go`.  A pool owns a fixed collection of connections; `free` are the connections in
the pool, `held` the running workers with the table they dump and the connection they
lease, `pending` the tables whose worker is not started yet. -/
structure PoolRun where
  free : List Nat
  held : List (String × Nat)
  pending : List String
  deriving DecidableEq, Repr

/-- Modelled from the spec: `NewPool(size, ...)` creates `size` connections, here numbered
from 0; no worker runs yet. -/
def poolInit (size : Nat) (tables : List String) : PoolRun :=
  { free := List.range size, held := [], pending := tables }

/-- What can happen next to the workers of a database: the loop starts the worker of the
next table, or the `i`-th running worker ends. -/
inductive PoolEvent where
  | launch
  | finish (i : Nat)
  deriving DecidableEq, Repr

/-- Modelled from the spec: acquire blocks until a connection is available and returns
exclusive ownership of it; release returns the connection to the free set.  `launch` is
lines 337-339 (`pool.Get()`, then `go`): it cannot happen (`none`) when no table is left
or no connection is free.  `finish i` is line 342 (`pool.Put(conn)`) for the `i`-th
running worker. -/
def poolStep (s : PoolRun) : PoolEvent → Option PoolRun
  | PoolEvent.launch =>
    match s.pending, s.free with
    | table :: pending, c :: free =>
      some { free := free, held := s.held ++ [(table, c)], pending := pending }
    | _, _ => none
  | PoolEvent.finish i =>
    match s.held[i]? with
    | some w => some { free := s.free ++ [w.2], held := s.held.eraseIdx i, pending := s.pending }
    | none => none

/-- An interleaving of the loop and the workers: the events in the order in which they
happen; `none` when an event of the list cannot happen. -/
def poolRun (s : PoolRun) : List PoolEvent → Option PoolRun
  | [] => some s
  | e :: es =>
    match poolStep s e with
    | none => none
    | some s1 => poolRun s1 es

/-- Modelled from the spec: the global pool (`NewPool(log, args.Threads, ...)` of line 292,
which is not in `dumper.go`) is sized to the configured thread count, and acquire blocks
until a session is available.  This is the session that `initPool.Get()` of line 300
obtains from the fresh pool, `none` when the pool holds no session and the call never
returns. -/
def initPoolGet (threads : Int) : Option Nat :=
  (poolInit threads.toNat []).free.head?

/-! ## The record writer of `encoding/csv`

`dumpTableCsv` hands every record to a `csv.Writer` of the Go standard library with
`Comma = separator` and `UseCRLF = false`.  The definitions below follow `Writer.Write`
and `fieldNeedsQuotes` of that package on the characters of the fields. -/

/-- The double quote character. -/
def dquote : Char := Char.ofNat 34

/-- `validDelim` of `encoding/csv`: the separator is not NUL, a double quote, a carriage
return, a line feed or the replacement character. -/
def validDelim (r : Char) : Bool :=
  r != Char.ofNat 0 && r != dquote && r != '\r' && r != '\n' && r != Char.ofNat 0xFFFD

/-- `unicode.IsSpace`: the characters with the White_Space property. -/
def isSpace (c : Char) : Bool :=
  (9 ≤ c.toNat && c.toNat ≤ 13) || c.toNat = 0x20 || c.toNat = 0x85 || c.toNat = 0xA0 ||
    c.toNat = 0x1680 || (0x2000 ≤ c.toNat && c.toNat ≤ 0x200A) || c.toNat = 0x2028 ||
    c.toNat = 0x2029 || c.toNat = 0x202F || c.toNat = 0x205F || c.toNat = 0x3000

/-- `fieldNeedsQuotes` of `encoding/csv`: an empty field needs none; the field `\.`
needs them, and so does a field that holds the separator, a double quote, a carriage
return or a line feed, or that starts with a space character. -/
def fieldNeedsQuotes (sep : Char) (field : String) : Bool :=
  if field = "" then false
  else if field = "\\." then true
  else if field.data.any (fun c => c == sep || c == dquote || c == '\r' || c == '\n') then true
  else
    match field.data with
    | c :: _ => isSpace c
    | [] => false

/-- One field as `Writer.Write` emits it: unchanged, or between double quotes with every
double quote inside doubled. -/
def csvField (sep : Char) (field : String) : String :=
  if fieldNeedsQuotes sep field then
    "\"" ++ String.mk (field.data.flatMap (fun c => if c = dquote then [dquote, dquote] else [c]))
      ++ "\""
  else field

/-- `Writer.Write(record)` of `encoding/csv` with `Comma = sep`: the fields separated by
`sep` and ended by a line feed; nothing is written when `sep` is not a valid separator
(the error returned is dropped by `dumpTableCsv`). -/
def csvWrite (sep : Char) (record : List String) : String :=
  if validDelim sep then
    String.intercalate (String.singleton sep) (record.map (csvField sep)) ++ "\n"
  else ""

/-- The bytes that `dumpTableCsv` adds to `chunkbytes` for a list of rows: the sum of
their `rowsize`. -/
def csvAccounted (EscapeBytes : String → String) (rows : List (List Value)) : Nat :=
  (rows.map (fun row => (csvValues EscapeBytes row).2)).sum

/-! ## Example inputs -/

/-- A configuration with the thresholds given and no filter, substitution or
predicate. -/
def exampleArgs (stmtSize chunksizeInMB : Int) : Config :=
  { Outdir := "out", Threads := 4, Database := "", DatabaseRegexp := ""
    DatabaseInvertRegexp := false, Table := "", Format := "mysql"
    ChunksizeInMB := chunksizeInMB, StmtSize := stmtSize, Allbytes := 0, Allrows := 0
    Wheres := fun _ => none, Selects := fun _ _ => none, Filters := fun _ _ => none }

/-- A non-NULL integer value with the rendering `s`. -/
def intValue (s : String) : Value :=
  { Raw := some s, String := s, IsSigned := true, IsUnsigned := false, IsFloat := false
    IsIntegral := true, IsDecimal := false }

/-- A non-NULL character value with the bytes `s`. -/
def textValue (s : String) : Value :=
  { Raw := some s, String := s, IsSigned := false, IsUnsigned := false, IsFloat := false
    IsIntegral := false, IsDecimal := false }

/-- A connection to a server whose table has the single integer column `id` and `n`
rows, each holding the value 10. -/
def uniformConn (n : Nat) : Connection :=
  { ID := 1
    StreamFetch := fun _ => { Fields := [{ Name := "id" }], Rows := List.replicate n [intValue "10"] }
    Fetch := fun _ => [] }

/-- A configuration in which column `secret` of table `t` is filtered and column `name`
is replaced by an expression. -/
def filterArgs : Config :=
  { exampleArgs 1000000 128 with
    Filters := fun table column =>
      if table = "t" ∧ column = "secret" then some "" else none
    Selects := fun table column =>
      if table = "t" ∧ column = "name" then some "UPPER(name)" else none }

/-- A connection to a server whose table has the columns `id` (integer) and `name`
(character) and the rows (1, "Ann"), (2, "Bo"). -/
def scenarioConn : Connection :=
  { ID := 1
    StreamFetch := fun _ =>
      { Fields := [{ Name := "id" }, { Name := "name" }]
        Rows := [[intValue "1", textValue "Ann"], [intValue "2", textValue "Bo"]] }
    Fetch := fun _ => [] }

/-- A connection to a server with the databases `a`, `b`, `c`, each with the tables
`t1` and `t2`. -/
def catalogConn : Connection :=
  { ID := 1
    StreamFetch := fun _ => { Fields := [], Rows := [] }
    Fetch := fun q =>
      if q = "SHOW DATABASES" then [[textValue "a"], [textValue "b"], [textValue "c"]]
      else [[textValue "t1"], [textValue "t2"]] }

/-- A pattern matcher for the examples: the pattern `^[ab]$` matches the names `a` and
`b`; no other pattern compiles. -/
def exampleCompile (pattern : String) : Option Regexp :=
  if pattern = "^[ab]$" then some { MatchString := fun s => s == "a" || s == "b" } else none

/-- A configuration with the database pattern `^[ab]$`, the explicit database list `c`
and the inversion flag given. -/
def regexpArgs (invert : Bool) : Config :=
  { exampleArgs 1000000 128 with
    DatabaseRegexp := "^[ab]$", DatabaseInvertRegexp := invert, Database := "c" }

/-- A configuration with the explicit database list `a,b` and the explicit table list
`x,y`. -/
def listArgs : Config :=
  { exampleArgs 1000000 128 with Database := "a,b", Table := "x,y" }

/-- A connection to a server whose table has the columns `id` and `name` and the single
row (1, "Doe, Ann"). -/
def commaConn : Connection :=
  { ID := 1
    StreamFetch := fun _ =>
      { Fields := [{ Name := "id" }, { Name := "name" }]
        Rows := [[intValue "1", textValue "Doe, Ann"]] }
    Fetch := fun _ => [] }

/-- A configuration with 4 threads, the explicit database list `a,b,c,d,e` and the
explicit table list `x`. -/
def crowdedArgs : Config :=
  { exampleArgs 1000000 128 with Database := "a,b,c,d,e", Table := "x" }

/-- A configuration with 7 threads, the explicit database list `a,b` and the explicit
table list `x,y`. -/
def sevenArgs : Config :=
  { exampleArgs 1000000 128 with Database := "a,b", Table := "x,y", Threads := 7 }

/-- A configuration with the format selector given. -/
def formatArgs (format : String) : Config :=
  { exampleArgs 1000000 128 with Format := format }

/-- A connection to a server whose only database is `c`, with the tables `t1` and
`t2`. -/
def lonelyConn : Connection :=
  { ID := 1
    StreamFetch := fun _ => { Fields := [], Rows := [] }
    Fetch := fun q =>
      if q = "SHOW DATABASES" then [[textValue "c"]]
      else [[textValue "t1"], [textValue "t2"]] }

/-! # Theorems -/

/-! ## Lists and strings -/

theorem foldl_snoc_map {α β : Type} (f : α → β) (l : List α) (init : List β) :
    l.foldl (fun acc x => acc ++ [f x]) init = init ++ l.map f := by
  induction l generalizing init with
  | nil => simp
  | cons a l ih => simp [ih]

theorem len_append (a b : String) : len (a ++ b) = len a + len b := by
  show String.utf8Len (a.data ++ b.data) = String.utf8Len a.data + String.utf8Len b.data
  exact String.utf8Len_append _ _

theorem string_append_right_cancel {a b c : String} (h : a ++ c = b ++ c) : a = b := by
  have h1 : (a ++ c).data = (b ++ c).data := by rw [h]
  simp only [String.data_append] at h1
  exact String.ext (List.append_cancel_right h1)

theorem string_append_left_cancel {a b c : String} (h : c ++ a = c ++ b) : a = b := by
  have h1 : (c ++ a).data = (c ++ b).data := by rw [h]
  simp only [String.data_append] at h1
  exact String.ext (List.append_cancel_left h1)

theorem quoteName_injective {a b : String} (h : quoteName a = quoteName b) : a = b := by
  unfold quoteName at h
  exact string_append_left_cancel (string_append_right_cancel h)

/-! ## Row encoding -/

theorem sqlValues_eq_map (EscapeBytes : String → String) (row : List Value) :
    sqlValues EscapeBytes row = row.map (sqlValue EscapeBytes) := by
  simp [sqlValues, foldl_snoc_map]

/-- C5: a NULL value is rendered as the unquoted literal NULL whatever its
classification; a non-NULL value with any of the numeric classifications (signed,
unsigned, float, integral, DECIMAL) is rendered as its canonical string with no quotes;
a non-NULL value with none of them is rendered as a double quote, the escaped raw bytes
and a double quote; and the tuple of a row is these renderings, in row order, joined
by commas between parentheses. -/
theorem sqlValue_by_classification (EscapeBytes : String → String) :
    (∀ str s u f i d, sqlValue EscapeBytes ⟨none, str, s, u, f, i, d⟩ = "NULL") ∧
    (∀ raw str u f i d, sqlValue EscapeBytes ⟨some raw, str, true, u, f, i, d⟩ = str) ∧
    (∀ raw str s f i d, sqlValue EscapeBytes ⟨some raw, str, s, true, f, i, d⟩ = str) ∧
    (∀ raw str s u i d, sqlValue EscapeBytes ⟨some raw, str, s, u, true, i, d⟩ = str) ∧
    (∀ raw str s u f d, sqlValue EscapeBytes ⟨some raw, str, s, u, f, true, d⟩ = str) ∧
    (∀ raw str s u f i, sqlValue EscapeBytes ⟨some raw, str, s, u, f, i, true⟩ = str) ∧
    (∀ raw str, sqlValue EscapeBytes ⟨some raw, str, false, false, false, false, false⟩
      = "\"" ++ EscapeBytes raw ++ "\"") ∧
    (∀ row, sqlTuple EscapeBytes row
      = "(" ++ String.intercalate "," (row.map (sqlValue EscapeBytes)) ++ ")") := by
  refine ⟨?_, ?_, ?_, ?_, ?_, ?_, ?_, ?_⟩
  · intros; rfl
  · intros; simp [sqlValue, isNumeric]
  · intros; simp [sqlValue, isNumeric]
  · intros; simp [sqlValue, isNumeric]
  · intros; simp [sqlValue, isNumeric]
  · intros; simp [sqlValue, isNumeric]
  · intros; simp [sqlValue, isNumeric]
  · intro row; simp [sqlTuple, sqlValues_eq_map]

/-! ## Column discovery -/

/-- The columns kept by the discovery loops: those with no entry in the filter of the
table. -/
theorem dumpTableColumns_eq (args : Config) (table : String) (flds : List Field) :
    dumpTableColumns args table flds =
      { fields := (flds.filter (fun f => (args.Filters table f.Name).isNone)).map
          (fun f => quoteName f.Name)
        selfields := (flds.filter (fun f => (args.Filters table f.Name).isNone)).map
          (fun f => selectExpr args table f.Name) } := by
  have key : ∀ (l : List Field) (acc : Columns),
      l.foldl (dumpTableField args table) acc =
        { fields := acc.fields ++ (l.filter (fun f => (args.Filters table f.Name).isNone)).map
            (fun f => quoteName f.Name)
          selfields := acc.selfields ++
            (l.filter (fun f => (args.Filters table f.Name).isNone)).map
              (fun f => selectExpr args table f.Name) } := by
    intro l
    induction l with
    | nil => intro acc; simp
    | cons a l ih =>
      intro acc
      rw [List.foldl_cons, ih]
      cases h : args.Filters table a.Name <;> simp [dumpTableField, h, List.filter_cons]
  simpa using key flds { fields := [], selfields := [] }

theorem dumpTableCsvColumns_eq (args : Config) (table : String) (flds : List Field) :
    dumpTableCsvColumns args table flds =
      { fields := (flds.filter (fun f => (args.Filters table f.Name).isNone)).map
          (fun f => quoteName f.Name)
        selfields := (flds.filter (fun f => (args.Filters table f.Name).isNone)).map
          (fun f => selectExpr args table f.Name)
        headerfields := (flds.filter (fun f => (args.Filters table f.Name).isNone)).map
          (fun f => f.Name) } := by
  have key : ∀ (l : List Field) (acc : CsvColumns),
      l.foldl (dumpTableCsvField args table) acc =
        { fields := acc.fields ++ (l.filter (fun f => (args.Filters table f.Name).isNone)).map
            (fun f => quoteName f.Name)
          selfields := acc.selfields ++
            (l.filter (fun f => (args.Filters table f.Name).isNone)).map
              (fun f => selectExpr args table f.Name)
          headerfields := acc.headerfields ++
            (l.filter (fun f => (args.Filters table f.Name).isNone)).map (fun f => f.Name) } := by
    intro l
    induction l with
    | nil => intro acc; simp
    | cons a l ih =>
      intro acc
      rw [List.foldl_cons, ih]
      cases h : args.Filters table a.Name <;> simp [dumpTableCsvField, h, List.filter_cons]
  simpa using key flds { fields := [], selfields := [], headerfields := [] }

theorem quoteName_eq_iff (a b : String) : quoteName a = quoteName b ↔ a = b :=
  ⟨quoteName_injective, fun h => by rw [h]⟩

theorem count_kept_names (args : Config) (table c : String) (hc : args.Filters table c = none)
    (flds : List Field) :
    ((flds.filter (fun f => (args.Filters table f.Name).isNone)).map (fun f => f.Name)).count c
      = (flds.map (fun f => f.Name)).count c := by
  induction flds with
  | nil => simp
  | cons a l ih =>
    cases h : args.Filters table a.Name with
    | none => simp [List.filter_cons, h, List.count_cons, ih]
    | some v =>
      have hne : a.Name ≠ c := by
        intro e
        rw [e, hc] at h
        exact Option.noConfusion h
      simp [List.filter_cons, h, List.count_cons, ih, hne]

theorem count_kept_quoted (args : Config) (table c : String)
    (hc : args.Filters table c = none) (flds : List Field) :
    ((flds.filter (fun f => (args.Filters table f.Name).isNone)).map
        (fun f => quoteName f.Name)).count (quoteName c)
      = (flds.map (fun f => f.Name)).count c := by
  induction flds with
  | nil => simp
  | cons a l ih =>
    cases h : args.Filters table a.Name with
    | none => simp [List.filter_cons, h, List.count_cons, ih, quoteName_eq_iff]
    | some v =>
      have hne : a.Name ≠ c := by
        intro e
        rw [e, hc] at h
        exact Option.noConfusion h
      simp [List.filter_cons, h, List.count_cons, ih, hne]

/-- C6: the emitted column list, the select list and (for `dumpTableCsv`) the header row
are built, in discovery order, from exactly the discovered columns that have no entry in
the filter of the dumped table.  A filtered column `c` is not in the column list nor in
the header row, and no select-list entry is made for it; a column that is not filtered
occurs in the column list and in the header row as often as it was discovered, and the
select list holds one entry per header column, position by position. -/
theorem filtered_columns_excluded (args : Config) (table : String) (flds : List Field) :
    (dumpTableColumns args table flds).fields
        = (flds.filter (fun f => (args.Filters table f.Name).isNone)).map
            (fun f => quoteName f.Name) ∧
    (dumpTableColumns args table flds).selfields
        = (flds.filter (fun f => (args.Filters table f.Name).isNone)).map
            (fun f => selectExpr args table f.Name) ∧
    (dumpTableCsvColumns args table flds).fields = (dumpTableColumns args table flds).fields ∧
    (dumpTableCsvColumns args table flds).selfields
        = (dumpTableColumns args table flds).selfields ∧
    (dumpTableCsvColumns args table flds).headerfields
        = (flds.filter (fun f => (args.Filters table f.Name).isNone)).map (fun f => f.Name) ∧
    (dumpTableCsvColumns args table flds).selfields
        = (dumpTableCsvColumns args table flds).headerfields.map (selectExpr args table) ∧
    (∀ c v, args.Filters table c = some v →
        quoteName c ∉ (dumpTableColumns args table flds).fields ∧
        quoteName c ∉ (dumpTableCsvColumns args table flds).fields ∧
        c ∉ (dumpTableCsvColumns args table flds).headerfields ∧
        ∀ f ∈ flds.filter (fun f => (args.Filters table f.Name).isNone), f.Name ≠ c) ∧
    (∀ c, args.Filters table c = none →
        (dumpTableColumns args table flds).fields.count (quoteName c)
          = (flds.map (fun f => f.Name)).count c ∧
        (dumpTableCsvColumns args table flds).fields.count (quoteName c)
          = (flds.map (fun f => f.Name)).count c ∧
        (dumpTableCsvColumns args table flds).headerfields.count c
          = (flds.map (fun f => f.Name)).count c) := by
  rw [dumpTableColumns_eq, dumpTableCsvColumns_eq]
  have hkept : ∀ c v, args.Filters table c = some v →
      ∀ f ∈ flds.filter (fun f => (args.Filters table f.Name).isNone), f.Name ≠ c := by
    intro c v hc f hf e
    have h2 := (List.mem_filter.mp hf).2
    rw [e, hc] at h2
    simp at h2
  refine ⟨rfl, rfl, rfl, rfl, rfl, ?_, ?_, ?_⟩
  · simp [List.map_map, Function.comp_def]
  · intro c v hc
    have hq : quoteName c ∉ (flds.filter (fun f => (args.Filters table f.Name).isNone)).map
        (fun f => quoteName f.Name) := by
      intro hmem
      obtain ⟨f, hf, hfe⟩ := List.mem_map.mp hmem
      exact hkept c v hc f hf (quoteName_injective hfe)
    refine ⟨hq, hq, ?_, hkept c v hc⟩
    intro hmem
    obtain ⟨f, hf, hfe⟩ := List.mem_map.mp hmem
    exact hkept c v hc f hf hfe
  · intro c hc
    exact ⟨count_kept_quoted args table c hc flds, count_kept_quoted args table c hc flds,
      count_kept_names args table c hc flds⟩

/-- An instance: table `t` with the columns id, secret and name, where `secret` is
filtered and `name` is replaced. -/
theorem filtered_columns_excluded_witness :
    (dumpTableCsvColumns filterArgs "t"
        [{ Name := "id" }, { Name := "secret" }, { Name := "name" }]).headerfields
      = ["id", "name"] ∧
    (dumpTableColumns filterArgs "t"
        [{ Name := "id" }, { Name := "secret" }, { Name := "name" }]).selfields
      = ["`id`", "UPPER(name) AS `name`"] ∧
    "secret" ∉ (dumpTableCsvColumns filterArgs "t"
        [{ Name := "id" }, { Name := "secret" }, { Name := "name" }]).headerfields ∧
    quoteName "secret" ∉ (dumpTableColumns filterArgs "t"
        [{ Name := "id" }, { Name := "secret" }, { Name := "name" }]).fields ∧
    (dumpTableColumns filterArgs "t"
        [{ Name := "id" }, { Name := "secret" }, { Name := "name" }]).fields.count
          (quoteName "name") = 1 :=
  ⟨by decide, by decide,
    ((filtered_columns_excluded filterArgs "t"
      [{ Name := "id" }, { Name := "secret" }, { Name := "name" }]).2.2.2.2.2.2.1
        "secret" "" (by decide)).2.2.1,
    ((filtered_columns_excluded filterArgs "t"
      [{ Name := "id" }, { Name := "secret" }, { Name := "name" }]).2.2.2.2.2.2.1
        "secret" "" (by decide)).1,
    by
      rw [((filtered_columns_excluded filterArgs "t"
        [{ Name := "id" }, { Name := "secret" }, { Name := "name" }]).2.2.2.2.2.2.2
          "name" (by decide)).1]
      decide⟩

/-! ## The dump loop and its statement-level view -/

theorem dumpTableLoop_snoc (args : Config) (database table : String) (fields : List String)
    (tuples : List String) (r : String) :
    dumpTableLoop args database table fields (tuples ++ [r])
      = dumpTableStep args database table fields
          (dumpTableLoop args database table fields tuples) r := by
  simp [dumpTableLoop, List.foldl_append]

theorem stmtLoop_snoc (args : Config) (tuples : List String) (r : String) :
    stmtLoop args (tuples ++ [r]) = stmtStep args (stmtLoop args tuples) r := by
  simp [stmtLoop, List.foldl_append]

theorem renders_step (args : Config) (database table : String) (fields : List String)
    (t : StmtDump) (s : SqlDump) (r : String)
    (h : Renders args database table fields t s) :
    Renders args database table fields (stmtStep args t r)
      (dumpTableStep args database table fields s r) := by
  obtain ⟨h1, h2, h3, h4, h5, h6⟩ := h
  unfold Renders stmtStep dumpTableStep rollChunk closeStmt countRow
  dsimp only
  simp only [h1, h2, h3, h4, h5, h6]
  split_ifs <;> simp [renderFile]

theorem renders_loop (args : Config) (database table : String) (fields : List String)
    (tuples : List String) :
    Renders args database table fields (stmtLoop args tuples)
      (dumpTableLoop args database table fields tuples) := by
  induction tuples using List.reverseRecOn with
  | nil => simp [Renders, stmtLoop, dumpTableLoop, stmtInit, dumpTableInit]
  | append_singleton l r ih =>
    rw [stmtLoop_snoc, dumpTableLoop_snoc]
    exact renders_step args database table fields _ _ r ih

theorem renders_finish (args : Config) (database table : String) (fields : List String)
    (t : StmtDump) (s : SqlDump) (h : Renders args database table fields t s) :
    Renders args database table fields (stmtFinish t)
      (dumpTableFinish args database table fields s) := by
  obtain ⟨h1, h2, h3, h4, h5, h6⟩ := h
  unfold Renders stmtFinish dumpTableFinish
  dsimp only
  simp only [h1, h2, h3, h4, h5, h6]
  split_ifs
  · simp [renderFile]
  · simp [renderFile]
  · exact ⟨h1, h2, h3, h4, h5, h6⟩

/-- The files written by `dumpTable` are the text of the files of the statement-level
view. -/
theorem dumpTable_files (EscapeBytes : String → String) (conn : Connection) (args : Config)
    (database table : String) :
    (dumpTable EscapeBytes conn args database table).files
      = (stmtFinish (stmtLoop args
          ((dumpTableRows conn args database table).map (sqlTuple EscapeBytes)))).files.map
          (renderFile args database table (dumpTableFields conn args database table)) :=
  (renders_finish args database table _ _ _ (renders_loop args database table _ _)).2.2.2.2.2

/-! ## Invariants of the statement-level view -/

theorem totalLen_nil : totalLen [] = 0 := rfl

theorem totalLen_append (a b : List String) : totalLen (a ++ b) = totalLen a + totalLen b := by
  simp [totalLen]

theorem totalLen_singleton (r : String) : totalLen [r] = len r := by
  simp [totalLen]

theorem stmtInv_step (args : Config) (tuples : List String) (t : StmtDump) (r : String)
    (h : StmtInv args tuples t) : StmtInv args (tuples ++ [r]) (stmtStep args t r) := by
  obtain ⟨ho, hs, hb, hc⟩ := h
  have hb1 : ∀ k, 0 < k → k < (t.rows ++ [r]).length →
      (totalLen ((t.rows ++ [r]).take k) : Int) < args.StmtSize := by
    intro k hk hlt
    have hle : k ≤ t.rows.length := by simp at hlt; omega
    rw [List.take_append_of_le_length hle]
    exact hb k hk hle
  have hsz : t.stmtsize + len r = totalLen (t.rows ++ [r]) := by
    rw [totalLen_append, totalLen_singleton, hs]
  unfold stmtStep
  dsimp only
  by_cases hS : args.StmtSize ≤ ((t.stmtsize + len r : Nat) : Int)
  · have hcl : ClosedAt args.StmtSize (t.rows ++ [r]) := by
      refine ⟨by simp, ?_, hb1⟩
      rw [← hsz]; exact hS
    rw [if_pos hS]
    split_ifs
    · constructor
      · simpa using congrArg (fun l => l ++ [r]) ho
      · simp [totalLen]
      · intro k hk hle; simp at hle; omega
      · intro g hg
        have hg2 : g ∈ (t.files.map (fun f => f.stmts)).flatten ++ t.inserts ∨
            g = t.rows ++ [r] := by
          simpa [or_assoc] using hg
        rcases hg2 with hg2 | hg2
        · exact hc g hg2
        · rw [hg2]; exact hcl
    · constructor
      · simpa using congrArg (fun l => l ++ [r]) ho
      · simp [totalLen]
      · intro k hk hle; simp at hle; omega
      · intro g hg
        have hg2 : g ∈ (t.files.map (fun f => f.stmts)).flatten ++ t.inserts ∨
            g = t.rows ++ [r] := by
          simpa [or_assoc] using hg
        rcases hg2 with hg2 | hg2
        · exact hc g hg2
        · rw [hg2]; exact hcl
  · have hb2 : ∀ k, 0 < k → k ≤ (t.rows ++ [r]).length →
        (totalLen ((t.rows ++ [r]).take k) : Int) < args.StmtSize := by
      intro k hk hle
      rcases Nat.lt_or_ge k (t.rows ++ [r]).length with hlt | hge
      · exact hb1 k hk hlt
      · have he : k = (t.rows ++ [r]).length := Nat.le_antisymm hle hge
        rw [he, List.take_length, ← hsz]
        exact not_le.mp hS
    rw [if_neg hS]
    split_ifs
    · constructor
      · simpa [List.append_assoc] using congrArg (fun l => l ++ [r]) ho
      · exact hsz
      · exact hb2
      · intro g hg
        have hg2 : g ∈ (t.files.map (fun f => f.stmts)).flatten ++ t.inserts := by
          simpa using hg
        exact hc g hg2
    · constructor
      · simpa [List.append_assoc] using congrArg (fun l => l ++ [r]) ho
      · exact hsz
      · exact hb2
      · exact hc

theorem stmtStep_chunk (args : Config) (t : StmtDump) (r : String) :
    (stmtStep args t r).files
        = (if args.ChunksizeInMB ≤ (((t.chunkbytes + len r) / 1024 / 1024 : Nat) : Int) then
            t.files ++ [{ fileNo := t.fileNo
                          stmts := if args.StmtSize ≤ ((t.stmtsize + len r : Nat) : Int) then
                              t.inserts ++ [t.rows ++ [r]] else t.inserts
                          counted := t.counted ++ [r] }]
          else t.files) ∧
    (stmtStep args t r).counted
        = (if args.ChunksizeInMB ≤ (((t.chunkbytes + len r) / 1024 / 1024 : Nat) : Int) then []
          else t.counted ++ [r]) ∧
    (stmtStep args t r).chunkbytes
        = (if args.ChunksizeInMB ≤ (((t.chunkbytes + len r) / 1024 / 1024 : Nat) : Int) then 0
          else t.chunkbytes + len r) := by
  unfold stmtStep
  dsimp only
  split_ifs <;> simp_all

theorem chunkInv_step (args : Config) (tuples : List String) (t : StmtDump) (r : String)
    (h : ChunkInv args tuples t) : ChunkInv args (tuples ++ [r]) (stmtStep args t r) := by
  obtain ⟨ho, hs, hp, hw⟩ := h
  obtain ⟨e1, e2, e3⟩ := stmtStep_chunk args t r
  have hsz : t.chunkbytes + len r = totalLen (t.counted ++ [r]) := by
    rw [totalLen_append, totalLen_singleton, hs]
  by_cases hC : args.ChunksizeInMB ≤ (((t.chunkbytes + len r) / 1024 / 1024 : Nat) : Int)
  · rw [if_pos hC] at e1 e2 e3
    constructor
    · rw [e1, e2]
      simpa using congrArg (fun l => l ++ [r]) ho
    · rw [e2, e3]; rfl
    · rw [e2]; exact Or.inl rfl
    · intro f hf
      rw [e1] at hf
      rcases List.mem_append.mp hf with hf | hf
      · exact hw f hf
      · rw [List.mem_singleton] at hf
        subst hf
        refine ⟨by simp, ?_, ?_⟩
        · show args.ChunksizeInMB ≤ ((totalLen (t.counted ++ [r]) / 1024 / 1024 : Nat) : Int)
          rw [← hsz]; exact hC
        · show (t.counted ++ [r]).dropLast = [] ∨
            ((totalLen (t.counted ++ [r]).dropLast / 1024 / 1024 : Nat) : Int)
              < args.ChunksizeInMB
          rw [List.dropLast_concat]
          exact hp
  · rw [if_neg hC] at e1 e2 e3
    constructor
    · rw [e1, e2, ← List.append_assoc, ho]
    · rw [e2, e3]; exact hsz
    · rw [e2, ← hsz]; exact Or.inr (not_le.mp hC)
    · intro f hf
      rw [e1] at hf
      exact hw f hf

theorem stmtInv_loop (args : Config) (tuples : List String) :
    StmtInv args tuples (stmtLoop args tuples) := by
  induction tuples using List.reverseRecOn with
  | nil =>
    refine ⟨rfl, rfl, ?_, ?_⟩
    · intro k hk hle
      simp [stmtLoop, stmtInit] at hle
      omega
    · intro g hg
      simp [stmtLoop, stmtInit] at hg
  | append_singleton l r ih =>
    rw [stmtLoop_snoc]
    exact stmtInv_step args l _ r ih

theorem chunkInv_loop (args : Config) (tuples : List String) :
    ChunkInv args tuples (stmtLoop args tuples) := by
  induction tuples using List.reverseRecOn with
  | nil =>
    refine ⟨rfl, rfl, Or.inl rfl, ?_⟩
    intro f hf
    simp [stmtLoop, stmtInit] at hf
  | append_singleton l r ih =>
    rw [stmtLoop_snoc]
    exact chunkInv_step args l _ r ih

/-! ## Runs of the loop without a rollover -/

theorem mb_mono {a b : Nat} (h : a ≤ b) :
    ((a / 1024 / 1024 : Nat) : Int) ≤ ((b / 1024 / 1024 : Nat) : Int) := by
  exact_mod_cast Nat.div_le_div_right (Nat.div_le_div_right h)

theorem totalLen_cons (r : String) (l : List String) :
    totalLen (r :: l) = len r + totalLen l := by
  simp [totalLen]

/-- A run of rows during which neither threshold is reached only buffers the rows. -/
theorem stmt_quiet_run (args : Config) (l : List String) (t : StmtDump)
    (hS : ((t.stmtsize + totalLen l : Nat) : Int) < args.StmtSize)
    (hC : (((t.chunkbytes + totalLen l) / 1024 / 1024 : Nat) : Int) < args.ChunksizeInMB) :
    l.foldl (stmtStep args) t =
      { t with
        rows := t.rows ++ l
        stmtsize := t.stmtsize + totalLen l
        chunkbytes := t.chunkbytes + totalLen l
        counted := t.counted ++ l } := by
  induction l generalizing t with
  | nil => simp [totalLen]
  | cons r l ih =>
    rw [totalLen_cons] at hS hC
    have hS1 : ¬ args.StmtSize ≤ ((t.stmtsize + len r : Nat) : Int) := by
      have : ((t.stmtsize + len r : Nat) : Int) ≤ ((t.stmtsize + (len r + totalLen l) : Nat) : Int) := by
        exact_mod_cast (by omega : t.stmtsize + len r ≤ t.stmtsize + (len r + totalLen l))
      omega
    have hC1 : ¬ args.ChunksizeInMB ≤ (((t.chunkbytes + len r) / 1024 / 1024 : Nat) : Int) := by
      have := mb_mono (by omega : t.chunkbytes + len r ≤ t.chunkbytes + (len r + totalLen l))
      omega
    have hstep : stmtStep args t r =
        { t with
          rows := t.rows ++ [r]
          stmtsize := t.stmtsize + len r
          chunkbytes := t.chunkbytes + len r
          counted := t.counted ++ [r] } := by
      unfold stmtStep
      dsimp only
      rw [if_neg hS1, if_neg hC1]
    rw [List.foldl_cons, hstep, ih]
    · simp [totalLen_cons, Nat.add_assoc]
    · simpa [Nat.add_assoc] using hS
    · simpa [Nat.add_assoc] using hC

/-- A run of rows each of which reaches the statement-size threshold on its own, with no
chunk rollover, closes one single-row statement per row. -/
theorem stmt_closing_run (args : Config) (l : List String) (t : StmtDump)
    (hrows : t.rows = []) (hsz : t.stmtsize = 0)
    (hS : ∀ r, r ∈ l → args.StmtSize ≤ (len r : Int))
    (hC : (((t.chunkbytes + totalLen l) / 1024 / 1024 : Nat) : Int) < args.ChunksizeInMB) :
    l.foldl (stmtStep args) t =
      { t with
        inserts := t.inserts ++ l.map (fun r => [r])
        chunkbytes := t.chunkbytes + totalLen l
        counted := t.counted ++ l } := by
  induction l generalizing t with
  | nil => simp [totalLen]
  | cons r l ih =>
    rw [totalLen_cons] at hC
    have hS1 : args.StmtSize ≤ ((t.stmtsize + len r : Nat) : Int) := by
      rw [hsz, Nat.zero_add]
      exact hS r (List.mem_cons_self r l)
    have hC1 : ¬ args.ChunksizeInMB ≤ (((t.chunkbytes + len r) / 1024 / 1024 : Nat) : Int) := by
      have := mb_mono (by omega : t.chunkbytes + len r ≤ t.chunkbytes + (len r + totalLen l))
      omega
    have hstep : stmtStep args t r =
        { t with
          inserts := t.inserts ++ [[r]]
          chunkbytes := t.chunkbytes + len r
          counted := t.counted ++ [r] } := by
      unfold stmtStep
      dsimp only
      rw [if_pos hS1, if_neg hC1]
      simp [hrows, hsz]
    rw [List.foldl_cons, hstep, ih]
    · simp [totalLen_cons, Nat.add_assoc]
    · exact hrows
    · exact hsz
    · intro x hx
      exact hS x (List.mem_cons_of_mem r hx)
    · simpa [Nat.add_assoc] using hC

/-! ## `strings.Join` and the size of the text written -/

theorem intercalate_go_append (s : String) (l : List String) (x y : String) :
    String.intercalate.go (x ++ y) s l = x ++ String.intercalate.go y s l := by
  induction l generalizing y with
  | nil => rfl
  | cons c l ih =>
    show String.intercalate.go (x ++ y ++ s ++ c) s l
      = x ++ String.intercalate.go (y ++ s ++ c) s l
    rw [← ih]
    simp [String.append_assoc]

theorem intercalate_nil (s : String) : String.intercalate s [] = "" := rfl

theorem intercalate_singleton (s a : String) : String.intercalate s [a] = a := rfl

theorem intercalate_cons_cons (s a b : String) (l : List String) :
    String.intercalate s (a :: b :: l) = a ++ s ++ String.intercalate s (b :: l) := by
  show String.intercalate.go (a ++ s ++ b) s l = a ++ s ++ String.intercalate.go b s l
  rw [String.append_assoc, intercalate_go_append, intercalate_go_append, String.append_assoc]

theorem len_intercalate_cons (s a : String) (l : List String) :
    len (String.intercalate s (a :: l)) = len a + totalLen l + l.length * len s := by
  induction l generalizing a with
  | nil => simp [intercalate_singleton, totalLen]
  | cons b l ih =>
    rw [intercalate_cons_cons, len_append, len_append, ih, totalLen_cons, List.length_cons]
    ring

/-- The size of a chunk file holding at least one statement: the statements and one
two-byte terminator for each. -/
theorem len_sqlQuery_cons (a : String) (l : List String) :
    len (sqlQuery (a :: l)) = totalLen (a :: l) + 2 * (a :: l).length := by
  unfold sqlQuery
  rw [len_append, len_intercalate_cons, totalLen_cons, List.length_cons]
  have h2 : len ";\n" = 2 := by decide
  rw [h2]
  ring

theorem sqlQuery_nil : sqlQuery [] = ";\n" := by decide

theorem sqlQuery_singleton (a : String) : sqlQuery [a] = a ++ ";\n" := rfl

theorem totalLen_replicate (n : Nat) (r : String) :
    totalLen (List.replicate n r) = n * len r := by
  induction n with
  | zero => simp [totalLen]
  | succ n ih =>
    rw [List.replicate_succ, totalLen_cons, ih]
    ring

theorem len_sqlTuple (EscapeBytes : String → String) (row : List Value) :
    len (sqlTuple EscapeBytes row)
      = len (String.intercalate "," (sqlValues EscapeBytes row)) + 2 := by
  unfold sqlTuple
  rw [len_append, len_append]
  have h1 : len "(" = 1 := by decide
  have h2 : len ")" = 1 := by decide
  rw [h1, h2]
  ring

/-! ## Single steps of the statement-level view -/

theorem stmtStep_quiet (args : Config) (t : StmtDump) (r : String)
    (hS : ¬ args.StmtSize ≤ ((t.stmtsize + len r : Nat) : Int))
    (hC : ¬ args.ChunksizeInMB ≤ (((t.chunkbytes + len r) / 1024 / 1024 : Nat) : Int)) :
    stmtStep args t r =
      { t with
        rows := t.rows ++ [r]
        stmtsize := t.stmtsize + len r
        chunkbytes := t.chunkbytes + len r
        counted := t.counted ++ [r] } := by
  unfold stmtStep
  dsimp only
  rw [if_neg hS, if_neg hC]

theorem stmtStep_close (args : Config) (t : StmtDump) (r : String)
    (hS : args.StmtSize ≤ ((t.stmtsize + len r : Nat) : Int))
    (hC : ¬ args.ChunksizeInMB ≤ (((t.chunkbytes + len r) / 1024 / 1024 : Nat) : Int)) :
    stmtStep args t r =
      { t with
        inserts := t.inserts ++ [t.rows ++ [r]]
        rows := []
        stmtsize := 0
        chunkbytes := t.chunkbytes + len r
        counted := t.counted ++ [r] } := by
  unfold stmtStep
  dsimp only
  rw [if_pos hS, if_neg hC]

theorem stmtStep_roll (args : Config) (t : StmtDump) (r : String)
    (hS : ¬ args.StmtSize ≤ ((t.stmtsize + len r : Nat) : Int))
    (hC : args.ChunksizeInMB ≤ (((t.chunkbytes + len r) / 1024 / 1024 : Nat) : Int)) :
    stmtStep args t r =
      { t with
        rows := t.rows ++ [r]
        stmtsize := t.stmtsize + len r
        files := t.files ++ [{ fileNo := t.fileNo, stmts := t.inserts, counted := t.counted ++ [r] }]
        inserts := []
        counted := []
        chunkbytes := 0
        fileNo := t.fileNo + 1 } := by
  unfold stmtStep
  dsimp only
  rw [if_neg hS, if_pos hC]

theorem stmtStep_close_roll (args : Config) (t : StmtDump) (r : String)
    (hS : args.StmtSize ≤ ((t.stmtsize + len r : Nat) : Int))
    (hC : args.ChunksizeInMB ≤ (((t.chunkbytes + len r) / 1024 / 1024 : Nat) : Int)) :
    stmtStep args t r =
      { t with
        rows := []
        stmtsize := 0
        files := t.files ++
          [{ fileNo := t.fileNo, stmts := t.inserts ++ [t.rows ++ [r]], counted := t.counted ++ [r] }]
        inserts := []
        counted := []
        chunkbytes := 0
        fileNo := t.fileNo + 1 } := by
  unfold stmtStep
  dsimp only
  rw [if_pos hS, if_pos hC]

/-! ## Uniform row streams -/

/-- A stream of `a + 1 + (b + 1)` equal tuples in which the statement closes with tuple
`a + 1` and the chunk rolls over with the last tuple, `b + 1` tuples after: the file holds
the closed statement, and the `b + 1` tuples read since stay in `rows` with `chunkbytes`
back at zero. -/
theorem stmtLoop_uniform_cut (args : Config) (r : String) (a b : Nat)
    (h1 : ((a * len r : Nat) : Int) < args.StmtSize)
    (h2 : args.StmtSize ≤ (((a + 1) * len r : Nat) : Int))
    (h4 : (((b + 1) * len r : Nat) : Int) < args.StmtSize)
    (h3 : ((((a + 1) * len r + b * len r) / 1024 / 1024 : Nat) : Int) < args.ChunksizeInMB)
    (h5 : args.ChunksizeInMB
      ≤ ((((a + 1) * len r + (b + 1) * len r) / 1024 / 1024 : Nat) : Int)) :
    stmtLoop args (List.replicate (a + 1) r ++ List.replicate (b + 1) r) =
      { fileNo := 2, stmtsize := (b + 1) * len r, chunkbytes := 0
        rows := List.replicate (b + 1) r, inserts := [], counted := []
        files := [{ fileNo := 1, stmts := [List.replicate (a + 1) r]
                    counted := List.replicate (a + 1) r ++ List.replicate (b + 1) r }] } := by
  have e1 : a * len r + len r = (a + 1) * len r := by ring
  have e2 : b * len r + len r = (b + 1) * len r := by ring
  have hA : (List.replicate a r).foldl (stmtStep args) stmtInit =
      { fileNo := 1, stmtsize := a * len r, chunkbytes := a * len r
        rows := List.replicate a r, inserts := [], counted := List.replicate a r
        files := [] } := by
    rw [stmt_quiet_run]
    · simp [stmtInit, totalLen_replicate]
    · simpa [stmtInit, totalLen_replicate] using h1
    · have := mb_mono (by nlinarith : a * len r ≤ (a + 1) * len r + b * len r)
      simp only [stmtInit, totalLen_replicate, Nat.zero_add]
      omega
  have hA2 : (List.replicate (a + 1) r).foldl (stmtStep args) stmtInit =
      { fileNo := 1, stmtsize := 0, chunkbytes := (a + 1) * len r
        rows := [], inserts := [List.replicate (a + 1) r]
        counted := List.replicate (a + 1) r, files := [] } := by
    rw [List.replicate_succ', List.foldl_append, hA, List.foldl_cons, List.foldl_nil,
      stmtStep_close]
    · simp [e1]
    · show args.StmtSize ≤ ((a * len r + len r : Nat) : Int)
      rw [e1]; exact h2
    · show ¬ args.ChunksizeInMB ≤ (((a * len r + len r) / 1024 / 1024 : Nat) : Int)
      have := mb_mono (by nlinarith : a * len r + len r ≤ (a + 1) * len r + b * len r)
      omega
  have hB : (List.replicate b r).foldl (stmtStep args)
        { fileNo := 1, stmtsize := 0, chunkbytes := (a + 1) * len r
          rows := [], inserts := [List.replicate (a + 1) r]
          counted := List.replicate (a + 1) r, files := [] } =
      { fileNo := 1, stmtsize := b * len r, chunkbytes := (a + 1) * len r + b * len r
        rows := List.replicate b r, inserts := [List.replicate (a + 1) r]
        counted := List.replicate (a + 1) r ++ List.replicate b r, files := [] } := by
    rw [stmt_quiet_run]
    · simp [totalLen_replicate]
    · show ((0 + totalLen (List.replicate b r) : Nat) : Int) < args.StmtSize
      rw [totalLen_replicate, Nat.zero_add]
      have : ((b * len r : Nat) : Int) ≤ (((b + 1) * len r : Nat) : Int) := by
        exact_mod_cast (by nlinarith : b * len r ≤ (b + 1) * len r)
      omega
    · show ((((a + 1) * len r + totalLen (List.replicate b r)) / 1024 / 1024 : Nat) : Int)
        < args.ChunksizeInMB
      rw [totalLen_replicate]; exact h3
  unfold stmtLoop
  rw [List.foldl_append, hA2, List.replicate_succ' b, List.foldl_append, hB, List.foldl_cons,
    List.foldl_nil, stmtStep_roll]
  · simp [e2, List.append_assoc]
    rw [List.replicate_add, List.append_assoc]
  · show ¬ args.StmtSize ≤ ((b * len r + len r : Nat) : Int)
    rw [e2]; omega
  · show args.ChunksizeInMB
      ≤ ((((a + 1) * len r + b * len r + len r) / 1024 / 1024 : Nat) : Int)
    rw [Nat.add_assoc, e2]; exact h5

theorem uniform_tuples (EscapeBytes : String → String) (n : Nat) (args : Config)
    (database table : String) :
    (dumpTableRows (uniformConn n) args database table).map (sqlTuple EscapeBytes)
      = List.replicate n "(10)" := by
  show (List.replicate n [intValue "10"]).map (sqlTuple EscapeBytes) = List.replicate n "(10)"
  rw [List.map_replicate]
  rfl

theorem uniform_fields (n : Nat) (stmtSize chunksizeInMB : Int) (database table : String) :
    dumpTableFields (uniformConn n) (exampleArgs stmtSize chunksizeInMB) database table
      = ["`id`"] := rfl

theorem example_sqlFile (stmtSize chunksizeInMB : Int) :
    sqlFile (exampleArgs stmtSize chunksizeInMB) "db" "t" 1 = "out/db.t.00001.sql" ∧
    sqlFile (exampleArgs stmtSize chunksizeInMB) "db" "t" 2 = "out/db.t.00002.sql" :=
  ⟨rfl, rfl⟩

/-- On a table of equal rows `(10)`: when the statement closes with row `a + 1` and the
chunk rolls over `b + 1` rows later on the last row, `dumpTable` writes one file, which
holds the first `a + 1` rows only. -/
theorem dumpTable_uniform_cut (EscapeBytes : String → String) (stmtSize chunksizeInMB : Int)
    (a b : Nat)
    (h1 : ((a * len "(10)" : Nat) : Int) < stmtSize)
    (h2 : stmtSize ≤ (((a + 1) * len "(10)" : Nat) : Int))
    (h4 : (((b + 1) * len "(10)" : Nat) : Int) < stmtSize)
    (h3 : ((((a + 1) * len "(10)" + b * len "(10)") / 1024 / 1024 : Nat) : Int)
      < chunksizeInMB)
    (h5 : chunksizeInMB
      ≤ ((((a + 1) * len "(10)" + (b + 1) * len "(10)") / 1024 / 1024 : Nat) : Int)) :
    (dumpTable EscapeBytes (uniformConn ((a + 1) + (b + 1)))
        (exampleArgs stmtSize chunksizeInMB) "db" "t").files
      = [("out/db.t.00001.sql",
          sqlQuery [insertone "t" ["`id`"] (List.replicate (a + 1) "(10)")])] := by
  rw [dumpTable_files, uniform_tuples, uniform_fields, List.replicate_add,
    stmtLoop_uniform_cut (exampleArgs stmtSize chunksizeInMB) "(10)" a b h1 h2 h4 h3 h5]
  simp [stmtFinish, renderFile, (example_sqlFile stmtSize chunksizeInMB).1]

/-! ## C1: rows buffered at the last rollover are lost -/

/-- C1 (the code at the failing input): a table `db.t` with the single integer column
`id` and 262144 rows holding 10 is dumped with statement size 1000000 and chunk size
1 MB.  The statement closes with row 250000, the chunk rolls over with row 262144, and
`dumpTable` writes the single file `out/db.t.00001.sql` with one INSERT statement of
250000 tuples: the 12144 tuples buffered in `rows` at the rollover are in no file,
because `chunkbytes` is zero when the stream ends.  The same happens on one row with
chunk size 0: the only file written is `;\n`. -/
theorem dumpTable_loses_buffered_rows (EscapeBytes : String → String) :
    (dumpTableRows (uniformConn 262144) (exampleArgs 1000000 1) "db" "t").length = 262144 ∧
    (dumpTable EscapeBytes (uniformConn 262144) (exampleArgs 1000000 1) "db" "t").files
      = [("out/db.t.00001.sql",
          sqlQuery [insertone "t" ["`id`"] (List.replicate 250000 "(10)")])] ∧
    (dumpTable EscapeBytes (uniformConn 1) (exampleArgs 1000000 0) "db" "t").files
      = [("out/db.t.00001.sql", ";\n")] :=
  ⟨List.length_replicate _ _,
    dumpTable_uniform_cut EscapeBytes 1000000 1 249999 12143 (by decide) (by decide)
      (by decide) (by decide) (by decide),
    by rw [dumpTable_files, uniform_tuples, uniform_fields]; decide⟩

/-! ## C2: a rollover before any statement is closed writes a file with no statement -/

/-- A stream of `a + 2` equal tuples that stays below the statement-size threshold and
reaches the chunk-size threshold with tuple `a + 1`: the rollover writes a file with no
statement, and all the tuples are written in the second file when the stream ends. -/
theorem stmtLoop_uniform_open (args : Config) (r : String) (a : Nat)
    (hS : (((a + 2) * len r : Nat) : Int) < args.StmtSize)
    (hC1 : (((a * len r) / 1024 / 1024 : Nat) : Int) < args.ChunksizeInMB)
    (hC2 : args.ChunksizeInMB ≤ ((((a + 1) * len r) / 1024 / 1024 : Nat) : Int))
    (hC3 : (((len r) / 1024 / 1024 : Nat) : Int) < args.ChunksizeInMB) :
    stmtLoop args (List.replicate (a + 1) r ++ [r]) =
      { fileNo := 2, stmtsize := (a + 2) * len r, chunkbytes := len r
        rows := List.replicate (a + 2) r, inserts := [], counted := [r]
        files := [{ fileNo := 1, stmts := [], counted := List.replicate (a + 1) r }] } := by
  have e1 : a * len r + len r = (a + 1) * len r := by ring
  have e2 : (a + 1) * len r + len r = (a + 2) * len r := by ring
  have l1 : ((a * len r : Nat) : Int) ≤ (((a + 2) * len r : Nat) : Int) := by
    exact_mod_cast (by nlinarith : a * len r ≤ (a + 2) * len r)
  have l2 : (((a + 1) * len r : Nat) : Int) ≤ (((a + 2) * len r : Nat) : Int) := by
    exact_mod_cast (by nlinarith : (a + 1) * len r ≤ (a + 2) * len r)
  have hA : (List.replicate a r).foldl (stmtStep args) stmtInit =
      { fileNo := 1, stmtsize := a * len r, chunkbytes := a * len r
        rows := List.replicate a r, inserts := [], counted := List.replicate a r
        files := [] } := by
    rw [stmt_quiet_run]
    · simp [stmtInit, totalLen_replicate]
    · simp only [stmtInit, totalLen_replicate, Nat.zero_add]
      omega
    · simp only [stmtInit, totalLen_replicate, Nat.zero_add]
      exact hC1
  have hA2 : (List.replicate (a + 1) r).foldl (stmtStep args) stmtInit =
      { fileNo := 2, stmtsize := (a + 1) * len r, chunkbytes := 0
        rows := List.replicate (a + 1) r, inserts := [], counted := []
        files := [{ fileNo := 1, stmts := [], counted := List.replicate (a + 1) r }] } := by
    rw [List.replicate_succ', List.foldl_append, hA, List.foldl_cons, List.foldl_nil,
      stmtStep_roll]
    · simp [e1]
    · show ¬ args.StmtSize ≤ ((a * len r + len r : Nat) : Int)
      rw [e1]; omega
    · show args.ChunksizeInMB ≤ (((a * len r + len r) / 1024 / 1024 : Nat) : Int)
      rw [e1]; exact hC2
  unfold stmtLoop
  rw [List.foldl_append, hA2, List.foldl_cons, List.foldl_nil, stmtStep_quiet]
  · simp [e2]
    exact (List.replicate_succ' (a + 1) r).symm
  · show ¬ args.StmtSize ≤ (((a + 1) * len r + len r : Nat) : Int)
    rw [e2]; omega
  · show ¬ args.ChunksizeInMB ≤ (((0 + len r) / 1024 / 1024 : Nat) : Int)
    rw [Nat.zero_add]; omega

theorem dumpTable_uniform_open (EscapeBytes : String → String) (stmtSize chunksizeInMB : Int)
    (a : Nat)
    (hS : (((a + 2) * len "(10)" : Nat) : Int) < stmtSize)
    (hC1 : (((a * len "(10)") / 1024 / 1024 : Nat) : Int) < chunksizeInMB)
    (hC2 : chunksizeInMB ≤ ((((a + 1) * len "(10)") / 1024 / 1024 : Nat) : Int))
    (hC3 : (((len "(10)") / 1024 / 1024 : Nat) : Int) < chunksizeInMB) :
    (dumpTable EscapeBytes (uniformConn (a + 1 + 1))
        (exampleArgs stmtSize chunksizeInMB) "db" "t").files
      = [("out/db.t.00001.sql", ";\n"),
         ("out/db.t.00002.sql",
          sqlQuery [insertone "t" ["`id`"] (List.replicate (a + 2) "(10)")])] := by
  have hlen : 0 < len "(10)" := by decide
  rw [dumpTable_files, uniform_tuples, uniform_fields, List.replicate_succ' (a + 1),
    stmtLoop_uniform_open (exampleArgs stmtSize chunksizeInMB) "(10)" a hS hC1 hC2 hC3]
  simp [stmtFinish, renderFile, hlen, (example_sqlFile stmtSize chunksizeInMB).1,
    (example_sqlFile stmtSize chunksizeInMB).2, sqlQuery_nil]
  rw [List.replicate_succ' (a + 1) "(10)"]

/-- C2 (the code at the failing input): a table `db.t` with the single integer column
`id` and 262145 rows holding 10 is dumped with statement size 2000000 and chunk size
1 MB.  The chunk rolls over with row 262144 while no statement has been closed, and the
file `out/db.t.00001.sql` is written with the content `;\n`: it holds no INSERT statement
and no row.  On two rows with chunk size 0 both files written are `;\n`. -/
theorem dumpTable_writes_file_without_statement (EscapeBytes : String → String) :
    (dumpTable EscapeBytes (uniformConn 262145) (exampleArgs 2000000 1) "db" "t").files
      = [("out/db.t.00001.sql", ";\n"),
         ("out/db.t.00002.sql",
          sqlQuery [insertone "t" ["`id`"] (List.replicate 262145 "(10)")])] ∧
    (dumpTable EscapeBytes (uniformConn 2) (exampleArgs 1000000 0) "db" "t").files
      = [("out/db.t.00001.sql", ";\n"), ("out/db.t.00002.sql", ";\n")] :=
  ⟨dumpTable_uniform_open EscapeBytes 2000000 1 262143 (by decide) (by decide) (by decide)
      (by decide),
    by rw [dumpTable_files, uniform_tuples, uniform_fields]; decide⟩

/-! ## C3: what the chunk-size threshold bounds -/

theorem stmtLoop_uniform_closing (args : Config) (r : String) (a : Nat)
    (hS : args.StmtSize ≤ (len r : Int))
    (hC1 : (((a * len r) / 1024 / 1024 : Nat) : Int) < args.ChunksizeInMB)
    (hC2 : args.ChunksizeInMB ≤ ((((a + 1) * len r) / 1024 / 1024 : Nat) : Int)) :
    stmtLoop args (List.replicate a r ++ [r]) =
      { fileNo := 2, stmtsize := 0, chunkbytes := 0, rows := [], inserts := [], counted := []
        files := [{ fileNo := 1, stmts := List.replicate (a + 1) [r]
                    counted := List.replicate (a + 1) r }] } := by
  have e1 : a * len r + len r = (a + 1) * len r := by ring
  have hA : (List.replicate a r).foldl (stmtStep args) stmtInit =
      { fileNo := 1, stmtsize := 0, chunkbytes := a * len r
        rows := [], inserts := List.replicate a [r], counted := List.replicate a r
        files := [] } := by
    rw [stmt_closing_run]
    · simp [stmtInit, totalLen_replicate]
    · rfl
    · rfl
    · intro x hx
      rw [List.eq_of_mem_replicate hx]
      exact hS
    · simp only [stmtInit, totalLen_replicate, Nat.zero_add]
      exact hC1
  unfold stmtLoop
  rw [List.foldl_append, hA, List.foldl_cons, List.foldl_nil, stmtStep_close_roll]
  · simp
    exact ⟨(List.replicate_succ' a [r]).symm, (List.replicate_succ' a r).symm⟩
  · show args.StmtSize ≤ ((0 + len r : Nat) : Int)
    rw [Nat.zero_add]; exact hS
  · show args.ChunksizeInMB ≤ (((a * len r + len r) / 1024 / 1024 : Nat) : Int)
    rw [e1]; exact hC2

theorem dumpTable_uniform_closing (EscapeBytes : String → String)
    (stmtSize chunksizeInMB : Int) (a : Nat)
    (hS : stmtSize ≤ (len "(10)" : Int))
    (hC1 : (((a * len "(10)") / 1024 / 1024 : Nat) : Int) < chunksizeInMB)
    (hC2 : chunksizeInMB ≤ ((((a + 1) * len "(10)") / 1024 / 1024 : Nat) : Int)) :
    (dumpTable EscapeBytes (uniformConn (a + 1))
        (exampleArgs stmtSize chunksizeInMB) "db" "t").files
      = [("out/db.t.00001.sql",
          sqlQuery (List.replicate (a + 1) (insertone "t" ["`id`"] ["(10)"])))] := by
  rw [dumpTable_files, uniform_tuples, uniform_fields, List.replicate_succ' a,
    stmtLoop_uniform_closing (exampleArgs stmtSize chunksizeInMB) "(10)" a hS hC1 hC2]
  simp [stmtFinish, renderFile, (example_sqlFile stmtSize chunksizeInMB).1]

theorem len_sqlQuery_replicate (a : Nat) (x : String) :
    len (sqlQuery (List.replicate (a + 1) x)) = (a + 1) * (len x + 2) := by
  rw [List.replicate_succ, len_sqlQuery_cons, ← List.replicate_succ, totalLen_replicate,
    List.length_replicate]
  ring

/-- C3 (counterexample): a table `db.t` with the single integer column `id` and 262144
rows holding 10 is dumped with statement size 1 and chunk size 1 MB.  Every row closes a
statement of 33 bytes (35 with its terminator) and the chunk rolls over with the last row,
when the tuples counted reach 1048576 bytes.  The file written has 9175040 bytes: it
exceeds the threshold by 8126464 bytes, not by the length of one statement. -/
theorem chunk_file_exceeds_threshold :
    (dumpTable (fun b => b) (uniformConn 262144) (exampleArgs 1 1) "db" "t").files
      = [("out/db.t.00001.sql",
          sqlQuery (List.replicate 262144 (insertone "t" ["`id`"] ["(10)"])))] ∧
    len (sqlQuery (List.replicate 262144 (insertone "t" ["`id`"] ["(10)"]))) = 9175040 ∧
    len (insertone "t" ["`id`"] ["(10)"] ++ ";\n") = 35 ∧
    ¬ (len (sqlQuery (List.replicate 262144 (insertone "t" ["`id`"] ["(10)"])))
        ≤ 1 * 1024 * 1024 + len (insertone "t" ["`id`"] ["(10)"] ++ ";\n")) := by
  have h33 : len (insertone "t" ["`id`"] ["(10)"]) = 33 := by decide
  have h35 : len (insertone "t" ["`id`"] ["(10)"] ++ ";\n") = 35 := by decide
  have hlen : len (sqlQuery (List.replicate 262144 (insertone "t" ["`id`"] ["(10)"])))
      = 9175040 := by
    rw [len_sqlQuery_replicate 262143, h33]
  refine ⟨dumpTable_uniform_closing (fun b => b) 1 1 262143 (by decide) (by decide)
    (by decide), hlen, h35, ?_⟩
  rw [hlen, h35]
  decide

theorem totalLen_eq_zero (l : List String) (hpos : ∀ r, r ∈ l → 0 < len r)
    (h : totalLen l = 0) : l = [] := by
  cases l with
  | nil => rfl
  | cons a l =>
    rw [totalLen_cons] at h
    have := hpos a (List.mem_cons_self a l)
    omega

theorem totalLen_dropLast (l : List String) (h : l ≠ []) :
    totalLen l = totalLen l.dropLast + len (l.getLastD "") := by
  induction l using List.reverseRecOn with
  | nil => exact absurd rfl h
  | append_singleton l x _ =>
    rw [List.dropLast_concat, totalLen_append, totalLen_singleton]
    simp [List.getLastD_eq_getLast?]

theorem len_sqlTuple_pos (EscapeBytes : String → String) (rows : List (List Value)) :
    ∀ r, r ∈ rows.map (sqlTuple EscapeBytes) → 0 < len r := by
  intro r hr
  obtain ⟨row, _, hrow⟩ := List.mem_map.mp hr
  rw [← hrow, len_sqlTuple]
  omega

/-- The byte count of every file of the statement-level view, final file included. -/
theorem stmtFinish_counted (args : Config) (tuples : List String)
    (hpos : ∀ r, r ∈ tuples → 0 < len r) :
    ((stmtFinish (stmtLoop args tuples)).files.map (fun f => f.counted)).flatten = tuples ∧
    ∀ f, f ∈ (stmtFinish (stmtLoop args tuples)).files →
      f.counted ≠ [] ∧
      (totalLen f.counted : Int)
        ≤ max (args.ChunksizeInMB * 1024 * 1024) 0 + (len (f.counted.getLastD "") : Int) := by
  obtain ⟨ho, hs, hp, hw⟩ := chunkInv_loop args tuples
  have hbound : ∀ c : List String, c ≠ [] →
      (c.dropLast = [] ∨
        ((totalLen c.dropLast / 1024 / 1024 : Nat) : Int) < args.ChunksizeInMB) →
      (totalLen c : Int)
        ≤ max (args.ChunksizeInMB * 1024 * 1024) 0 + (len (c.getLastD "") : Int) := by
    intro c hc hd
    rw [totalLen_dropLast c hc]
    push_cast
    rcases hd with hd | hd
    · rw [hd, totalLen_nil]
      have := le_max_right (args.ChunksizeInMB * 1024 * 1024) 0
      simp only [Nat.cast_zero]
      omega
    · have h1 : (totalLen c.dropLast : Int) < args.ChunksizeInMB * 1024 * 1024 := by omega
      have := le_max_left (args.ChunksizeInMB * 1024 * 1024) 0
      omega
  unfold stmtFinish
  by_cases hcb : 0 < (stmtLoop args tuples).chunkbytes
  · rw [if_pos hcb]
    have hne : (stmtLoop args tuples).counted ≠ [] := by
      intro e
      rw [hs, e, totalLen_nil] at hcb
      exact Nat.lt_irrefl 0 hcb
    constructor
    · simpa using ho
    · intro f hf
      rcases List.mem_append.mp hf with hf | hf
      · exact ⟨(hw f hf).1, hbound f.counted (hw f hf).1 (hw f hf).2.2⟩
      · rw [List.mem_singleton] at hf
        subst hf
        refine ⟨hne, ?_⟩
        rcases hp with hp | hp
        · exact absurd hp hne
        · show (totalLen (stmtLoop args tuples).counted : Int) ≤ _
          have h1 : (totalLen (stmtLoop args tuples).counted : Int)
              < args.ChunksizeInMB * 1024 * 1024 := by omega
          have := le_max_left (args.ChunksizeInMB * 1024 * 1024) 0
          omega
  · rw [if_neg hcb]
    have hz : totalLen (stmtLoop args tuples).counted = 0 := by
      rw [← hs]; omega
    have hnil : (stmtLoop args tuples).counted = [] := by
      apply totalLen_eq_zero _ _ hz
      intro r hr
      apply hpos
      rw [← ho]
      exact List.mem_append_right _ hr
    constructor
    · rw [hnil, List.append_nil] at ho
      exact ho
    · intro f hf
      exact ⟨(hw f hf).1, hbound f.counted (hw f hf).1 (hw f hf).2.2⟩

theorem list_snoc_split {α : Type} (l : List α) (x : α) (pre : List α) (f : α)
    (post : List α) (h : l ++ [x] = pre ++ f :: post) :
    (pre = l ∧ f = x ∧ post = []) ∨ ∃ post1, l = pre ++ f :: post1 := by
  rcases List.eq_nil_or_concat post with hp | ⟨post1, y, hp⟩
  · subst hp
    have h2 : l ++ [x] = pre ++ [f] := h
    obtain ⟨e1, e2⟩ := List.append_inj' h2 rfl
    simp only [List.cons.injEq, and_true] at e2
    exact Or.inl ⟨e1.symm, e2.symm, rfl⟩
  · subst hp
    have h2 : l ++ [x] = (pre ++ f :: post1) ++ [y] := by
      rw [h]; simp
    exact Or.inr ⟨post1, (List.append_inj' h2 rfl).1⟩

/-- When a file of the statement-level view is written, the tuples of the files written
so far, followed by the tuples still buffered, are the tuples counted so far. -/
theorem written_loop (args : Config) (tuples : List String) :
    ∀ (pre : List StmtFile) (f : StmtFile) (post : List StmtFile),
      (stmtLoop args tuples).files = pre ++ f :: post →
      ∃ rest, ((pre.map (fun g => g.stmts)).flatten).flatten ++ f.stmts.flatten ++ rest
        = (pre.map (fun g => g.counted)).flatten ++ f.counted := by
  induction tuples using List.reverseRecOn with
  | nil =>
    intro pre f post h
    simp [stmtLoop, stmtInit] at h
  | append_singleton l r ih =>
    intro pre f post h
    have hS := stmtInv_loop args (l ++ [r])
    have hC := chunkInv_loop args (l ++ [r])
    rw [stmtLoop_snoc] at h hS hC
    have hfiles := (stmtStep_chunk args (stmtLoop args l) r).1
    have hcounted := (stmtStep_chunk args (stmtLoop args l) r).2.1
    by_cases hroll : args.ChunksizeInMB
        ≤ ((((stmtLoop args l).chunkbytes + len r) / 1024 / 1024 : Nat) : Int)
    · rw [if_pos hroll] at hfiles hcounted
      rw [hfiles] at h
      rcases list_snoc_split _ _ _ _ _ h with ⟨e1, e2, _⟩ | ⟨post1, e⟩
      · have ho := hS.order
        have hc := hC.order
        rw [hfiles, ← e1, ← e2] at ho
        rw [hfiles, hcounted, ← e1, ← e2] at hc
        refine ⟨(stmtStep args (stmtLoop args l) r).inserts.flatten
          ++ (stmtStep args (stmtLoop args l) r).rows, ?_⟩
        rw [← ho] at hc
        simp only [List.map_append, List.map_cons, List.map_nil, List.flatten_append,
          List.flatten_cons, List.flatten_nil, List.append_nil, List.append_assoc] at hc ⊢
        exact hc.symm
      · exact ih pre f post1 e
    · rw [if_neg hroll] at hfiles
      rw [hfiles] at h
      exact ih pre f post h

/-- The same for every file that `dumpTable` writes, the final one included. -/
theorem written_finish (args : Config) (tuples : List String) :
    ∀ (pre : List StmtFile) (f : StmtFile) (post : List StmtFile),
      (stmtFinish (stmtLoop args tuples)).files = pre ++ f :: post →
      ∃ rest, ((pre.map (fun g => g.stmts)).flatten).flatten ++ f.stmts.flatten ++ rest
        = (pre.map (fun g => g.counted)).flatten ++ f.counted := by
  intro pre f post h
  unfold stmtFinish at h
  by_cases hcb : 0 < (stmtLoop args tuples).chunkbytes
  · rw [if_pos hcb] at h
    rcases list_snoc_split _ _ _ _ _ h with ⟨e1, e2, _⟩ | ⟨post1, e⟩
    · have ho := (stmtInv_loop args tuples).order
      have hc := (chunkInv_loop args tuples).order
      have heq := hc.trans ho.symm
      refine ⟨[], ?_⟩
      rw [e1, e2]
      show _ = (List.map (fun g => g.counted) (stmtLoop args tuples).files).flatten
        ++ (stmtLoop args tuples).counted
      rw [heq]
      by_cases hr : 0 < (stmtLoop args tuples).rows.length
      · simp [hr]
      · have hnil : (stmtLoop args tuples).rows = [] := by
          apply List.eq_nil_of_length_eq_zero
          omega
        simp [hnil]
    · exact written_loop args tuples pre f post1 e
  · rw [if_neg hcb] at h
    exact written_loop args tuples pre f post h

theorem totalLen_prefix_le (a b : List String) : totalLen a ≤ totalLen (a ++ b) := by
  rw [totalLen_append]
  omega

/-- A file written after a rollover that left no row buffered holds tuples whose bytes
exceed the threshold by no more than those of its last tuple. -/
theorem stmtFinish_file_bound (args : Config) (tuples : List String)
    (hpos : ∀ r, r ∈ tuples → 0 < len r) (pre : List StmtFile) (f : StmtFile)
    (post : List StmtFile) (h : (stmtFinish (stmtLoop args tuples)).files = pre ++ f :: post)
    (hpre : ((pre.map (fun g => g.stmts)).flatten).flatten
      = (pre.map (fun g => g.counted)).flatten) :
    (totalLen f.stmts.flatten : Int)
      ≤ max (args.ChunksizeInMB * 1024 * 1024) 0 + (len (f.stmts.flatten.getLastD "") : Int) := by
  obtain ⟨rest, hw⟩ := written_finish args tuples pre f post h
  rw [hpre, List.append_assoc] at hw
  have hsplit : f.stmts.flatten ++ rest = f.counted := List.append_cancel_left hw
  have hmem : f ∈ (stmtFinish (stmtLoop args tuples)).files := by
    rw [h]; simp
  obtain ⟨hne, hb⟩ := (stmtFinish_counted args tuples hpos).2 f hmem
  rcases List.eq_nil_or_concat rest with hr | ⟨rest1, y, hr⟩
  · rw [hr, List.append_nil] at hsplit
    rw [hsplit]
    exact hb
  · have hc : f.counted = (f.stmts.flatten ++ rest1) ++ [y] := by
      rw [← hsplit, hr]; simp
    have hd : totalLen f.counted = totalLen (f.stmts.flatten ++ rest1) + len y := by
      rw [hc, totalLen_append, totalLen_singleton]
    have hl : f.counted.getLastD "" = y := by
      rw [hc]; simp [List.getLastD_eq_getLast?]
    rw [hl, hd] at hb
    have h1 := totalLen_prefix_le f.stmts.flatten rest1
    have h2 : (0 : Int) ≤ (len (f.stmts.flatten.getLastD "") : Int) := Int.ofNat_nonneg _
    push_cast at hb
    omega

/-- The statements of every file that `dumpTable` writes hold at least one row. -/
theorem stmtFinish_groups (args : Config) (tuples : List String) :
    ∀ f, f ∈ (stmtFinish (stmtLoop args tuples)).files → ∀ g, g ∈ f.stmts → g ≠ [] := by
  have hcl := (stmtInv_loop args tuples).closed
  have hloop : ∀ f, f ∈ (stmtLoop args tuples).files → ∀ g, g ∈ f.stmts → g ≠ [] := by
    intro f hf g hg
    apply (hcl g _).1
    apply List.mem_append_left
    exact List.mem_flatten.mpr ⟨f.stmts, List.mem_map.mpr ⟨f, hf, rfl⟩, hg⟩
  intro f hf g hg
  unfold stmtFinish at hf
  by_cases hcb : 0 < (stmtLoop args tuples).chunkbytes
  · rw [if_pos hcb] at hf
    rcases List.mem_append.mp hf with hf | hf
    · exact hloop f hf g hg
    · rw [List.mem_singleton] at hf
      subst hf
      by_cases hr : 0 < (stmtLoop args tuples).rows.length
      · simp only [hr, if_true] at hg
        rcases List.mem_append.mp hg with hg | hg
        · exact (hcl g (List.mem_append_right _ hg)).1
        · rw [List.mem_singleton] at hg
          subst hg
          intro e
          rw [e] at hr
          exact Nat.lt_irrefl 0 hr
      · simp only [hr, if_false] at hg
        exact (hcl g (List.mem_append_right _ hg)).1
  · rw [if_neg hcb] at hf
    exact hloop f hf g hg

theorem len_insertone (table : String) (fields : List String) (g : List String) (hg : g ≠ []) :
    len (insertone table fields g) + 2
      = len (insertone table fields []) + totalLen g + 2 * g.length := by
  cases g with
  | nil => exact absurd rfl hg
  | cons r g =>
    unfold insertone
    have he : ∀ x : String, x ++ "" = x := fun x => String.ext (List.append_nil x.data)
    rw [len_append, len_intercalate_cons, intercalate_nil, he, totalLen_cons, List.length_cons]
    have h2 : len ",\n" = 2 := by decide
    rw [h2]
    ring

theorem totalLen_inserts (table : String) (fields : List String) (stmts : List (List String))
    (h : ∀ g, g ∈ stmts → g ≠ []) :
    totalLen (stmts.map (insertone table fields)) + 2 * stmts.length
      = totalLen stmts.flatten + stmts.length * len (insertone table fields [])
        + 2 * stmts.flatten.length := by
  induction stmts with
  | nil => simp [totalLen]
  | cons g stmts ih =>
    have ih2 := ih (fun x hx => h x (List.mem_cons_of_mem _ hx))
    have hg := len_insertone table fields g (h g (List.mem_cons_self _ _))
    rw [List.map_cons, totalLen_cons, List.flatten_cons, totalLen_append, List.length_append,
      List.length_cons]
    nlinarith [ih2, hg]

/-- The byte length of a file with at least one statement: the bytes of its tuples, the
header of each of its statements, and two bytes (a separator or a terminator) for each
tuple. -/
theorem len_renderFile (args : Config) (database table : String) (fields : List String)
    (f : StmtFile) (hne : f.stmts ≠ []) (h : ∀ g, g ∈ f.stmts → g ≠ []) :
    len (renderFile args database table fields f).2
      = totalLen f.stmts.flatten + f.stmts.length * len (insertone table fields [])
        + 2 * f.stmts.flatten.length := by
  rw [← totalLen_inserts table fields f.stmts h]
  show len (sqlQuery (f.stmts.map (insertone table fields))) = _
  cases hs : f.stmts with
  | nil => exact absurd hs hne
  | cons g stmts =>
    rw [List.map_cons, len_sqlQuery_cons, ← List.map_cons, List.length_map]

/-- Two rows with statement size 8 and chunk size 0: the first rollover writes a file
without a statement and leaves the first row buffered, so the second file holds two
tuples, 8 bytes, of which one was read before the rollover. -/
theorem buffered_rows_pass_rollover :
    (stmtFinish (stmtLoop (exampleArgs 8 0)
        ((dumpTableRows (uniformConn 2) (exampleArgs 8 0) "db" "t").map
          (sqlTuple (fun b => b))))).files
      = [{ fileNo := 1, stmts := [], counted := ["(10)"] },
         { fileNo := 2, stmts := [["(10)", "(10)"]], counted := ["(10)"] }] ∧
    totalLen ([["(10)", "(10)"]] : List (List String)).flatten = 8 := by
  rw [uniform_tuples]
  decide

/-- C3 (amended): the first SQL-format chunk file that `dumpTable` writes, and every
later one written after a rollover that left no row buffered (the files before it hold
every tuple counted for them), holds tuples whose total byte length exceeds the threshold
(C megabytes, or zero when C is negative) by no more than the byte length of the last
tuple of the file.  The byte length of a file with at least one statement is the byte
length of its tuples, plus the INSERT header of each of its statements, plus two bytes, a
separator or a terminator, for each tuple. -/
theorem chunk_file_bound (EscapeBytes : String → String) (conn : Connection) (args : Config)
    (database table : String) :
    (dumpTable EscapeBytes conn args database table).files
      = (stmtFinish (stmtLoop args
          ((dumpTableRows conn args database table).map (sqlTuple EscapeBytes)))).files.map
          (renderFile args database table (dumpTableFields conn args database table)) ∧
    (∀ (pre : List StmtFile) (f : StmtFile) (post : List StmtFile),
      (stmtFinish (stmtLoop args
        ((dumpTableRows conn args database table).map (sqlTuple EscapeBytes)))).files
          = pre ++ f :: post →
      ((pre.map (fun g => g.stmts)).flatten).flatten
        = (pre.map (fun g => g.counted)).flatten →
      (totalLen f.stmts.flatten : Int)
        ≤ max (args.ChunksizeInMB * 1024 * 1024) 0
          + (len (f.stmts.flatten.getLastD "") : Int)) ∧
    (∀ (f : StmtFile) (post : List StmtFile),
      (stmtFinish (stmtLoop args
        ((dumpTableRows conn args database table).map (sqlTuple EscapeBytes)))).files
          = f :: post →
      (totalLen f.stmts.flatten : Int)
        ≤ max (args.ChunksizeInMB * 1024 * 1024) 0
          + (len (f.stmts.flatten.getLastD "") : Int)) ∧
    (∀ f, f ∈ (stmtFinish (stmtLoop args
        ((dumpTableRows conn args database table).map (sqlTuple EscapeBytes)))).files →
      f.stmts ≠ [] →
      len (renderFile args database table (dumpTableFields conn args database table) f).2
        = totalLen f.stmts.flatten
          + f.stmts.length
            * len (insertone table (dumpTableFields conn args database table) [])
          + 2 * f.stmts.flatten.length) := by
  refine ⟨dumpTable_files EscapeBytes conn args database table, ?_, ?_, ?_⟩
  · intro pre f post h hpre
    exact stmtFinish_file_bound args _ (len_sqlTuple_pos EscapeBytes _) pre f post h hpre
  · intro f post h
    exact stmtFinish_file_bound args _ (len_sqlTuple_pos EscapeBytes _) [] f post h rfl
  · intro f hf hne
    exact len_renderFile args database table _ f hne (stmtFinish_groups args _ f hf)

/-- An instance: two rows with statement size 1 and chunk size 0; each row closes a
statement and a file, so the second file is written with no row left buffered, and it
holds the one tuple `(10)`.  And the scenario table with large thresholds: its only file
holds both tuples, 17 bytes. -/
theorem chunk_file_bound_witness :
    (stmtFinish (stmtLoop (exampleArgs 1 0)
        ((dumpTableRows (uniformConn 2) (exampleArgs 1 0) "db" "t").map
          (sqlTuple (fun b => b))))).files
      = [{ fileNo := 1, stmts := [["(10)"]], counted := ["(10)"] }]
        ++ { fileNo := 2, stmts := [["(10)"]], counted := ["(10)"] } :: [] ∧
    (totalLen ([["(10)"]] : List (List String)).flatten : Int)
      ≤ max ((exampleArgs 1 0).ChunksizeInMB * 1024 * 1024) 0
        + (len (([["(10)"]] : List (List String)).flatten.getLastD "") : Int) ∧
    (totalLen ([["(1,\"Ann\")", "(2,\"Bo\")"]] : List (List String)).flatten : Int)
      ≤ max ((exampleArgs 1000000 128).ChunksizeInMB * 1024 * 1024) 0
        + (len (([["(1,\"Ann\")", "(2,\"Bo\")"]] : List (List String)).flatten.getLastD "")
            : Int) :=
  have hfiles : (stmtFinish (stmtLoop (exampleArgs 1 0)
        ((dumpTableRows (uniformConn 2) (exampleArgs 1 0) "db" "t").map
          (sqlTuple (fun b => b))))).files
      = [{ fileNo := 1, stmts := [["(10)"]], counted := ["(10)"] }]
        ++ { fileNo := 2, stmts := [["(10)"]], counted := ["(10)"] } :: [] := by
    rw [uniform_tuples]; decide
  ⟨hfiles, (chunk_file_bound (fun b => b) (uniformConn 2) (exampleArgs 1 0) "db" "t").2.1
    [{ fileNo := 1, stmts := [["(10)"]], counted := ["(10)"] }]
    { fileNo := 2, stmts := [["(10)"]], counted := ["(10)"] } [] hfiles (by decide),
    (chunk_file_bound (fun b => b) scenarioConn (exampleArgs 1000000 128) "db" "t").2.2.1
      { fileNo := 1, stmts := [["(1,\"Ann\")", "(2,\"Bo\")"]],
        counted := ["(1,\"Ann\")", "(2,\"Bo\")"] } [] (by decide)⟩

/-! ## C9: a stream below both thresholds -/

/-- A stream whose tuples stay below both thresholds is written as one statement in one
file. -/
theorem stmtFinish_single (args : Config) (tuples : List String) (hne : tuples ≠ [])
    (hpos : ∀ r, r ∈ tuples → 0 < len r)
    (hS : (totalLen tuples : Int) < args.StmtSize)
    (hC : (totalLen tuples : Int) < args.ChunksizeInMB * 1024 * 1024) :
    (stmtFinish (stmtLoop args tuples)).files
      = [{ fileNo := 1, stmts := [tuples], counted := tuples }] := by
  have hloop : stmtLoop args tuples =
      { fileNo := 1, stmtsize := totalLen tuples, chunkbytes := totalLen tuples
        rows := tuples, inserts := [], counted := tuples, files := [] } := by
    unfold stmtLoop
    rw [stmt_quiet_run]
    · simp [stmtInit]
    · simpa [stmtInit] using hS
    · simp only [stmtInit, Nat.zero_add]
      omega
  have htot : 0 < totalLen tuples := by
    rcases Nat.eq_zero_or_pos (totalLen tuples) with h | h
    · exact absurd (totalLen_eq_zero tuples hpos h) hne
    · exact h
  have hlen : 0 < tuples.length := List.length_pos.mpr hne
  rw [hloop]
  simp [stmtFinish, htot, hlen]

theorem scenario_tuples (EscapeBytes : String → String) (args : Config)
    (hAnn : EscapeBytes "Ann" = "Ann") (hBo : EscapeBytes "Bo" = "Bo") :
    (dumpTableRows scenarioConn args "db" "t").map (sqlTuple EscapeBytes)
      = ["(1,\"Ann\")", "(2,\"Bo\")"] := by
  show [sqlTuple EscapeBytes [intValue "1", textValue "Ann"],
    sqlTuple EscapeBytes [intValue "2", textValue "Bo"]] = _
  simp [sqlTuple, sqlValues, sqlValue, intValue, textValue, isNumeric, hAnn, hBo]
  decide

/-- C9 (amended): for a non-empty row stream whose tuples stay below both the
statement-size and the chunk-size threshold in total, `dumpTable` writes exactly one
file, `<outdir>/<db>.<table>.00001.sql`, holding one INSERT statement: the text
INSERT INTO, the table name between backticks, the emitted column list (each name
between backticks) between parentheses, then VALUES and a line feed, all the tuples in
row order joined by a comma and a line feed, and the terminator.  For table `t` in `db`
with columns (id int, name varchar) and rows (1,"Ann"), (2,"Bo") the file
`db.t.00001.sql` holds the statement with the table and column names between
backticks. -/
theorem single_file_single_statement (EscapeBytes : String → String) :
    (∀ (conn : Connection) (args : Config) (database table : String),
      dumpTableRows conn args database table ≠ [] →
      (totalLen ((dumpTableRows conn args database table).map (sqlTuple EscapeBytes)) : Int)
        < args.StmtSize →
      (totalLen ((dumpTableRows conn args database table).map (sqlTuple EscapeBytes)) : Int)
        < args.ChunksizeInMB * 1024 * 1024 →
      (dumpTable EscapeBytes conn args database table).files
        = [(args.Outdir ++ "/" ++ database ++ "." ++ table ++ "." ++ "00001" ++ ".sql",
            "INSERT INTO `" ++ table ++ "`("
              ++ String.intercalate "," (dumpTableFields conn args database table)
              ++ ") VALUES\n"
              ++ String.intercalate ",\n"
                  ((dumpTableRows conn args database table).map (sqlTuple EscapeBytes))
              ++ ";\n")]) ∧
    (EscapeBytes "Ann" = "Ann" → EscapeBytes "Bo" = "Bo" →
      (dumpTable EscapeBytes scenarioConn (exampleArgs 1000000 128) "db" "t").files
        = [("out/db.t.00001.sql",
            "INSERT INTO `t`(`id`,`name`) VALUES\n(1,\"Ann\"),\n(2,\"Bo\");\n")]) := by
  constructor
  · intro conn args database table hne hS hC
    rw [dumpTable_files, stmtFinish_single args _ (by simpa using hne)
      (len_sqlTuple_pos EscapeBytes _) hS hC]
    have h5 : pad5 1 = "00001" := by decide
    simp [renderFile, sqlFile, sqlQuery_singleton, insertone, h5]
  · intro hAnn hBo
    rw [dumpTable_files, scenario_tuples EscapeBytes _ hAnn hBo]
    decide

/-- An instance: the scenario table with large thresholds. -/
theorem single_file_single_statement_witness :
    (dumpTable (fun b => b) scenarioConn (exampleArgs 1000000 128) "db" "t").files
      = [((exampleArgs 1000000 128).Outdir ++ "/" ++ "db" ++ "." ++ "t" ++ "." ++ "00001"
            ++ ".sql",
          "INSERT INTO `" ++ "t" ++ "`("
            ++ String.intercalate ","
                (dumpTableFields scenarioConn (exampleArgs 1000000 128) "db" "t")
            ++ ") VALUES\n"
            ++ String.intercalate ",\n"
                ((dumpTableRows scenarioConn (exampleArgs 1000000 128) "db" "t").map
                  (sqlTuple (fun b => b)))
            ++ ";\n")] ∧
    (dumpTable (fun b => b) scenarioConn (exampleArgs 1000000 128) "db" "t").files
      = [("out/db.t.00001.sql",
          "INSERT INTO `t`(`id`,`name`) VALUES\n(1,\"Ann\"),\n(2,\"Bo\");\n")] :=
  ⟨(single_file_single_statement (fun b => b)).1 scenarioConn (exampleArgs 1000000 128)
      "db" "t" (by decide) (by decide) (by decide),
    (single_file_single_statement (fun b => b)).2 rfl rfl⟩

/-- C9 (counterexample): on the scenario of the specification (table `t` in `db`,
columns id and name, rows (1,"Ann") and (2,"Bo"), large thresholds) the file written is
not the text that the scenario gives: `dumpTable` writes the table name and the column
names between backticks, so the content neither is the scenario's text, in either of its
readings, nor starts with INSERT INTO t( at all. -/
theorem scenario_identifiers_are_quoted :
    (dumpTable (fun b => b) scenarioConn (exampleArgs 1000000 128) "db" "t").files
      = [("out/db.t.00001.sql",
          "INSERT INTO `t`(`id`,`name`) VALUES\n(1,\"Ann\"),\n(2,\"Bo\");\n")] ∧
    (dumpTable (fun b => b) scenarioConn (exampleArgs 1000000 128) "db" "t").files
      ≠ [("out/db.t.00001.sql",
          "INSERT INTO t(` id`,`name`) VALUES\n(1,\"Ann\"),\n(2,\"Bo\");\n")] ∧
    (dumpTable (fun b => b) scenarioConn (exampleArgs 1000000 128) "db" "t").files
      ≠ [("out/db.t.00001.sql", "INSERT INTO t(id,name) VALUES\n(1,\"Ann\"),\n(2,\"Bo\");\n")] ∧
    ¬ ∃ rest : String,
      (dumpTable (fun b => b) scenarioConn (exampleArgs 1000000 128) "db" "t").files
        = [("out/db.t.00001.sql", "INSERT INTO t(" ++ rest)] := by
  have hfiles : (dumpTable (fun b => b) scenarioConn (exampleArgs 1000000 128) "db" "t").files
      = [("out/db.t.00001.sql",
          "INSERT INTO `t`(`id`,`name`) VALUES\n(1,\"Ann\"),\n(2,\"Bo\");\n")] := by
    rw [dumpTable_files, scenario_tuples (fun b => b) _ rfl rfl]
    decide
  refine ⟨hfiles, ?_, ?_, ?_⟩
  · rw [hfiles]; decide
  · rw [hfiles]; decide
  · rintro ⟨rest, h⟩
    rw [hfiles] at h
    have hc : "INSERT INTO `t`(`id`,`name`) VALUES\n(1,\"Ann\"),\n(2,\"Bo\");\n"
        = "INSERT INTO t(" ++ rest := by
      injection h with h1 _
      injection h1
    have h2 := congrArg (fun s : String => s.data.take 14) hc
    simp only [String.data_append] at h2
    rw [List.take_left' (by decide)] at h2
    exact absurd h2 (by decide)

/-! ## C10: statements are closed by the statement-size threshold -/

theorem stmtFinish_two_rows (args : Config) (t1 t2 : String)
    (hpos : 0 < len t1)
    (h1 : args.StmtSize ≤ (len t1 : Int)) (h2 : args.StmtSize ≤ (len t2 : Int))
    (hC : ((len t1 + len t2 : Nat) : Int) < args.ChunksizeInMB * 1024 * 1024) :
    (stmtFinish (stmtLoop args [t1, t2])).files
      = [{ fileNo := 1, stmts := [[t1], [t2]], counted := [t1, t2] }] := by
  have hloop : stmtLoop args [t1, t2] =
      { fileNo := 1, stmtsize := 0, chunkbytes := len t1 + len t2
        rows := [], inserts := [[t1], [t2]], counted := [t1, t2], files := [] } := by
    unfold stmtLoop
    rw [stmt_closing_run]
    · simp [stmtInit, totalLen]
    · rfl
    · rfl
    · intro r hr
      rcases List.mem_cons.mp hr with h | h
      · rw [h]; exact h1
      · rw [List.mem_singleton.mp h]; exact h2
    · simp only [stmtInit, Nat.zero_add, totalLen_cons, totalLen_nil, Nat.add_zero]
      omega
  have hcb : 0 < len t1 + len t2 := by omega
  rw [hloop]
  simp [stmtFinish, hcb]

/-- C10: in the loop of `dumpTable`, on any tuples read so far, the text written and
buffered is the text of row groups such that: the closed statements, followed by the open
one, are the tuples read, in order; every closed statement is a non-empty run of
consecutive rows whose tuple lengths reach the statement-size threshold in total, while no
shorter non-empty run of its first rows does; and no non-empty run of first rows of the
open statement has reached the threshold.  On a stream of two rows each of whose tuples
reaches the threshold, with a chunk-size threshold above the two tuples, `dumpTable`
writes one file holding two INSERT statements of one row each. -/
theorem statement_closed_at_threshold (EscapeBytes : String → String) (args : Config)
    (database table : String) :
    (∀ fields tuples : List String,
      (dumpTableLoop args database table fields tuples).rows = (stmtLoop args tuples).rows ∧
      (dumpTableLoop args database table fields tuples).inserts
        = (stmtLoop args tuples).inserts.map (insertone table fields) ∧
      (dumpTableLoop args database table fields tuples).files
        = (stmtLoop args tuples).files.map (renderFile args database table fields) ∧
      (((stmtLoop args tuples).files.map (fun f => f.stmts)).flatten
          ++ (stmtLoop args tuples).inserts).flatten ++ (stmtLoop args tuples).rows = tuples ∧
      (∀ g, g ∈ ((stmtLoop args tuples).files.map (fun f => f.stmts)).flatten
          ++ (stmtLoop args tuples).inserts → ClosedAt args.StmtSize g) ∧
      (∀ k, 0 < k → k ≤ (stmtLoop args tuples).rows.length →
        (totalLen ((stmtLoop args tuples).rows.take k) : Int) < args.StmtSize)) ∧
    (∀ (conn : Connection) (row1 row2 : List Value),
      dumpTableRows conn args database table = [row1, row2] →
      args.StmtSize ≤ (len (sqlTuple EscapeBytes row1) : Int) →
      args.StmtSize ≤ (len (sqlTuple EscapeBytes row2) : Int) →
      ((len (sqlTuple EscapeBytes row1) + len (sqlTuple EscapeBytes row2) : Nat) : Int)
        < args.ChunksizeInMB * 1024 * 1024 →
      (dumpTable EscapeBytes conn args database table).files
        = [(sqlFile args database table 1,
            insertone table (dumpTableFields conn args database table)
                [sqlTuple EscapeBytes row1] ++ ";\n"
              ++ insertone table (dumpTableFields conn args database table)
                [sqlTuple EscapeBytes row2] ++ ";\n")]) := by
  constructor
  · intro fields tuples
    obtain ⟨_, _, _, h4, h5, h6⟩ := renders_loop args database table fields tuples
    obtain ⟨ho, _, hb, hc⟩ := stmtInv_loop args tuples
    exact ⟨h4, h5, h6, ho, hc, hb⟩
  · intro conn row1 row2 hrows h1 h2 hC
    have hpos : 0 < len (sqlTuple EscapeBytes row1) := by
      rw [len_sqlTuple]; omega
    rw [dumpTable_files, hrows, List.map_cons, List.map_cons, List.map_nil,
      stmtFinish_two_rows args _ _ hpos h1 h2 hC]
    simp [renderFile, sqlQuery, intercalate_cons_cons, intercalate_singleton,
      String.append_assoc]

/-- An instance: three tuples of 4 bytes with statement size 5 close a statement of two
rows; the scenario table with statement size 1 gives two single-row statements. -/
theorem statement_closed_at_threshold_witness :
    ClosedAt (exampleArgs 5 128).StmtSize ["(10)", "(10)"] ∧
    (dumpTable (fun b => b) scenarioConn (exampleArgs 1 128) "db" "t").files
      = [(sqlFile (exampleArgs 1 128) "db" "t" 1,
          insertone "t" (dumpTableFields scenarioConn (exampleArgs 1 128) "db" "t")
              [sqlTuple (fun b => b) [intValue "1", textValue "Ann"]] ++ ";\n"
            ++ insertone "t" (dumpTableFields scenarioConn (exampleArgs 1 128) "db" "t")
              [sqlTuple (fun b => b) [intValue "2", textValue "Bo"]] ++ ";\n")] :=
  ⟨((statement_closed_at_threshold (fun b => b) (exampleArgs 5 128) "db" "t").1 ["`id`"]
      ["(10)", "(10)", "(10)"]).2.2.2.2.1 ["(10)", "(10)"] (by decide),
    (statement_closed_at_threshold (fun b => b) (exampleArgs 1 128) "db" "t").2 scenarioConn
      [intValue "1", textValue "Ann"] [intValue "2", textValue "Bo"] rfl (by decide)
      (by decide) (by decide)⟩

/-! ## C7 and C8: the database and table lists -/

theorem splitComma_no_comma (w : List Char) (hw : ',' ∉ w) : splitComma w = [w] := by
  induction w with
  | nil => rfl
  | cons c cs ih =>
    have hc : c ≠ ',' := fun e => hw (by rw [e]; exact List.mem_cons_self _ _)
    have hcs : ',' ∉ cs := fun h => hw (List.mem_cons_of_mem _ h)
    simp [splitComma, hc, ih hcs]

theorem splitComma_append (w cs : List Char) (hw : ',' ∉ w) :
    splitComma (w ++ ',' :: cs) = w :: splitComma cs := by
  induction w with
  | nil => simp [splitComma]
  | cons c w ih =>
    have hc : c ≠ ',' := fun e => hw (by rw [e]; exact List.mem_cons_self _ _)
    have hcs : ',' ∉ w := fun h => hw (List.mem_cons_of_mem _ h)
    simp [splitComma, hc, ih hcs]

/-- Splitting the comma-separated text of a list of names gives the names back. -/
theorem stringsSplit_intercalate (names : List String) (hne : names ≠ [])
    (hnames : ∀ n, n ∈ names → ',' ∉ n.data) :
    stringsSplit (String.intercalate "," names) = names := by
  induction names with
  | nil => exact absurd rfl hne
  | cons a l ih =>
    cases l with
    | nil =>
      rw [intercalate_singleton]
      unfold stringsSplit
      rw [splitComma_no_comma _ (hnames a (List.mem_cons_self _ _))]
      rfl
    | cons b l =>
      have ih2 := ih (by simp) (fun n hn => hnames n (List.mem_cons_of_mem _ hn))
      unfold stringsSplit at ih2 ⊢
      rw [intercalate_cons_cons]
      have hd : (a ++ "," ++ String.intercalate "," (b :: l)).data
          = a.data ++ ',' :: (String.intercalate "," (b :: l)).data := by
        simp [String.data_append]
      rw [hd, splitComma_append _ _ (hnames a (List.mem_cons_self _ _)), List.map_cons, ih2]

theorem filterDatabasesLoop_spec (filter : Regexp) (invert : Bool) (rows : List (List Value)) :
    ∀ (acc0 acc all : List String), firstColumn rows acc0 = some all →
      ∃ ns, all = acc0 ++ ns ∧
        filterDatabasesLoop filter invert rows acc
          = some (acc ++ ns.filter
              (fun n => (!invert && filter.MatchString n) || (invert && !filter.MatchString n))) := by
  induction rows with
  | nil =>
    intro acc0 acc all h
    refine ⟨[], ?_, ?_⟩
    · simp [firstColumn] at h
      simp [h]
    · simp [filterDatabasesLoop]
  | cons t rest ih =>
    intro acc0 acc all h
    cases t with
    | nil => simp [firstColumn] at h
    | cons v vs =>
      simp only [firstColumn] at h
      by_cases hcond :
          ((!invert && filter.MatchString v.String) || (invert && !filter.MatchString v.String))
            = true
      · obtain ⟨ns, hall, hloop⟩ := ih (acc0 ++ [v.String]) (acc ++ [v.String]) all h
        refine ⟨v.String :: ns, by simp [hall], ?_⟩
        simp only [filterDatabasesLoop, hcond, if_true, hloop]
        simp [List.filter_cons, hcond]
      · obtain ⟨ns, hall, hloop⟩ := ih (acc0 ++ [v.String]) acc all h
        refine ⟨v.String :: ns, by simp [hall], ?_⟩
        simp only [filterDatabasesLoop, hcond, hloop]
        simp [List.filter_cons, hcond]

theorem filterDatabases_eq (conn : Connection) (filter : Regexp) (invert : Bool)
    (names : List String) (hserver : allDatabases conn = some names) :
    filterDatabases conn filter invert
      = some (names.filter
          (fun n => (!invert && filter.MatchString n) || (invert && !filter.MatchString n))) := by
  obtain ⟨ns, hall, hloop⟩ :=
    filterDatabasesLoop_spec filter invert (conn.Fetch "SHOW DATABASES") [] [] names hserver
  rw [List.nil_append] at hall
  rw [hall]
  simpa using hloop

theorem dumperTables_explicit (conn : Connection) (args : Config) (tables : List String)
    (htab : args.Table = String.intercalate "," tables) (htabne : args.Table ≠ "")
    (htables : ∀ n, n ∈ tables → ',' ∉ n.data) (databases : List String) :
    dumperTables conn args databases = some (databases.map (fun _ => tables)) := by
  have hne : tables ≠ [] := by
    intro e
    rw [e, intercalate_nil] at htab
    exact htabne htab
  have hsplit : stringsSplit args.Table = tables := by
    rw [htab]
    exact stringsSplit_intercalate tables hne htables
  induction databases with
  | nil => rfl
  | cons d ds ih => simp [dumperTables, htabne, hsplit, ih]

theorem dumperJobs_uniform (tables : List String) (databases : List String) :
    dumperJobs databases (databases.map (fun _ => tables))
      = (databases.map (fun d => tables.map (fun t => (d, t)))).flatten := by
  induction databases with
  | nil => rfl
  | cons d ds ih =>
    show tables.map (fun t => (d, t)) ++ dumperJobs ds (ds.map (fun _ => tables)) = _
    rw [ih, List.map_cons, List.flatten_cons]

/-- C7: with no database pattern configured and an explicit database list configured,
the database list of `Dumper` is the list of the names between the commas, verbatim and
in order, whatever the server would answer (for the list `a,b`: `a` then `b`).  With an
explicit table list configured, the table list of every database is the list of the
names between the commas, and the workers are launched database by database, in list
order, for these tables in list order. -/
theorem explicit_list_selection (MustCompile : String → Option Regexp) (conn : Connection)
    (args : Config) :
    (∀ names : List String, args.DatabaseRegexp = "" → args.Database ≠ "" →
      args.Database = String.intercalate "," names → (∀ n, n ∈ names → ',' ∉ n.data) →
      dumperDatabases MustCompile conn args = some names) ∧
    (args.DatabaseRegexp = "" → args.Database = "a,b" →
      dumperDatabases MustCompile conn args = some ["a", "b"]) ∧
    (∀ tables : List String, args.Table ≠ "" →
      args.Table = String.intercalate "," tables → (∀ n, n ∈ tables → ',' ∉ n.data) →
      ∀ databases : List String,
        dumperTables conn args databases = some (databases.map (fun _ => tables)) ∧
        dumperJobs databases (databases.map (fun _ => tables))
          = (databases.map (fun d => tables.map (fun t => (d, t)))).flatten ∧
        (dumperDatabases MustCompile conn args = some databases →
          dumperPlan MustCompile conn args
            = some { databases := databases
                     tables := databases.map (fun _ => tables)
                     jobs := (databases.map (fun d => tables.map (fun t => (d, t)))).flatten })) := by
  have hA : ∀ names : List String, args.DatabaseRegexp = "" → args.Database ≠ "" →
      args.Database = String.intercalate "," names → (∀ n, n ∈ names → ',' ∉ n.data) →
      dumperDatabases MustCompile conn args = some names := by
    intro names hre hdbne hdb hnames
    have hne : names ≠ [] := by
      intro e
      rw [e, intercalate_nil] at hdb
      exact hdbne hdb
    unfold dumperDatabases
    simp only [hre, ne_eq, not_true_eq_false, if_false, hdbne, not_false_eq_true, if_true]
    rw [hdb, stringsSplit_intercalate names hne hnames]
  refine ⟨hA, ?_, ?_⟩
  · intro hre hdb
    refine hA ["a", "b"] hre (by rw [hdb]; decide) (by rw [hdb]; rfl) ?_
    intro n hn
    rcases List.mem_cons.mp hn with h | h
    · rw [h]; decide
    · rw [List.mem_singleton.mp h]; decide
  · intro tables htabne htab htables databases
    have hT := dumperTables_explicit conn args tables htab htabne htables databases
    refine ⟨hT, dumperJobs_uniform tables databases, ?_⟩
    intro hdbs
    unfold dumperPlan
    simp only [hdbs, hT, dumperJobs_uniform]

/-- An instance: the database list `a,b` with the table list `x,y`. -/
theorem explicit_list_selection_witness :
    dumperDatabases exampleCompile catalogConn listArgs = some ["a", "b"] ∧
    dumperPlan exampleCompile catalogConn listArgs
      = some { databases := ["a", "b"]
               tables := ["a", "b"].map (fun _ => ["x", "y"])
               jobs := (["a", "b"].map (fun d => ["x", "y"].map (fun t => (d, t)))).flatten } :=
  ⟨(explicit_list_selection exampleCompile catalogConn listArgs).1 ["a", "b"] rfl
      (by decide) (by decide) (by decide),
    ((explicit_list_selection exampleCompile catalogConn listArgs).2.2 ["x", "y"]
      (by decide) (by decide) (by decide) ["a", "b"]).2.2
      ((explicit_list_selection exampleCompile catalogConn listArgs).2.1 rfl rfl)⟩

/-- C8: when a database pattern is configured and compiles, the database list of
`Dumper` is the result of `filterDatabases`, whatever explicit database list is
configured.  With the inversion flag off it is the list of the server's databases whose
name matches the pattern, in server order; with the flag on it is the list of those whose
name does not match.  No name is in both selections, and the two selections together are
a rearrangement of the server's list. -/
theorem regexp_selection (MustCompile : String → Option Regexp) (conn : Connection)
    (args : Config) (r : Regexp) (names : List String)
    (hre : args.DatabaseRegexp ≠ "") (hc : MustCompile args.DatabaseRegexp = some r)
    (hserver : allDatabases conn = some names) :
    dumperDatabases MustCompile conn args
      = filterDatabases conn r args.DatabaseInvertRegexp ∧
    filterDatabases conn r false = some (names.filter (fun n => r.MatchString n)) ∧
    filterDatabases conn r true = some (names.filter (fun n => !r.MatchString n)) ∧
    (∀ n, n ∈ names.filter (fun n => r.MatchString n) →
      n ∉ names.filter (fun n => !r.MatchString n)) ∧
    (names.filter (fun n => r.MatchString n)
      ++ names.filter (fun n => !r.MatchString n)).Perm names := by
  refine ⟨?_, ?_, ?_, ?_, ?_⟩
  · unfold dumperDatabases
    simp [hre, hc]
  · rw [filterDatabases_eq conn r false names hserver]
    simp
  · rw [filterDatabases_eq conn r true names hserver]
    simp
  · intro n h1 h2
    have a1 := (List.mem_filter.mp h1).2
    have a2 := (List.mem_filter.mp h2).2
    simp [a1] at a2
  · exact List.filter_append_perm (fun n => r.MatchString n) names

/-- An instance: the pattern `^[ab]$` on the server databases a, b, c, with the explicit
list `c` configured as well. -/
theorem regexp_selection_witness :
    dumperDatabases exampleCompile catalogConn (regexpArgs false) = some ["a", "b"] ∧
    dumperDatabases exampleCompile catalogConn (regexpArgs true) = some ["c"] :=
  ⟨((regexp_selection exampleCompile catalogConn (regexpArgs false)
      { MatchString := fun s => s == "a" || s == "b" } ["a", "b", "c"]
      (by decide) rfl rfl).1).trans (by decide),
    ((regexp_selection exampleCompile catalogConn (regexpArgs true)
      { MatchString := fun s => s == "a" || s == "b" } ["a", "b", "c"]
      (by decide) rfl rfl).1).trans (by decide)⟩

/-! ## C4: the files opened by `dumpTableCsv` -/

theorem dumpTableCsvLoop_snoc (EscapeBytes : String → String)
    (csvRecord : Char → List String → String) (args : Config) (database table : String)
    (separator : Char) (headerfields : List String) (s : CsvDump) (rows : List (List Value))
    (row : List Value) :
    dumpTableCsvLoop EscapeBytes csvRecord args database table separator headerfields s
        (rows ++ [row])
      = dumpTableCsvStep EscapeBytes csvRecord args database table separator headerfields
          (dumpTableCsvLoop EscapeBytes csvRecord args database table separator headerfields s
            rows) row := by
  simp [dumpTableCsvLoop, List.foldl_append]

/-- What one iteration of the loop of `dumpTableCsv` does to the file number, the byte
count, the files created, the current file and the file system. -/
theorem dumpTableCsvStep_fields (EscapeBytes : String → String)
    (csvRecord : Char → List String → String) (args : Config) (database table : String)
    (separator : Char) (headerfields : List String) (s : CsvDump) (row : List Value) :
    (args.ChunksizeInMB
        ≤ (((s.chunkbytes + (csvValues EscapeBytes row).2) / 1024 / 1024 : Nat) : Int) →
      (dumpTableCsvStep EscapeBytes csvRecord args database table separator headerfields
          s row).fileNo = s.fileNo + 1 ∧
      (dumpTableCsvStep EscapeBytes csvRecord args database table separator headerfields
          s row).chunkbytes = 0 ∧
      (dumpTableCsvStep EscapeBytes csvRecord args database table separator headerfields
          s row).created = s.created ++ [csvFile args database table s.fileNo] ∧
      (dumpTableCsvStep EscapeBytes csvRecord args database table separator headerfields
          s row).file = csvFile args database table s.fileNo ∧
      (dumpTableCsvStep EscapeBytes csvRecord args database table separator headerfields
          s row).fs
        = fsWrite (osCreate (fsWrite s.fs s.file (csvRecord separator (csvValues EscapeBytes row).1))
            (csvFile args database table s.fileNo)) (csvFile args database table s.fileNo)
            (csvRecord separator headerfields)) ∧
    (¬ args.ChunksizeInMB
        ≤ (((s.chunkbytes + (csvValues EscapeBytes row).2) / 1024 / 1024 : Nat) : Int) →
      (dumpTableCsvStep EscapeBytes csvRecord args database table separator headerfields
          s row).fileNo = s.fileNo ∧
      (dumpTableCsvStep EscapeBytes csvRecord args database table separator headerfields
          s row).chunkbytes = s.chunkbytes + (csvValues EscapeBytes row).2 ∧
      (dumpTableCsvStep EscapeBytes csvRecord args database table separator headerfields
          s row).created = s.created ∧
      (dumpTableCsvStep EscapeBytes csvRecord args database table separator headerfields
          s row).file = s.file ∧
      (dumpTableCsvStep EscapeBytes csvRecord args database table separator headerfields
          s row).fs
        = fsWrite s.fs s.file (csvRecord separator (csvValues EscapeBytes row).1)) := by
  constructor
  · intro h
    unfold dumpTableCsvStep
    dsimp only
    rw [if_pos h]
    exact ⟨rfl, rfl, rfl, rfl, rfl⟩
  · intro h
    unfold dumpTableCsvStep
    dsimp only
    rw [if_neg h]
    exact ⟨rfl, rfl, rfl, rfl, rfl⟩

/-- The files created by `dumpTableCsv`: number 1 at the start, then number `k` at the
`k`-th rollover. -/
theorem dumpTableCsvLoop_created (EscapeBytes : String → String)
    (csvRecord : Char → List String → String) (args : Config) (database table : String)
    (separator : Char) (headerfields : List String) (fs : List (String × String))
    (rows : List (List Value)) :
    1 ≤ (dumpTableCsvLoop EscapeBytes csvRecord args database table separator headerfields
        (dumpTableCsvInit csvRecord args database table separator headerfields fs)
        rows).fileNo ∧
    (dumpTableCsvLoop EscapeBytes csvRecord args database table separator headerfields
        (dumpTableCsvInit csvRecord args database table separator headerfields fs)
        rows).created
      = csvFile args database table 1 ::
          (List.range ((dumpTableCsvLoop EscapeBytes csvRecord args database table separator
            headerfields (dumpTableCsvInit csvRecord args database table separator
              headerfields fs) rows).fileNo - 1)).map
            (fun i => csvFile args database table (i + 1)) := by
  induction rows using List.reverseRecOn with
  | nil => exact ⟨Nat.le_refl 1, rfl⟩
  | append_singleton l row ih =>
    rw [dumpTableCsvLoop_snoc]
    obtain ⟨ih1, ih2⟩ := ih
    obtain ⟨hroll, hquiet⟩ := dumpTableCsvStep_fields EscapeBytes csvRecord args database
      table separator headerfields
      (dumpTableCsvLoop EscapeBytes csvRecord args database table separator headerfields
        (dumpTableCsvInit csvRecord args database table separator headerfields fs) l) row
    by_cases h : args.ChunksizeInMB
        ≤ ((((dumpTableCsvLoop EscapeBytes csvRecord args database table separator
          headerfields (dumpTableCsvInit csvRecord args database table separator headerfields
            fs) l).chunkbytes + (csvValues EscapeBytes row).2) / 1024 / 1024 : Nat) : Int)
    · obtain ⟨e1, _, e3, _, _⟩ := hroll h
      rw [e1, e3, ih2]
      refine ⟨by omega, ?_⟩
      have hn : ∀ n : Nat, 1 ≤ n → n + 1 - 1 = (n - 1) + 1 ∧ n - 1 + 1 = n := by
        intro n hn; omega
      rw [(hn _ ih1).1, List.range_succ, List.map_append, List.map_cons, List.map_nil,
        (hn _ ih1).2, List.cons_append]
    · obtain ⟨e1, _, e3, _, _⟩ := hquiet h
      rw [e1, e3]
      exact ⟨ih1, ih2⟩

theorem string_empty_append (x : String) : "" ++ x = x := by
  apply String.ext
  simp [String.data_append]

theorem fsWrite_paths (fs : List (String × String)) (path data : String) :
    (fsWrite fs path data).map Prod.fst = fs.map Prod.fst := by
  induction fs with
  | nil => rfl
  | cons e fs ih =>
    unfold fsWrite at ih ⊢
    rw [List.map_cons, List.map_cons, List.map_cons, ih]
    by_cases h : e.1 = path <;> simp [h]

/-- Writing a row, creating again the only file there is, and writing the header leaves
the header alone in the file. -/
theorem recreate_single (fs : List (String × String)) (path row header : String)
    (hfs : fs.map Prod.fst = [path]) :
    fsWrite (osCreate (fsWrite fs path row) path) path header = [(path, header)] := by
  match fs, hfs with
  | [(q, c)], hq =>
    have hq2 : q = path := by simpa using hq
    subst hq2
    simp [fsWrite, osCreate, string_empty_append]

theorem uniform_csvValues (EscapeBytes : String → String) :
    csvValues EscapeBytes [intValue "10"] = (["10"], 2) := by
  have h2 : len "10" = 2 := by decide
  simp [csvValues, csvValue, intValue, isNumeric, h2]

/-- A run of equal rows of `dumpTableCsv` without a rollover keeps the file number, the
files created, the current file and the paths of the file system. -/
theorem csv_uniform_quiet (EscapeBytes : String → String)
    (csvRecord : Char → List String → String) (args : Config) (database table : String)
    (separator : Char) (headerfields : List String) (row : List Value) (k : Nat) :
    ∀ s : CsvDump,
      (((s.chunkbytes + k * (csvValues EscapeBytes row).2) / 1024 / 1024 : Nat) : Int)
        < args.ChunksizeInMB →
      (dumpTableCsvLoop EscapeBytes csvRecord args database table separator headerfields s
          (List.replicate k row)).fileNo = s.fileNo ∧
      (dumpTableCsvLoop EscapeBytes csvRecord args database table separator headerfields s
          (List.replicate k row)).chunkbytes = s.chunkbytes + k * (csvValues EscapeBytes row).2 ∧
      (dumpTableCsvLoop EscapeBytes csvRecord args database table separator headerfields s
          (List.replicate k row)).created = s.created ∧
      (dumpTableCsvLoop EscapeBytes csvRecord args database table separator headerfields s
          (List.replicate k row)).file = s.file ∧
      (dumpTableCsvLoop EscapeBytes csvRecord args database table separator headerfields s
          (List.replicate k row)).fs.map Prod.fst = s.fs.map Prod.fst := by
  induction k with
  | zero =>
    intro s _
    simp [dumpTableCsvLoop]
  | succ k ih =>
    intro s h
    have hq : ¬ args.ChunksizeInMB
        ≤ (((s.chunkbytes + (csvValues EscapeBytes row).2) / 1024 / 1024 : Nat) : Int) := by
      have := mb_mono (by nlinarith : s.chunkbytes + (csvValues EscapeBytes row).2
        ≤ s.chunkbytes + (k + 1) * (csvValues EscapeBytes row).2)
      omega
    obtain ⟨e1, e2, e3, e4, e5⟩ := (dumpTableCsvStep_fields EscapeBytes csvRecord args
      database table separator headerfields s row).2 hq
    have hnext : (dumpTableCsvLoop EscapeBytes csvRecord args database table separator
        headerfields s (List.replicate (k + 1) row))
          = dumpTableCsvLoop EscapeBytes csvRecord args database table separator headerfields
              (dumpTableCsvStep EscapeBytes csvRecord args database table separator
                headerfields s row) (List.replicate k row) := by
      simp [dumpTableCsvLoop, List.replicate_succ]
    rw [hnext]
    obtain ⟨i1, i2, i3, i4, i5⟩ := ih (dumpTableCsvStep EscapeBytes csvRecord args database
      table separator headerfields s row) (by
        rw [e2]
        have e : s.chunkbytes + (csvValues EscapeBytes row).2 + k * (csvValues EscapeBytes row).2
            = s.chunkbytes + (k + 1) * (csvValues EscapeBytes row).2 := by ring
        rw [e]; exact h)
    refine ⟨by rw [i1, e1], ?_, by rw [i3, e3], by rw [i4, e4], ?_⟩
    · rw [i2, e2]; ring
    · rw [i5, e5, fsWrite_paths]

/-- On a table of `a + 2` equal rows `10`, when the byte count reaches the threshold with
row `a + 1`: the rollover creates file number 1 again, and the file system ends with that
single file holding the header row and the last row. -/
theorem dumpTableCsv_uniform (EscapeBytes : String → String)
    (csvRecord : Char → List String → String) (chunksizeInMB : Int) (a : Nat)
    (h1 : (((a * 2) / 1024 / 1024 : Nat) : Int) < chunksizeInMB)
    (h2 : chunksizeInMB ≤ ((((a + 1) * 2) / 1024 / 1024 : Nat) : Int))
    (h3 : (((2 : Nat) / 1024 / 1024 : Nat) : Int) < chunksizeInMB) :
    (dumpTableCsv EscapeBytes csvRecord (uniformConn (a + 1 + 1))
        (exampleArgs 1000000 chunksizeInMB) "db" "t" ',' []).created
      = ["out/db.t.00001.csv", "out/db.t.00001.csv"] ∧
    (dumpTableCsv EscapeBytes csvRecord (uniformConn (a + 1 + 1))
        (exampleArgs 1000000 chunksizeInMB) "db" "t" ',' []).fs
      = [("out/db.t.00001.csv", csvRecord ',' ["id"] ++ csvRecord ',' ["10"])] := by
  have hrows : dumpTableCsvRows (uniformConn (a + 1 + 1)) (exampleArgs 1000000 chunksizeInMB)
      "db" "t" = List.replicate (a + 1 + 1) [intValue "10"] := rfl
  have hhead : dumpTableCsvHeader (uniformConn (a + 1 + 1))
      (exampleArgs 1000000 chunksizeInMB) "db" "t" = ["id"] := rfl
  have hf1 : csvFile (exampleArgs 1000000 chunksizeInMB) "db" "t" 1 = "out/db.t.00001.csv" :=
    rfl
  have hv := uniform_csvValues EscapeBytes
  unfold dumpTableCsv
  rw [hrows, hhead, List.replicate_succ', dumpTableCsvLoop_snoc, List.replicate_succ',
    dumpTableCsvLoop_snoc]
  obtain ⟨q1, q2, q3, q4, q5⟩ := csv_uniform_quiet EscapeBytes csvRecord
    (exampleArgs 1000000 chunksizeInMB) "db" "t" ',' ["id"] [intValue "10"] a
    (dumpTableCsvInit csvRecord (exampleArgs 1000000 chunksizeInMB) "db" "t" ',' ["id"] [])
    (by
      rw [hv]
      show (((0 + a * 2) / 1024 / 1024 : Nat) : Int) < chunksizeInMB
      rw [Nat.zero_add]; exact h1)
  have q1b : (dumpTableCsvLoop EscapeBytes csvRecord (exampleArgs 1000000 chunksizeInMB)
      "db" "t" ',' ["id"]
      (dumpTableCsvInit csvRecord (exampleArgs 1000000 chunksizeInMB) "db" "t" ',' ["id"] [])
      (List.replicate a [intValue "10"])).fileNo = 1 := q1
  have q2b : (dumpTableCsvLoop EscapeBytes csvRecord (exampleArgs 1000000 chunksizeInMB)
      "db" "t" ',' ["id"]
      (dumpTableCsvInit csvRecord (exampleArgs 1000000 chunksizeInMB) "db" "t" ',' ["id"] [])
      (List.replicate a [intValue "10"])).chunkbytes = a * 2 := by
    rw [q2, hv]
    show 0 + a * 2 = a * 2
    omega
  have q3b : (dumpTableCsvLoop EscapeBytes csvRecord (exampleArgs 1000000 chunksizeInMB)
      "db" "t" ',' ["id"]
      (dumpTableCsvInit csvRecord (exampleArgs 1000000 chunksizeInMB) "db" "t" ',' ["id"] [])
      (List.replicate a [intValue "10"])).created = ["out/db.t.00001.csv"] := by
    rw [q3]; rfl
  have q4b : (dumpTableCsvLoop EscapeBytes csvRecord (exampleArgs 1000000 chunksizeInMB)
      "db" "t" ',' ["id"]
      (dumpTableCsvInit csvRecord (exampleArgs 1000000 chunksizeInMB) "db" "t" ',' ["id"] [])
      (List.replicate a [intValue "10"])).file = "out/db.t.00001.csv" := by
    rw [q4]; rfl
  have q5b : (dumpTableCsvLoop EscapeBytes csvRecord (exampleArgs 1000000 chunksizeInMB)
      "db" "t" ',' ["id"]
      (dumpTableCsvInit csvRecord (exampleArgs 1000000 chunksizeInMB) "db" "t" ',' ["id"] [])
      (List.replicate a [intValue "10"])).fs.map Prod.fst = ["out/db.t.00001.csv"] := by
    rw [q5]
    simp [dumpTableCsvInit, osCreate, fsWrite, hf1]
  obtain ⟨r1, r2, r3, r4, r5⟩ := (dumpTableCsvStep_fields EscapeBytes csvRecord
    (exampleArgs 1000000 chunksizeInMB) "db" "t" ',' ["id"]
    (dumpTableCsvLoop EscapeBytes csvRecord (exampleArgs 1000000 chunksizeInMB)
      "db" "t" ',' ["id"]
      (dumpTableCsvInit csvRecord (exampleArgs 1000000 chunksizeInMB) "db" "t" ',' ["id"] [])
      (List.replicate a [intValue "10"])) [intValue "10"]).1 (by
        rw [q2b, hv]
        have e : a * 2 + 2 = (a + 1) * 2 := by ring
        show chunksizeInMB ≤ (((a * 2 + 2) / 1024 / 1024 : Nat) : Int)
        rw [e]; exact h2)
  rw [q1b, hf1] at r3 r4 r5
  rw [q3b] at r3
  rw [q4b, recreate_single _ _ _ _ q5b] at r5
  obtain ⟨t1, t2, t3, t4, t5⟩ := (dumpTableCsvStep_fields EscapeBytes csvRecord
    (exampleArgs 1000000 chunksizeInMB) "db" "t" ',' ["id"]
    (dumpTableCsvStep EscapeBytes csvRecord (exampleArgs 1000000 chunksizeInMB) "db" "t" ','
      ["id"]
      (dumpTableCsvLoop EscapeBytes csvRecord (exampleArgs 1000000 chunksizeInMB)
        "db" "t" ',' ["id"]
        (dumpTableCsvInit csvRecord (exampleArgs 1000000 chunksizeInMB) "db" "t" ',' ["id"] [])
        (List.replicate a [intValue "10"])) [intValue "10"]) [intValue "10"]).2 (by
        rw [r2, hv]
        show ¬ chunksizeInMB ≤ (((0 + 2) / 1024 / 1024 : Nat) : Int)
        rw [Nat.zero_add]
        omega)
  rw [t3, t5, r3, r4, r5, hv]
  refine ⟨rfl, ?_⟩
  simp [fsWrite]

/-- C4 (the code at the failing input): in `dumpTableCsv` the `k`-th rollover creates the
file numbered `k`, the number in `fileNo` before it is incremented, so the first rollover
creates `...00001.csv` a second time and truncates it.  On a table `db.t` with the single
integer column `id` and 524289 rows holding 10, dumped with chunk size 1 MB, the rollover
comes with row 524288; the two files created are both `out/db.t.00001.csv`, and at the end
that file holds the header row and the last row only.  On the two rows (1,"Ann"),
(2,"Bo") with chunk size 0 the files created are 00001, 00001 and 00002, and the row
(1,"Ann") is in neither. -/
theorem dumpTableCsv_recreates_first_file (EscapeBytes : String → String)
    (csvRecord : Char → List String → String) :
    (∀ (conn : Connection) (args : Config) (database table : String) (separator : Char)
        (fs : List (String × String)),
      (dumpTableCsv EscapeBytes csvRecord conn args database table separator fs).created
        = csvFile args database table 1 ::
            (List.range ((dumpTableCsv EscapeBytes csvRecord conn args database table
              separator fs).fileNo - 1)).map (fun i => csvFile args database table (i + 1))) ∧
    (dumpTableCsvRows (uniformConn 524289) (exampleArgs 1000000 1) "db" "t").length
      = 524289 ∧
    (dumpTableCsv EscapeBytes csvRecord (uniformConn 524289) (exampleArgs 1000000 1)
        "db" "t" ',' []).created
      = ["out/db.t.00001.csv", "out/db.t.00001.csv"] ∧
    (dumpTableCsv EscapeBytes csvRecord (uniformConn 524289) (exampleArgs 1000000 1)
        "db" "t" ',' []).fs
      = [("out/db.t.00001.csv", csvRecord ',' ["id"] ++ csvRecord ',' ["10"])] ∧
    (dumpTableCsv EscapeBytes csvRecord scenarioConn (exampleArgs 1000000 0)
        "db" "t" ',' []).created
      = ["out/db.t.00001.csv", "out/db.t.00001.csv", "out/db.t.00002.csv"] ∧
    (dumpTableCsv EscapeBytes csvRecord scenarioConn (exampleArgs 1000000 0)
        "db" "t" ',' []).fs
      = [("out/db.t.00001.csv",
          csvRecord ',' ["id", "name"] ++ csvRecord ',' ["2", EscapeBytes "Bo"]),
         ("out/db.t.00002.csv", csvRecord ',' ["id", "name"])] := by
  have hu := dumpTableCsv_uniform EscapeBytes csvRecord 1 524287 (by decide) (by decide)
    (by decide)
  have hf1 : csvFile (exampleArgs 1000000 0) "db" "t" 1 = "out/db.t.00001.csv" := rfl
  have hf2 : csvFile (exampleArgs 1000000 0) "db" "t" 2 = "out/db.t.00002.csv" := rfl
  have hrows : dumpTableCsvRows scenarioConn (exampleArgs 1000000 0) "db" "t"
      = [[intValue "1", textValue "Ann"], [intValue "2", textValue "Bo"]] := rfl
  have hhead : dumpTableCsvHeader scenarioConn (exampleArgs 1000000 0) "db" "t"
      = ["id", "name"] := rfl
  have hC : (exampleArgs 1000000 0).ChunksizeInMB = 0 := rfl
  refine ⟨?_, List.length_replicate _ _, hu.1, hu.2, ?_, ?_⟩
  · intro conn args database table separator fs
    exact (dumpTableCsvLoop_created EscapeBytes csvRecord args database table separator _ fs
      _).2
  all_goals
    obtain ⟨a1, _, a3, a4, a5⟩ := (dumpTableCsvStep_fields EscapeBytes csvRecord
      (exampleArgs 1000000 0) "db" "t" ',' ["id", "name"]
      (dumpTableCsvInit csvRecord (exampleArgs 1000000 0) "db" "t" ',' ["id", "name"] [])
      [intValue "1", textValue "Ann"]).1 (by rw [hC]; exact Int.natCast_nonneg _)
    obtain ⟨_, _, b3, _, b5⟩ := (dumpTableCsvStep_fields EscapeBytes csvRecord
      (exampleArgs 1000000 0) "db" "t" ',' ["id", "name"]
      (dumpTableCsvStep EscapeBytes csvRecord (exampleArgs 1000000 0) "db" "t" ','
        ["id", "name"]
        (dumpTableCsvInit csvRecord (exampleArgs 1000000 0) "db" "t" ',' ["id", "name"] [])
        [intValue "1", textValue "Ann"])
      [intValue "2", textValue "Bo"]).1 (by rw [hC]; exact Int.natCast_nonneg _)
    have hne : ("out/db.t.00001.csv" : String) ≠ "out/db.t.00002.csv" := by decide
    have hcr : (dumpTableCsvInit csvRecord (exampleArgs 1000000 0) "db" "t" ',' ["id", "name"]
        []).created = ["out/db.t.00001.csv"] := rfl
    have hno : (dumpTableCsvInit csvRecord (exampleArgs 1000000 0) "db" "t" ',' ["id", "name"]
        []).fileNo = 1 := rfl
    unfold dumpTableCsv
    rw [hrows, hhead]
    simp only [dumpTableCsvLoop, List.foldl_cons, List.foldl_nil]
  · rw [b3, a3, a1, hno, hcr, hf1, hf2]
    rfl
  · rw [b5, a5, a4, a1, hno, hf1, hf2]
    simp [dumpTableCsvInit, fsWrite, osCreate, hf1, hne, hne.symm, csvValues, csvValue,
      intValue, textValue, isNumeric, string_empty_append]

/-! ## C11: the delimited dump below the chunk-size threshold -/

theorem string_append_empty (x : String) : x ++ "" = x := by
  apply String.ext
  simp [String.data_append]

theorem string_join_foldl (l : List String) (init : String) :
    l.foldl (fun r s => r ++ s) init = init ++ String.join l := by
  induction l generalizing init with
  | nil => simp [String.join, string_append_empty]
  | cons a l ih =>
    have h1 := ih (init ++ a)
    have h2 := ih ("" ++ a)
    simp only [List.foldl_cons, String.join] at h1 h2 ⊢
    rw [h1, h2, string_empty_append, String.append_assoc]

theorem string_join_cons (a : String) (l : List String) :
    String.join (a :: l) = a ++ String.join l := by
  have h := string_join_foldl l ("" ++ a)
  rw [string_empty_append] at h
  simpa [String.join, string_empty_append] using h

theorem fsWrite_empty (fs : List (String × String)) (path : String) :
    fsWrite fs path "" = fs := by
  induction fs with
  | nil => rfl
  | cons e fs ih =>
    unfold fsWrite at ih ⊢
    rw [List.map_cons, ih]
    by_cases h : e.1 = path
    · rw [if_pos h, string_append_empty]
    · rw [if_neg h]

theorem fsWrite_fsWrite (fs : List (String × String)) (path a b : String) :
    fsWrite (fsWrite fs path a) path b = fsWrite fs path (a ++ b) := by
  induction fs with
  | nil => rfl
  | cons e fs ih =>
    unfold fsWrite at ih ⊢
    rw [List.map_cons, List.map_cons, List.map_cons, ih]
    by_cases h : e.1 = path <;> simp [h, String.append_assoc]

theorem csvAccounted_cons (EscapeBytes : String → String) (row : List Value)
    (rows : List (List Value)) :
    csvAccounted EscapeBytes (row :: rows)
      = (csvValues EscapeBytes row).2 + csvAccounted EscapeBytes rows := by
  simp [csvAccounted]

/-- A run of rows of `dumpTableCsv` without a rollover appends the record of every row to
the current file and changes neither the file number nor the files created. -/
theorem csv_quiet_run (EscapeBytes : String → String)
    (csvRecord : Char → List String → String) (args : Config) (database table : String)
    (separator : Char) (headerfields : List String) (rows : List (List Value)) :
    ∀ s : CsvDump,
      (((s.chunkbytes + csvAccounted EscapeBytes rows) / 1024 / 1024 : Nat) : Int)
        < args.ChunksizeInMB →
      (dumpTableCsvLoop EscapeBytes csvRecord args database table separator headerfields s
          rows).fileNo = s.fileNo ∧
      (dumpTableCsvLoop EscapeBytes csvRecord args database table separator headerfields s
          rows).chunkbytes = s.chunkbytes + csvAccounted EscapeBytes rows ∧
      (dumpTableCsvLoop EscapeBytes csvRecord args database table separator headerfields s
          rows).created = s.created ∧
      (dumpTableCsvLoop EscapeBytes csvRecord args database table separator headerfields s
          rows).file = s.file ∧
      (dumpTableCsvLoop EscapeBytes csvRecord args database table separator headerfields s
          rows).fs
        = fsWrite s.fs s.file
            (String.join (rows.map (fun row => csvRecord separator (csvValues EscapeBytes row).1))) := by
  induction rows with
  | nil =>
    intro s _
    simp [dumpTableCsvLoop, csvAccounted, String.join, fsWrite_empty]
  | cons row rows ih =>
    intro s h
    rw [csvAccounted_cons] at h
    have hq : ¬ args.ChunksizeInMB
        ≤ (((s.chunkbytes + (csvValues EscapeBytes row).2) / 1024 / 1024 : Nat) : Int) := by
      have := mb_mono (by omega : s.chunkbytes + (csvValues EscapeBytes row).2
        ≤ s.chunkbytes + ((csvValues EscapeBytes row).2 + csvAccounted EscapeBytes rows))
      omega
    obtain ⟨e1, e2, e3, e4, e5⟩ := (dumpTableCsvStep_fields EscapeBytes csvRecord args
      database table separator headerfields s row).2 hq
    have hnext : (dumpTableCsvLoop EscapeBytes csvRecord args database table separator
        headerfields s (row :: rows))
          = dumpTableCsvLoop EscapeBytes csvRecord args database table separator headerfields
              (dumpTableCsvStep EscapeBytes csvRecord args database table separator
                headerfields s row) rows := by
      simp [dumpTableCsvLoop]
    rw [hnext]
    obtain ⟨i1, i2, i3, i4, i5⟩ := ih (dumpTableCsvStep EscapeBytes csvRecord args database
      table separator headerfields s row) (by
        rw [e2, Nat.add_assoc]; exact h)
    refine ⟨by rw [i1, e1], ?_, by rw [i3, e3], by rw [i4, e4], ?_⟩
    · rw [i2, e2, csvAccounted_cons, Nat.add_assoc]
    · rw [i5, e5, e4, fsWrite_fsWrite, List.map_cons, string_join_cons]

theorem csvValues_fst (EscapeBytes : String → String) (row : List Value) :
    (csvValues EscapeBytes row).1 = row.map (fun v => (csvValue EscapeBytes v).1) := by
  have key : ∀ (l : List Value) (acc : List String × Nat),
      (l.foldl (fun acc v => (acc.1 ++ [(csvValue EscapeBytes v).1],
        acc.2 + (csvValue EscapeBytes v).2)) acc).1
        = acc.1 ++ l.map (fun v => (csvValue EscapeBytes v).1) := by
    intro l
    induction l with
    | nil => intro acc; simp
    | cons a l ih => intro acc; rw [List.foldl_cons, ih]; simp
  simpa [csvValues] using key row ([], 0)

theorem fsRead_create_write (fs : List (String × String)) (path data : String) :
    fsRead (fsWrite (osCreate fs path) path data) path = some data := by
  have hyes : ∀ l : List (String × String), l.any (fun e => e.1 == path) = true →
      fsRead (fsWrite (l.map (fun e => if e.1 = path then (e.1, "") else e)) path data) path
        = some data := by
    intro l
    induction l with
    | nil => intro h; simp at h
    | cons e l ih =>
      intro h
      by_cases he : e.1 = path
      · simp [fsRead, fsWrite, he, string_empty_append]
      · have hl : l.any (fun e => e.1 == path) = true := by
          simpa [he] using h
        have := ih hl
        simp only [fsRead, fsWrite, List.map_cons, if_neg he] at this ⊢
        rw [List.find?_cons_of_neg _ (by simpa using he)]
        exact this
  have hno : ∀ l : List (String × String), l.any (fun e => e.1 == path) = false →
      fsRead (fsWrite (l ++ [(path, "")]) path data) path = some data := by
    intro l
    induction l with
    | nil => intro _; simp [fsRead, fsWrite, string_empty_append]
    | cons e l ih =>
      intro h
      have he : e.1 ≠ path := by
        intro e1
        simp [e1] at h
      have hl : l.any (fun e => e.1 == path) = false := by
        simpa [he] using h
      have := ih hl
      simp only [fsRead, fsWrite, List.cons_append, List.map_cons, if_neg he] at this ⊢
      rw [List.find?_cons_of_neg _ (by simpa using he)]
      exact this
  unfold osCreate
  by_cases h : fs.any (fun e => e.1 == path) = true
  · rw [if_pos h]
    exact hyes fs h
  · rw [if_neg h]
    exact hno fs (Bool.eq_false_iff.mpr h)

/-- Below the threshold `dumpTableCsv` creates one file and leaves in it the header
record followed by the record of every row. -/
theorem dumpTableCsv_single (EscapeBytes : String → String)
    (csvRecord : Char → List String → String) (conn : Connection) (args : Config)
    (database table : String) (separator : Char) (fs : List (String × String))
    (h : (csvAccounted EscapeBytes (dumpTableCsvRows conn args database table) : Int)
      < args.ChunksizeInMB * 1024 * 1024) :
    (dumpTableCsv EscapeBytes csvRecord conn args database table separator fs).created
      = [csvFile args database table 1] ∧
    (dumpTableCsv EscapeBytes csvRecord conn args database table separator fs).fs
      = fsWrite (osCreate fs (csvFile args database table 1)) (csvFile args database table 1)
          (csvRecord separator (dumpTableCsvHeader conn args database table)
            ++ String.join ((dumpTableCsvRows conn args database table).map
                (fun row => csvRecord separator (csvValues EscapeBytes row).1))) := by
  obtain ⟨_, _, q3, q4, q5⟩ := csv_quiet_run EscapeBytes csvRecord args database table
    separator (dumpTableCsvHeader conn args database table)
    (dumpTableCsvRows conn args database table)
    (dumpTableCsvInit csvRecord args database table separator
      (dumpTableCsvHeader conn args database table) fs) (by
        show (((0 + csvAccounted EscapeBytes (dumpTableCsvRows conn args database table))
          / 1024 / 1024 : Nat) : Int) < args.ChunksizeInMB
        rw [Nat.zero_add]
        omega)
  unfold dumpTableCsv
  rw [q3, q5]
  refine ⟨rfl, ?_⟩
  show fsWrite (fsWrite (osCreate fs (csvFile args database table 1))
    (csvFile args database table 1) _) (csvFile args database table 1) _ = _
  rw [fsWrite_fsWrite]

theorem fsWrite_create_nil (path data : String) :
    fsWrite (osCreate [] path) path data = [(path, data)] := by
  simp [osCreate, fsWrite, string_empty_append]

theorem fieldNeedsQuotes_iff (sep : Char) (field : String) :
    fieldNeedsQuotes sep field = true ↔
      field ≠ "" ∧ (field = "\\." ∨
        (∃ c, c ∈ field.data ∧ (c = sep ∨ c = dquote ∨ c = '\r' ∨ c = '\n')) ∨
        (∃ c, field.data.head? = some c ∧ isSpace c = true)) := by
  unfold fieldNeedsQuotes
  by_cases h0 : field = ""
  · simp [h0]
  · by_cases h1 : field = "\\."
    · simp [h0, h1]
    · by_cases h2 : field.data.any (fun c => c == sep || c == dquote || c == '\r' || c == '\n')
          = true
      · rw [if_neg h0, if_neg h1, if_pos h2]
        simp only [true_iff]
        refine ⟨h0, Or.inr (Or.inl ?_)⟩
        obtain ⟨c, hc, hq⟩ := List.any_eq_true.mp h2
        refine ⟨c, hc, ?_⟩
        simpa [or_assoc] using hq
      · rw [if_neg h0, if_neg h1, if_neg h2]
        have hnone : ¬ ∃ c, c ∈ field.data ∧ (c = sep ∨ c = dquote ∨ c = '\r' ∨ c = '\n') := by
          rintro ⟨c, hc, hq⟩
          apply h2
          exact List.any_eq_true.mpr ⟨c, hc, by simpa [or_assoc] using hq⟩
        cases hd : field.data with
        | nil =>
          simp [h0, h1, hnone, hd]
        | cons c rest =>
          have hnone2 : ¬ ∃ x, x ∈ c :: rest ∧ (x = sep ∨ x = dquote ∨ x = '\r' ∨ x = '\n') := by
            rw [← hd]; exact hnone
          constructor
          · intro h
            exact ⟨h0, Or.inr (Or.inr ⟨c, by simp, h⟩)⟩
          · rintro ⟨_, h | h | ⟨x, hx, hs⟩⟩
            · exact absurd h h1
            · exact absurd h hnone2
            · simp at hx
              rw [hx]; exact hs
theorem csvWrite_plain (sep : Char) (record : List String) (hsep : validDelim sep = true)
    (hrec : ∀ f, f ∈ record → fieldNeedsQuotes sep f = false) :
    csvWrite sep record = String.intercalate (String.singleton sep) record ++ "\n" := by
  have hmap : record.map (csvField sep) = record := by
    induction record with
    | nil => rfl
    | cons a l ih =>
      rw [List.map_cons, ih (fun f hf => hrec f (List.mem_cons_of_mem _ hf))]
      simp [csvField, hrec a (List.mem_cons_self _ _)]
  simp [csvWrite, hsep, hmap]

/-- C11 (counterexample): a table `db.t` with the columns id and name and the single row
(1, "Doe, Ann") is dumped with separator `,` below the chunk-size threshold.  The line
of the row is not its values joined by the separator: the CSV writer encloses the value
that holds the separator in double quotes. -/
theorem csv_value_with_separator_is_quoted :
    (dumpTableCsv (fun b => b) csvWrite commaConn (exampleArgs 1000000 128) "db" "t" ','
        []).fs
      = [("out/db.t.00001.csv", "id,name\n1,\"Doe, Ann\"\n")] ∧
    (dumpTableCsv (fun b => b) csvWrite commaConn (exampleArgs 1000000 128) "db" "t" ','
        []).fs
      ≠ [("out/db.t.00001.csv",
          String.intercalate "," ["id", "name"] ++ "\n"
            ++ String.intercalate "," ["1", "Doe, Ann"] ++ "\n")] := by
  have h : (dumpTableCsv (fun b => b) csvWrite commaConn (exampleArgs 1000000 128) "db" "t"
      ',' []).fs = [("out/db.t.00001.csv", "id,name\n1,\"Doe, Ann\"\n")] := by decide
  refine ⟨h, ?_⟩
  rw [h]
  decide

/-- C11 (amended): for every row stream whose accounted bytes stay below the chunk-size
threshold, `dumpTableCsv` with separator `s` creates exactly one file,
`<outdir>/<db>.<table>.00001.csv`, which afterwards holds the record of the emitted column
names followed by the records of the rows in source order, each written by the CSV writer
with separator `s` (the value of a row being NULL, the canonical string of a numeric
value, or the escaped bytes).  The writer writes a record as its fields, separated by `s`
and ended by a line feed: a field that needs no quotes as it is, and between double quotes,
with every double quote inside doubled, a non-empty field that holds the separator, a
double quote, a carriage return or a line feed, that starts with a space character, or
that is a backslash followed by a dot.  For table `t` in `db` with columns (id, name), rows
(1,"Ann"), (2,"Bo") and separator `,` the file `db.t.00001.csv` holds `id,name`, `1,Ann`
and `2,Bo`, one per line. -/
theorem single_csv_file (EscapeBytes : String → String) :
    (∀ (csvRecord : Char → List String → String) (conn : Connection) (args : Config)
        (database table : String) (separator : Char) (fs : List (String × String)),
      (csvAccounted EscapeBytes (dumpTableCsvRows conn args database table) : Int)
        < args.ChunksizeInMB * 1024 * 1024 →
      (dumpTableCsv EscapeBytes csvRecord conn args database table separator fs).created
        = [args.Outdir ++ "/" ++ database ++ "." ++ table ++ "." ++ "00001" ++ ".csv"] ∧
      fsRead (dumpTableCsv EscapeBytes csvRecord conn args database table separator fs).fs
          (args.Outdir ++ "/" ++ database ++ "." ++ table ++ "." ++ "00001" ++ ".csv")
        = some (csvRecord separator (dumpTableCsvHeader conn args database table)
              ++ String.join ((dumpTableCsvRows conn args database table).map
                  (fun row => csvRecord separator
                    (row.map (fun v => (csvValue EscapeBytes v).1)))))) ∧
    (∀ (sep : Char) (record : List String), validDelim sep = true →
      (∀ f, f ∈ record → fieldNeedsQuotes sep f = false) →
      csvWrite sep record = String.intercalate (String.singleton sep) record ++ "\n") ∧
    (∀ (sep : Char) (record : List String), validDelim sep = true →
      csvWrite sep record
        = String.intercalate (String.singleton sep) (record.map (csvField sep)) ++ "\n") ∧
    (∀ (sep : Char) (field : String), field ≠ "" →
      (field = "\\." ∨
        (∃ c, c ∈ field.data ∧ (c = sep ∨ c = dquote ∨ c = '\r' ∨ c = '\n')) ∨
        (∃ c, field.data.head? = some c ∧ isSpace c = true)) →
      csvField sep field
        = "\"" ++ String.mk (field.data.flatMap
            (fun c => if c = dquote then [dquote, dquote] else [c])) ++ "\"") ∧
    (∀ (sep : Char) (field : String),
      (field = "" ∨
        (field ≠ "\\." ∧
          (∀ c, c ∈ field.data → c ≠ sep ∧ c ≠ dquote ∧ c ≠ '\r' ∧ c ≠ '\n') ∧
          (∀ c, field.data.head? = some c → isSpace c = false))) →
      csvField sep field = field) ∧
    (EscapeBytes "Ann" = "Ann" → EscapeBytes "Bo" = "Bo" →
      (dumpTableCsv EscapeBytes csvWrite scenarioConn (exampleArgs 1000000 128) "db" "t" ','
          []).fs
        = [("out/db.t.00001.csv", "id,name\n1,Ann\n2,Bo\n")]) := by
  have h5 : pad5 1 = "00001" := by decide
  have hfile : ∀ (args : Config) (database table : String),
      csvFile args database table 1
        = args.Outdir ++ "/" ++ database ++ "." ++ table ++ "." ++ "00001" ++ ".csv" := by
    intro args database table
    simp [csvFile, h5]
  refine ⟨?_, csvWrite_plain, ?_, ?_, ?_, ?_⟩
  · intro csvRecord conn args database table separator fs h
    obtain ⟨h1, h2⟩ := dumpTableCsv_single EscapeBytes csvRecord conn args database table
      separator fs h
    rw [h1, h2, hfile, fsRead_create_write]
    simp only [csvValues_fst]
    exact ⟨trivial, trivial⟩
  · intro sep record hsep
    simp [csvWrite, hsep]
  · intro sep field h0 h
    have hq : fieldNeedsQuotes sep field = true := (fieldNeedsQuotes_iff sep field).mpr ⟨h0, h⟩
    simp [csvField, hq]
  · intro sep field h
    have hq : fieldNeedsQuotes sep field = false := by
      rw [← Bool.not_eq_true, fieldNeedsQuotes_iff]
      rintro ⟨h0, hcase⟩
      rcases h with h | ⟨h1, h2, h3⟩
      · exact h0 h
      · rcases hcase with hc | ⟨c, hc, hs⟩ | ⟨c, hc, hs⟩
        · exact h1 hc
        · obtain ⟨a1, a2, a3, a4⟩ := h2 c hc
          rcases hs with hs | hs | hs | hs
          · exact a1 hs
          · exact a2 hs
          · exact a3 hs
          · exact a4 hs
        · rw [h3 c hc] at hs
          exact Bool.false_ne_true hs
    simp [csvField, hq]
  · intro hAnn hBo
    have hacc : (csvAccounted EscapeBytes
        (dumpTableCsvRows scenarioConn (exampleArgs 1000000 128) "db" "t") : Int)
        < (exampleArgs 1000000 128).ChunksizeInMB * 1024 * 1024 := by
      have e : csvAccounted EscapeBytes
          (dumpTableCsvRows scenarioConn (exampleArgs 1000000 128) "db" "t") = 7 := by
        show csvAccounted EscapeBytes
          [[intValue "1", textValue "Ann"], [intValue "2", textValue "Bo"]] = 7
        have l1 : len "1" = 1 := by decide
        have l2 : len "2" = 1 := by decide
        have l3 : len "Ann" = 3 := by decide
        have l4 : len "Bo" = 2 := by decide
        simp [csvAccounted, csvValues, csvValue, intValue, textValue, isNumeric, l1, l2, l3,
          l4]
      rw [e]
      decide
    rw [(dumpTableCsv_single EscapeBytes csvWrite scenarioConn (exampleArgs 1000000 128)
      "db" "t" ',' [] hacc).2, fsWrite_create_nil]
    show [(csvFile (exampleArgs 1000000 128) "db" "t" 1,
      csvWrite ',' ["id", "name"] ++ String.join
        ([[intValue "1", textValue "Ann"], [intValue "2", textValue "Bo"]].map
          (fun row => csvWrite ',' (csvValues EscapeBytes row).1)))] = _
    have hrow1 : (csvValues EscapeBytes [intValue "1", textValue "Ann"]).1 = ["1", "Ann"] := by
      simp [csvValues_fst, csvValue, intValue, textValue, isNumeric, hAnn]
    have hrow2 : (csvValues EscapeBytes [intValue "2", textValue "Bo"]).1 = ["2", "Bo"] := by
      simp [csvValues_fst, csvValue, intValue, textValue, isNumeric, hBo]
    simp only [List.map_cons, List.map_nil, hrow1, hrow2]
    decide

/-- An instance: the scenario table with separator `,` and large thresholds, and the
field `Doe, Ann`, which holds the separator. -/
theorem single_csv_file_witness :
    (dumpTableCsv (fun b => b) csvWrite scenarioConn (exampleArgs 1000000 128) "db" "t" ','
        []).created
      = [(exampleArgs 1000000 128).Outdir ++ "/" ++ "db" ++ "." ++ "t" ++ "." ++ "00001"
          ++ ".csv"] ∧
    csvWrite ',' ["1", "Ann"] = String.intercalate (String.singleton ',') ["1", "Ann"] ++ "\n" ∧
    csvWrite ',' ["1", "Doe, Ann"]
      = String.intercalate (String.singleton ',') (["1", "Doe, Ann"].map (csvField ','))
          ++ "\n" ∧
    csvField ',' "Doe, Ann" = "\"Doe, Ann\"" ∧
    csvField ',' "Ann" = "Ann" ∧
    (dumpTableCsv (fun b => b) csvWrite scenarioConn (exampleArgs 1000000 128) "db" "t" ','
        []).fs
      = [("out/db.t.00001.csv", "id,name\n1,Ann\n2,Bo\n")] :=
  ⟨((single_csv_file (fun b => b)).1 csvWrite scenarioConn (exampleArgs 1000000 128)
      "db" "t" ',' [] (by decide)).1,
    (single_csv_file (fun b => b)).2.1 ',' ["1", "Ann"] (by decide) (by decide),
    (single_csv_file (fun b => b)).2.2.1 ',' ["1", "Doe, Ann"] (by decide),
    ((single_csv_file (fun b => b)).2.2.2.1 ',' "Doe, Ann" (by decide)
      (Or.inr (Or.inl ⟨',', by decide, Or.inl rfl⟩))).trans (by decide),
    (single_csv_file (fun b => b)).2.2.2.2.1 ',' "Ann" (Or.inr (by decide)),
    (single_csv_file (fun b => b)).2.2.2.2.2 rfl rfl⟩

/-! ## C18: the select list is aligned with the column list -/

/-- C18: the emitted column list and the select list built by `dumpTable`, and those
built by `dumpTableCsv`, have the length of the list of emitted column names, and at
every position where that list holds the column `c` the column list holds `c` between
backticks and the select list holds the select expression of `c`: the replacement
expression configured for `c` in this table followed by AS and `c` between backticks, or
`c` between backticks when there is none. -/
theorem select_list_aligned (args : Config) (table : String) (flds : List Field) :
    (dumpTableColumns args table flds).fields.length
      = (dumpTableCsvColumns args table flds).headerfields.length ∧
    (dumpTableColumns args table flds).selfields.length
      = (dumpTableCsvColumns args table flds).headerfields.length ∧
    (dumpTableCsvColumns args table flds).fields = (dumpTableColumns args table flds).fields ∧
    (dumpTableCsvColumns args table flds).selfields
      = (dumpTableColumns args table flds).selfields ∧
    (∀ (i : Nat) (c : String), (dumpTableCsvColumns args table flds).headerfields[i]? = some c →
      (dumpTableColumns args table flds).fields[i]? = some ("`" ++ c ++ "`") ∧
      (dumpTableColumns args table flds).selfields[i]? = some (selectExpr args table c)) ∧
    (∀ c replacement : String, args.Selects table c = some replacement →
      selectExpr args table c = replacement ++ " AS `" ++ c ++ "`") ∧
    (∀ c : String, args.Selects table c = none → selectExpr args table c = "`" ++ c ++ "`") := by
  rw [dumpTableColumns_eq, dumpTableCsvColumns_eq]
  refine ⟨by simp, by simp, rfl, rfl, ?_, ?_, ?_⟩
  · intro i c h
    simp only [List.getElem?_map] at h ⊢
    cases hk : (flds.filter (fun f => (args.Filters table f.Name).isNone))[i]? with
    | none => rw [hk] at h; simp at h
    | some f =>
      rw [hk] at h
      simp only [Option.map_some', Option.some.injEq] at h
      simp [h, quoteName]
  · intro c replacement h
    simp [selectExpr, h]
  · intro c h
    simp [selectExpr, h]

/-- An instance: table `t` with the columns id, secret and name; the second emitted
column is `name`, which has a replacement. -/
theorem select_list_aligned_witness :
    (dumpTableColumns filterArgs "t"
        [{ Name := "id" }, { Name := "secret" }, { Name := "name" }]).fields[1]?
      = some ("`" ++ "name" ++ "`") ∧
    (dumpTableColumns filterArgs "t"
        [{ Name := "id" }, { Name := "secret" }, { Name := "name" }]).selfields[1]?
      = some (selectExpr filterArgs "t" "name") ∧
    selectExpr filterArgs "t" "name" = "UPPER(name)" ++ " AS `" ++ "name" ++ "`" :=
  ⟨((select_list_aligned filterArgs "t"
      [{ Name := "id" }, { Name := "secret" }, { Name := "name" }]).2.2.2.2.1 1 "name"
        (by decide)).1,
    ((select_list_aligned filterArgs "t"
      [{ Name := "id" }, { Name := "secret" }, { Name := "name" }]).2.2.2.2.1 1 "name"
        (by decide)).2,
    (select_list_aligned filterArgs "t"
      [{ Name := "id" }, { Name := "secret" }, { Name := "name" }]).2.2.2.2.2.1 "name"
        "UPPER(name)" (by decide)⟩

/-! ## C20: the empty row stream -/

/-- C20: on an empty row stream `dumpTable` writes no file, its final write being made
only when the byte count since the last rollover is positive, while `dumpTableCsv`
creates the one file numbered 00001 and leaves in it the header record alone. -/
theorem empty_stream (EscapeBytes : String → String)
    (csvRecord : Char → List String → String) (conn : Connection) (args : Config)
    (database table : String) (separator : Char) (fs : List (String × String)) :
    (dumpTableRows conn args database table = [] →
      (dumpTable EscapeBytes conn args database table).files = []) ∧
    (∀ (fields : List String) (s : SqlDump),
      (s.chunkbytes = 0 → (dumpTableFinish args database table fields s).files = s.files) ∧
      (0 < s.chunkbytes →
        (dumpTableFinish args database table fields s).files.length = s.files.length + 1)) ∧
    (dumpTableCsvRows conn args database table = [] →
      (dumpTableCsv EscapeBytes csvRecord conn args database table separator fs).created
        = [args.Outdir ++ "/" ++ database ++ "." ++ table ++ "." ++ "00001" ++ ".csv"] ∧
      fsRead (dumpTableCsv EscapeBytes csvRecord conn args database table separator fs).fs
          (args.Outdir ++ "/" ++ database ++ "." ++ table ++ "." ++ "00001" ++ ".csv")
        = some (csvRecord separator (dumpTableCsvHeader conn args database table))) := by
  have h5 : pad5 1 = "00001" := by decide
  refine ⟨?_, ?_, ?_⟩
  · intro h
    unfold dumpTable
    rw [h]
    rfl
  · intro fields s
    constructor
    · intro h0
      simp [dumpTableFinish, h0]
    · intro hpos
      simp [dumpTableFinish, hpos]
  · intro h
    have hfile : csvFile args database table 1
        = args.Outdir ++ "/" ++ database ++ "." ++ table ++ "." ++ "00001" ++ ".csv" := by
      simp [csvFile, h5]
    have hrun : dumpTableCsv EscapeBytes csvRecord conn args database table separator fs
        = dumpTableCsvInit csvRecord args database table separator
            (dumpTableCsvHeader conn args database table) fs := by
      unfold dumpTableCsv
      rw [h]
      rfl
    rw [hrun]
    constructor
    · show [csvFile args database table 1] = _
      rw [hfile]
    · show fsRead (fsWrite (osCreate fs (csvFile args database table 1))
        (csvFile args database table 1) _) _ = _
      rw [← hfile, fsRead_create_write]

/-- An instance: a table without rows. -/
theorem empty_stream_witness :
    (dumpTable (fun b => b) (uniformConn 0) (exampleArgs 1000000 128) "db" "t").files = [] ∧
    fsRead (dumpTableCsv (fun b => b) csvWrite (uniformConn 0) (exampleArgs 1000000 128) "db"
        "t" ',' []).fs
        ((exampleArgs 1000000 128).Outdir ++ "/" ++ "db" ++ "." ++ "t" ++ "." ++ "00001"
            ++ ".csv")
      = some (csvWrite ','
          (dumpTableCsvHeader (uniformConn 0) (exampleArgs 1000000 128) "db" "t")) :=
  ⟨(empty_stream (fun b => b) csvWrite (uniformConn 0) (exampleArgs 1000000 128) "db" "t"
      ',' []).1 rfl,
    ((empty_stream (fun b => b) csvWrite (uniformConn 0) (exampleArgs 1000000 128) "db" "t"
      ',' []).2.2 rfl).2⟩

/-! ## C16: the format selector -/

/-- C16 (counterexample): with the selector `sql` the worker runs no dumper and ends with
the error of an unknown format; the selector that runs `dumpTable` is `mysql`. -/
theorem selector_sql_is_unknown :
    dumpWorker (fun b => b) csvWrite scenarioConn (formatArgs "sql") "db" "t" []
      = Except.error "Unknown dump format" ∧
    dumpWorker (fun b => b) csvWrite scenarioConn (formatArgs "mysql") "db" "t" []
      = Except.ok (WorkerResult.mysql
          (dumpTable (fun b => b) scenarioConn (formatArgs "mysql") "db" "t")) := by
  constructor
  · simp [dumpWorker, formatArgs, exampleArgs]
  · simp [dumpWorker, formatArgs, exampleArgs]

/-- C16 (amended): the format selector ranges over mysql, csv and tsv: the selector
`mysql` runs the SQL multi-row INSERT dumper (`dumpTable`), `csv` runs the delimited
dumper with separator `,`, `tsv` runs the delimited dumper with the tab separator, and
every other selector value, `sql` included, is an unknown-format error that runs no
dumper. -/
theorem format_dispatch (EscapeBytes : String → String)
    (csvRecord : Char → List String → String) (conn : Connection) (args : Config)
    (database table : String) (fs : List (String × String)) :
    (args.Format = "mysql" →
      dumpWorker EscapeBytes csvRecord conn args database table fs
        = Except.ok (WorkerResult.mysql (dumpTable EscapeBytes conn args database table))) ∧
    (args.Format = "csv" →
      dumpWorker EscapeBytes csvRecord conn args database table fs
        = Except.ok (WorkerResult.delimited
            (dumpTableCsv EscapeBytes csvRecord conn args database table ',' fs))) ∧
    (args.Format = "tsv" →
      dumpWorker EscapeBytes csvRecord conn args database table fs
        = Except.ok (WorkerResult.delimited
            (dumpTableCsv EscapeBytes csvRecord conn args database table '\t' fs))) ∧
    (args.Format ≠ "mysql" → args.Format ≠ "csv" → args.Format ≠ "tsv" →
      dumpWorker EscapeBytes csvRecord conn args database table fs
        = Except.error "Unknown dump format") ∧
    (args.Format = "sql" →
      dumpWorker EscapeBytes csvRecord conn args database table fs
        = Except.error "Unknown dump format") := by
  refine ⟨?_, ?_, ?_, ?_, ?_⟩
  · intro h
    simp [dumpWorker, h]
  · intro h
    simp [dumpWorker, h]
  · intro h
    simp [dumpWorker, h]
  · intro h1 h2 h3
    simp [dumpWorker, h1, h2, h3]
  · intro h
    simp [dumpWorker, h]

/-- An instance: the three selectors and the value `sql` on the scenario table. -/
theorem format_dispatch_witness :
    dumpWorker (fun b => b) csvWrite scenarioConn (formatArgs "mysql") "db" "t" []
      = Except.ok (WorkerResult.mysql
          (dumpTable (fun b => b) scenarioConn (formatArgs "mysql") "db" "t")) ∧
    dumpWorker (fun b => b) csvWrite scenarioConn (formatArgs "csv") "db" "t" []
      = Except.ok (WorkerResult.delimited
          (dumpTableCsv (fun b => b) csvWrite scenarioConn (formatArgs "csv") "db" "t" ',' [])) ∧
    dumpWorker (fun b => b) csvWrite scenarioConn (formatArgs "tsv") "db" "t" []
      = Except.ok (WorkerResult.delimited
          (dumpTableCsv (fun b => b) csvWrite scenarioConn (formatArgs "tsv") "db" "t" '\t'
            [])) ∧
    dumpWorker (fun b => b) csvWrite scenarioConn (formatArgs "json") "db" "t" []
      = Except.error "Unknown dump format" ∧
    dumpWorker (fun b => b) csvWrite scenarioConn (formatArgs "sql") "db" "t" []
      = Except.error "Unknown dump format" :=
  ⟨(format_dispatch (fun b => b) csvWrite scenarioConn (formatArgs "mysql") "db" "t" []).1 rfl,
    (format_dispatch (fun b => b) csvWrite scenarioConn (formatArgs "csv") "db" "t" []).2.1 rfl,
    (format_dispatch (fun b => b) csvWrite scenarioConn (formatArgs "tsv") "db" "t"
      []).2.2.1 rfl,
    (format_dispatch (fun b => b) csvWrite scenarioConn (formatArgs "json") "db" "t"
      []).2.2.2.1 (by decide) (by decide) (by decide),
    (format_dispatch (fun b => b) csvWrite scenarioConn (formatArgs "sql") "db" "t"
      []).2.2.2.2 rfl⟩

/-! ## C12, C13 and C19: the sizes of the per-database pools -/

theorem dumperPoolCalls_eq (threads : Int) (n : Nat) (hn : n ≠ 0) (databases : List String) :
    ∀ tables : List (List String),
      dumperPoolCalls threads n databases tables
        = some ((databases.zip tables).flatMap (fun p =>
            PoolCall.NewPool p.1 (Int.tdiv threads n)
              :: p.2.map (PoolCall.Get p.1 (Int.tdiv threads n)))) := by
  have hdiv : goDiv threads n = some (Int.tdiv threads n) := by
    have : (n : Int) ≠ 0 := by exact_mod_cast hn
    simp [goDiv, this]
  induction databases with
  | nil => intro tables; simp [dumperPoolCalls]
  | cons d ds ih =>
    intro tables
    cases tables with
    | nil => simp [dumperPoolCalls]
    | cons ts tss => simp [dumperPoolCalls, hdiv, ih tss]

theorem dumperPoolCalls_length (threads : Int) (databases : List String)
    (tables : List (List String)) :
    dumperPoolCalls threads databases.length databases tables
      = some ((databases.zip tables).flatMap (fun p =>
          PoolCall.NewPool p.1 (Int.tdiv threads databases.length)
            :: p.2.map (PoolCall.Get p.1 (Int.tdiv threads databases.length)))) := by
  cases databases with
  | nil => simp [dumperPoolCalls]
  | cons d ds => exact dumperPoolCalls_eq threads _ (by simp) _ tables

theorem poolSizes_append (a b : List PoolCall) : poolSizes (a ++ b) = poolSizes a ++ poolSizes b := by
  induction a with
  | nil => rfl
  | cons c a ih =>
    cases c with
    | NewPool d size => simp [poolSizes, ih]
    | Get d size t => simp [poolSizes, ih]

theorem poolSizes_gets (d : String) (size : Int) (ts : List String) :
    poolSizes (ts.map (PoolCall.Get d size)) = [] := by
  induction ts with
  | nil => rfl
  | cons t ts ih => simp [poolSizes, ih]

theorem poolSizes_calls (q : Int) (databases : List String) :
    ∀ tables : List (List String), tables.length = databases.length →
      poolSizes ((databases.zip tables).flatMap (fun p =>
        PoolCall.NewPool p.1 q :: p.2.map (PoolCall.Get p.1 q)))
        = List.replicate databases.length q := by
  induction databases with
  | nil => intro tables _; rfl
  | cons d ds ih =>
    intro tables h
    cases tables with
    | nil => simp at h
    | cons ts tss =>
      have h2 : tss.length = ds.length := by simpa using h
      simp only [List.zip_cons_cons, List.flatMap_cons, List.length_cons, List.replicate_succ]
      rw [poolSizes_append, ih tss h2]
      simp [poolSizes, poolSizes_gets]

theorem dumperTables_length (conn : Connection) (args : Config) (databases : List String) :
    ∀ tables, dumperTables conn args databases = some tables →
      tables.length = databases.length := by
  induction databases with
  | nil =>
    intro tables h
    simp [dumperTables] at h
    simp [← h]
  | cons d ds ih =>
    intro tables h
    unfold dumperTables at h
    split at h
    · rename_i ts tss _ hrest
      simp only [Option.some.injEq] at h
      rw [← h, List.length_cons, List.length_cons, ih tss hrest]
    · simp at h

/-- C12 (the code at the failing input): with 4 threads and the five databases
`a,b,c,d,e`, each with the table `x`, the quotient of line 329 is 4 / 5 = 0 and nothing
guards against it: the first two calls that `Dumper` makes on the per-database pools are
`NewPool` with size 0 for database `a` and `Get` on that pool for table `x`. -/
theorem zero_size_pool_is_constructed :
    crowdedArgs.Threads = 4 ∧
    dumperDatabases exampleCompile catalogConn crowdedArgs = some ["a", "b", "c", "d", "e"] ∧
    goDiv crowdedArgs.Threads (["a", "b", "c", "d", "e"].length : Nat) = some 0 ∧
    (dumperPools exampleCompile catalogConn crowdedArgs).map (List.take 2)
      = some [PoolCall.NewPool "a" 0, PoolCall.Get "a" 0 "x"] := by
  decide

theorem sum_le_sum_of_forall2 (l1 l2 : List Int) (h : List.Forall₂ (fun l c => l ≤ c) l1 l2) :
    l1.sum ≤ l2.sum := by
  induction h with
  | nil => exact Int.le_refl _
  | cons hab _ ih =>
    simp only [List.sum_cons]
    omega

theorem dumperPlan_tables_length (MustCompile : String → Option Regexp) (conn : Connection)
    (args : Config) (plan : DumperPlan) (h : dumperPlan MustCompile conn args = some plan) :
    dumperDatabases MustCompile conn args = some plan.databases ∧
    plan.tables.length = plan.databases.length := by
  unfold dumperPlan at h
  cases hd : dumperDatabases MustCompile conn args with
  | none => simp [hd] at h
  | some databases =>
    cases ht : dumperTables conn args databases with
    | none => simp [hd, ht] at h
    | some tables =>
      simp only [hd, ht, Option.some.injEq] at h
      subst h
      exact ⟨rfl, dumperTables_length conn args databases tables ht⟩

theorem poolSizes_take (calls : List PoolCall) :
    ∀ k, ∃ m, poolSizes (calls.take k) = (poolSizes calls).take m := by
  induction calls with
  | nil => intro k; exact ⟨0, by simp [poolSizes]⟩
  | cons c calls ih =>
    intro k
    cases k with
    | zero => exact ⟨0, by simp [poolSizes]⟩
    | succ k =>
      obtain ⟨m, hm⟩ := ih k
      cases c with
      | NewPool d size => exact ⟨m + 1, by simp [poolSizes, hm]⟩
      | Get d size t => exact ⟨m, by simp [poolSizes, hm]⟩

theorem sum_take_replicate_le (n m : Nat) (q : Int) (hq : 0 ≤ q) :
    ((List.replicate n q).take m).sum ≤ (n : Int) * q := by
  rw [List.take_replicate, List.sum_replicate, nsmul_eq_mul]
  have h : ((min m n : Nat) : Int) ≤ (n : Int) := by exact_mod_cast Nat.min_le_right m n
  exact Int.mul_le_mul_of_nonneg_right h hq

/-- C13: when the catalog phase of `Dumper` has resolved `n` databases, the pools that
`Dumper` constructs have `n` times the size `T / n`, the quotient of the thread count by
`n`, so their sizes sum to `n * (T / n)`.  For a thread count `T` (a number that is not
negative) the sum does not exceed `T`, neither does the sum of the sizes of the pools
constructed at any point of the loop, nor the total of any numbers of leased connections
each bounded by the size of its pool.  With a negative number in the place of the thread
count the global pool holds no session and line 300 never obtains one. -/
theorem pool_capacity_sum (MustCompile : String → Option Regexp) (conn : Connection)
    (args : Config) (plan : DumperPlan)
    (hplan : dumperPlan MustCompile conn args = some plan) :
    (dumperPools MustCompile conn args).map poolSizes
      = some (List.replicate plan.databases.length
          (Int.tdiv args.Threads plan.databases.length)) ∧
    (List.replicate plan.databases.length (Int.tdiv args.Threads plan.databases.length)).sum
      = (plan.databases.length : Int) * Int.tdiv args.Threads plan.databases.length ∧
    (0 ≤ args.Threads →
      (plan.databases.length : Int) * Int.tdiv args.Threads plan.databases.length
        ≤ args.Threads ∧
      (∀ calls, dumperPools MustCompile conn args = some calls →
        ∀ k, (poolSizes (calls.take k)).sum ≤ args.Threads) ∧
      ∀ leased : List Int,
        List.Forall₂ (fun l c => l ≤ c) leased
          (List.replicate plan.databases.length
            (Int.tdiv args.Threads plan.databases.length)) →
        leased.sum ≤ args.Threads) ∧
    (args.Threads < 0 → initPoolGet args.Threads = none) := by
  have hsum : (List.replicate plan.databases.length
        (Int.tdiv args.Threads plan.databases.length)).sum
      = (plan.databases.length : Int) * Int.tdiv args.Threads plan.databases.length := by
    rw [List.sum_replicate]
    simp
  have hle : 0 ≤ args.Threads →
      (plan.databases.length : Int) * Int.tdiv args.Threads plan.databases.length
        ≤ args.Threads := by
    intro h0
    rw [Int.tdiv_eq_ediv h0 (by omega)]
    rcases Nat.eq_zero_or_pos plan.databases.length with hz | hpos
    · rw [hz]; simpa using h0
    · exact Int.mul_ediv_self_le (by omega)
  have hsizes : (dumperPools MustCompile conn args).map poolSizes
      = some (List.replicate plan.databases.length
          (Int.tdiv args.Threads plan.databases.length)) := by
    unfold dumperPools
    rw [hplan]
    simp only
    rw [dumperPoolCalls_length, Option.map_some', poolSizes_calls _ _ _
      (dumperPlan_tables_length MustCompile conn args plan hplan).2]
  refine ⟨hsizes, hsum, ?_, ?_⟩
  · intro h0
    refine ⟨hle h0, ?_, ?_⟩
    · intro calls hcalls k
      rw [hcalls, Option.map_some', Option.some.injEq] at hsizes
      obtain ⟨m, hm⟩ := poolSizes_take calls k
      rw [hm, hsizes]
      have hq : 0 ≤ Int.tdiv args.Threads plan.databases.length :=
        Int.tdiv_nonneg h0 (by omega)
      exact Int.le_trans (sum_take_replicate_le _ m _ hq) (hle h0)
    · intro leased hl
      have := sum_le_sum_of_forall2 _ _ hl
      rw [hsum] at this
      exact Int.le_trans this (hle h0)
  · intro hneg
    have h0 : args.Threads.toNat = 0 := by
      apply Int.toNat_eq_zero.mpr
      omega
    simp [initPoolGet, poolInit, h0]

/-- An instance: 7 threads and the explicit lists `a,b` and `x,y`: two pools of size 3. -/
theorem pool_capacity_sum_witness :
    (dumperPools exampleCompile catalogConn sevenArgs).map poolSizes = some [3, 3] ∧
    ((2 : Nat) : Int) * Int.tdiv 7 ((2 : Nat) : Int) ≤ 7 :=
  ⟨((pool_capacity_sum exampleCompile catalogConn sevenArgs
      { databases := ["a", "b"], tables := [["x", "y"], ["x", "y"]]
        jobs := [("a", "x"), ("a", "y"), ("b", "x"), ("b", "y")] } (by decide)).1).trans
      (by decide),
    ((pool_capacity_sum exampleCompile catalogConn sevenArgs
      { databases := ["a", "b"], tables := [["x", "y"], ["x", "y"]]
        jobs := [("a", "x"), ("a", "y"), ("b", "x"), ("b", "y")] } (by decide)).2.2.1
        (by decide)).1⟩

/-- C19: the quotient `args.Threads / len(databases)` is evaluated inside the loop over
the databases only, so the loop of `Dumper` never stops on a division by zero: for every
thread count and every database list, the empty one included, the pool calls are defined,
and `Dumper` as a whole stops only where its catalog phase does.  (With a divisor of zero
and a database to loop over, the quotient would stop the process.) -/
theorem pool_quotient_defined :
    (∀ (threads : Int) (databases : List String) (tables : List (List String)),
      (dumperPoolCalls threads databases.length databases tables).isSome = true) ∧
    (∀ (threads : Int) (tables : List (List String)),
      dumperPoolCalls threads ([] : List String).length [] tables = some []) ∧
    (∀ (threads : Int) (d : String) (ds : List String) (ts : List String)
        (tss : List (List String)),
      dumperPoolCalls threads 0 (d :: ds) (ts :: tss) = none) ∧
    (∀ (MustCompile : String → Option Regexp) (conn : Connection) (args : Config)
        (plan : DumperPlan),
      dumperPlan MustCompile conn args = some plan →
      (dumperPools MustCompile conn args).isSome = true) ∧
    (∀ (MustCompile : String → Option Regexp) (conn : Connection) (args : Config),
      dumperDatabases MustCompile conn args = some [] →
      dumperPools MustCompile conn args = some []) := by
  refine ⟨?_, ?_, ?_, ?_, ?_⟩
  · intro threads databases tables
    rw [dumperPoolCalls_length]
    rfl
  · intro threads tables
    simp [dumperPoolCalls]
  · intro threads d ds ts tss
    simp [dumperPoolCalls, goDiv]
  · intro MustCompile conn args plan h
    unfold dumperPools
    rw [h]
    simp only
    rw [dumperPoolCalls_length]
    rfl
  · intro MustCompile conn args h
    simp [dumperPools, dumperPlan, h, dumperTables, dumperJobs, dumperPoolCalls]

/-- An instance: the pattern `^[ab]$` on a server whose only database is `c` selects no
database, and an explicit list of two databases selects two. -/
theorem pool_quotient_defined_witness :
    dumperPools exampleCompile lonelyConn (regexpArgs false) = some [] ∧
    (dumperPools exampleCompile catalogConn listArgs).isSome = true :=
  ⟨pool_quotient_defined.2.2.2.2 exampleCompile lonelyConn (regexpArgs false) (by decide),
    pool_quotient_defined.2.2.2.1 exampleCompile catalogConn listArgs
      { databases := ["a", "b"], tables := [["x", "y"], ["x", "y"]]
        jobs := [("a", "x"), ("a", "y"), ("b", "x"), ("b", "y")] } (by decide)⟩

/-! ## C17: the connections leased from the pool of a database -/

theorem perm_cons_eraseIdx {α : Type} (l : List α) :
    ∀ (i : Nat) (w : α), l[i]? = some w → l.Perm (w :: l.eraseIdx i) := by
  induction l with
  | nil => intro i w h; simp at h
  | cons a l ih =>
    intro i w h
    cases i with
    | zero =>
      simp only [List.getElem?_cons_zero, Option.some.injEq] at h
      rw [h]
      exact List.Perm.refl _
    | succ i =>
      simp only [List.getElem?_cons_succ] at h
      have h2 := ih i w h
      simp only [List.eraseIdx_cons_succ]
      exact (List.Perm.cons a h2).trans (List.Perm.swap w a _)

/-- An event moves a connection between the pool and a worker: the connections in the
pool together with those held by the workers stay the same collection. -/
theorem poolStep_perm (s s1 : PoolRun) (e : PoolEvent) (h : poolStep s e = some s1) :
    (s1.free ++ s1.held.map Prod.snd).Perm (s.free ++ s.held.map Prod.snd) := by
  cases e with
  | launch =>
    cases hp : s.pending with
    | nil => simp [poolStep, hp] at h
    | cons table pending =>
      cases hf : s.free with
      | nil => simp [poolStep, hp, hf] at h
      | cons c free =>
        simp only [poolStep, hp, hf, Option.some.injEq] at h
        rw [← h]
        simp only [List.map_append, List.map_cons, List.map_nil]
        rw [← List.append_assoc]
        exact List.perm_append_singleton c _
  | finish i =>
    cases hw : s.held[i]? with
    | none => simp [poolStep, hw] at h
    | some w =>
      simp only [poolStep, hw, Option.some.injEq] at h
      rw [← h]
      simp only
      have h1 : (s.held.map Prod.snd).Perm (w.2 :: (s.held.eraseIdx i).map Prod.snd) :=
        (List.Perm.map Prod.snd (perm_cons_eraseIdx s.held i w hw))
      have h2 : (s.free ++ [w.2] ++ (s.held.eraseIdx i).map Prod.snd).Perm
          (s.free ++ (w.2 :: (s.held.eraseIdx i).map Prod.snd)) := by
        rw [List.append_assoc]
        exact List.Perm.refl _
      exact h2.trans (List.Perm.append_left s.free h1.symm)

theorem poolRun_perm (schedule : List PoolEvent) :
    ∀ (s s1 : PoolRun), poolRun s schedule = some s1 →
      (s1.free ++ s1.held.map Prod.snd).Perm (s.free ++ s.held.map Prod.snd) := by
  induction schedule with
  | nil =>
    intro s s1 h
    simp only [poolRun, Option.some.injEq] at h
    rw [h]
  | cons e es ih =>
    intro s s1 h
    cases hs2 : poolStep s e with
    | none => simp [poolRun, hs2] at h
    | some s2 =>
      simp only [poolRun, hs2] at h
      exact (ih s2 s1 h).trans (poolStep_perm s s2 e hs2)

/-- C17: whatever the order in which the loop of `Dumper` starts the workers of a
database and the workers end, the connections held by the running workers are never more
than the size of the pool; they are pairwise different, none of them is in the pool, and
together with the connections in the pool they are the connections the pool was
constructed with. -/
theorem leased_connections_bounded (size : Nat) (tables : List String)
    (schedule : List PoolEvent) (s : PoolRun)
    (h : poolRun (poolInit size tables) schedule = some s) :
    s.held.length ≤ size ∧
    s.free.length + s.held.length = size ∧
    (s.held.map Prod.snd).Nodup ∧
    (∀ c, c ∈ s.held.map Prod.snd → c ∉ s.free) ∧
    (s.free ++ s.held.map Prod.snd).Perm (List.range size) := by
  have hperm : (s.free ++ s.held.map Prod.snd).Perm (List.range size) := by
    have := poolRun_perm schedule (poolInit size tables) s h
    simpa [poolInit] using this
  have hlen : s.free.length + s.held.length = size := by
    have := hperm.length_eq
    simpa using this
  have hnodup : (s.free ++ s.held.map Prod.snd).Nodup :=
    hperm.nodup_iff.mpr (List.nodup_range size)
  refine ⟨by omega, hlen, (List.nodup_append.mp hnodup).2.1, ?_, hperm⟩
  intro c hc hf
  exact (List.nodup_append.mp hnodup).2.2 hf hc

/-- An instance: a pool of size 2 and three tables; two workers start, the first ends, the
third starts. -/
theorem leased_connections_bounded_witness :
    poolRun (poolInit 2 ["x", "y", "z"])
        [PoolEvent.launch, PoolEvent.launch, PoolEvent.finish 0, PoolEvent.launch]
      = some { free := [], held := [("y", 1), ("z", 0)], pending := [] } ∧
    ({ free := [], held := [("y", 1), ("z", 0)], pending := [] } : PoolRun).held.length ≤ 2 ∧
    poolRun (poolInit 2 ["x", "y", "z"])
        [PoolEvent.launch, PoolEvent.launch, PoolEvent.launch] = none :=
  ⟨by decide,
    (leased_connections_bounded 2 ["x", "y", "z"]
      [PoolEvent.launch, PoolEvent.launch, PoolEvent.finish 0, PoolEvent.launch]
      { free := [], held := [("y", 1), ("z", 0)], pending := [] } (by decide)).1,
    by decide⟩

/-! ## C15: the run-wide totals -/

theorem dumpTableStep_counters (args : Config) (database table : String)
    (fields : List String) (s : SqlDump) (r : String) :
    (dumpTableStep args database table fields s r).Allrows = (s.Allrows + 1) % u64 ∧
    (dumpTableStep args database table fields s r).Allbytes = (s.Allbytes + len r) % u64 := by
  unfold dumpTableStep rollChunk closeStmt countRow
  dsimp only
  split_ifs <;> simp [Nat.add_mod]

theorem dumpTableFinish_counters (args : Config) (database table : String)
    (fields : List String) (s : SqlDump) :
    (dumpTableFinish args database table fields s).Allrows = s.Allrows ∧
    (dumpTableFinish args database table fields s).Allbytes = s.Allbytes := by
  unfold dumpTableFinish
  split_ifs <;> exact ⟨rfl, rfl⟩

theorem dumpTableLoop_counters (args : Config) (database table : String)
    (fields : List String) (hrows : args.Allrows < u64) (hbytes : args.Allbytes < u64)
    (tuples : List String) :
    (dumpTableLoop args database table fields tuples).Allrows
      = (args.Allrows + tuples.length) % u64 ∧
    (dumpTableLoop args database table fields tuples).Allbytes
      = (args.Allbytes + totalLen tuples) % u64 := by
  induction tuples using List.reverseRecOn with
  | nil =>
    simp only [dumpTableLoop, List.foldl_nil, dumpTableInit, List.length_nil, totalLen_nil,
      Nat.add_zero]
    exact ⟨(Nat.mod_eq_of_lt hrows).symm, (Nat.mod_eq_of_lt hbytes).symm⟩
  | append_singleton l r ih =>
    rw [dumpTableLoop_snoc]
    obtain ⟨h1, h2⟩ := dumpTableStep_counters args database table fields
      (dumpTableLoop args database table fields l) r
    rw [h1, h2, ih.1, ih.2, List.length_append, totalLen_append, totalLen_singleton]
    simp [Nat.add_assoc]

theorem totalLen_take_le (tuples : List String) (j k : Nat) (h : j ≤ k) :
    totalLen (tuples.take j) ≤ totalLen (tuples.take k) := by
  have e : tuples.take k = (tuples.take k).take j ++ (tuples.take k).drop j :=
    (List.take_append_drop j _).symm
  rw [e, totalLen_append, List.take_take, Nat.min_eq_left h]
  omega

/-- C15: the run-wide totals are unsigned 64-bit counters updated after every row:
`dumpTable` adds 1 to the row total and the byte length of the tuple of the row to the
byte total, in 64-bit arithmetic, so after the dump of `n` rows the row total is the
initial one plus `n` and the byte total the initial one plus the sum of the tuple
lengths, in 64-bit arithmetic.  While these sums are 64-bit values the totals are the
sums themselves after every row, and they never decrease. -/
theorem totals_updated (EscapeBytes : String → String) (conn : Connection) (args : Config)
    (database table : String) (hrows : args.Allrows < u64) (hbytes : args.Allbytes < u64) :
    (∀ (fields : List String) (s : SqlDump) (r : String),
      (dumpTableStep args database table fields s r).Allrows = (s.Allrows + 1) % u64 ∧
      (dumpTableStep args database table fields s r).Allbytes = (s.Allbytes + len r) % u64) ∧
    (dumpTable EscapeBytes conn args database table).Allrows
      = (args.Allrows + (dumpTableRows conn args database table).length) % u64 ∧
    (dumpTable EscapeBytes conn args database table).Allbytes
      = (args.Allbytes
          + totalLen ((dumpTableRows conn args database table).map (sqlTuple EscapeBytes))) % u64 ∧
    (args.Allrows + (dumpTableRows conn args database table).length < u64 →
      args.Allbytes
        + totalLen ((dumpTableRows conn args database table).map (sqlTuple EscapeBytes)) < u64 →
      (∀ k, k ≤ (dumpTableRows conn args database table).length →
        (dumpTableLoop args database table (dumpTableFields conn args database table)
            (((dumpTableRows conn args database table).map (sqlTuple EscapeBytes)).take k)).Allrows
          = args.Allrows + k ∧
        (dumpTableLoop args database table (dumpTableFields conn args database table)
            (((dumpTableRows conn args database table).map (sqlTuple EscapeBytes)).take k)).Allbytes
          = args.Allbytes + totalLen
              (((dumpTableRows conn args database table).map (sqlTuple EscapeBytes)).take k)) ∧
      (∀ j k, j ≤ k → k ≤ (dumpTableRows conn args database table).length →
        (dumpTableLoop args database table (dumpTableFields conn args database table)
            (((dumpTableRows conn args database table).map (sqlTuple EscapeBytes)).take j)).Allrows
          ≤ (dumpTableLoop args database table (dumpTableFields conn args database table)
            (((dumpTableRows conn args database table).map (sqlTuple EscapeBytes)).take k)).Allrows ∧
        (dumpTableLoop args database table (dumpTableFields conn args database table)
            (((dumpTableRows conn args database table).map (sqlTuple EscapeBytes)).take j)).Allbytes
          ≤ (dumpTableLoop args database table (dumpTableFields conn args database table)
            (((dumpTableRows conn args database table).map
              (sqlTuple EscapeBytes)).take k)).Allbytes)) := by
  have hexact : args.Allrows + (dumpTableRows conn args database table).length < u64 →
      args.Allbytes
        + totalLen ((dumpTableRows conn args database table).map (sqlTuple EscapeBytes)) < u64 →
      ∀ k, k ≤ (dumpTableRows conn args database table).length →
        (dumpTableLoop args database table (dumpTableFields conn args database table)
            (((dumpTableRows conn args database table).map (sqlTuple EscapeBytes)).take k)).Allrows
          = args.Allrows + k ∧
        (dumpTableLoop args database table (dumpTableFields conn args database table)
            (((dumpTableRows conn args database table).map (sqlTuple EscapeBytes)).take k)).Allbytes
          = args.Allbytes + totalLen
              (((dumpTableRows conn args database table).map (sqlTuple EscapeBytes)).take k) := by
    intro h1 h2 k hk
    obtain ⟨c1, c2⟩ := dumpTableLoop_counters args database table
      (dumpTableFields conn args database table) hrows hbytes
      (((dumpTableRows conn args database table).map (sqlTuple EscapeBytes)).take k)
    have hlen : (((dumpTableRows conn args database table).map (sqlTuple EscapeBytes)).take
        k).length = k := by
      rw [List.length_take, List.length_map]
      omega
    have hle := totalLen_take_le
      ((dumpTableRows conn args database table).map (sqlTuple EscapeBytes)) k
      ((dumpTableRows conn args database table).map (sqlTuple EscapeBytes)).length
      (by rw [List.length_map]; exact hk)
    rw [List.take_length] at hle
    rw [c1, c2, hlen]
    exact ⟨Nat.mod_eq_of_lt (by omega), Nat.mod_eq_of_lt (by omega)⟩
  refine ⟨fun fields s r => dumpTableStep_counters args database table fields s r, ?_, ?_, ?_⟩
  · unfold dumpTable
    rw [(dumpTableFinish_counters _ _ _ _ _).1,
      (dumpTableLoop_counters args database table _ hrows hbytes _).1, List.length_map]
  · unfold dumpTable
    rw [(dumpTableFinish_counters _ _ _ _ _).2,
      (dumpTableLoop_counters args database table _ hrows hbytes _).2]
  · intro h1 h2
    refine ⟨hexact h1 h2, ?_⟩
    intro j k hjk hk
    rw [(hexact h1 h2 j (by omega)).1, (hexact h1 h2 j (by omega)).2,
      (hexact h1 h2 k hk).1, (hexact h1 h2 k hk).2]
    have := totalLen_take_le
      ((dumpTableRows conn args database table).map (sqlTuple EscapeBytes)) j k hjk
    omega

/-- An instance: the two rows of the scenario table, with both totals at zero before the
dump. -/
theorem totals_updated_witness :
    (dumpTable (fun b => b) scenarioConn (exampleArgs 1000000 128) "db" "t").Allrows
      = ((exampleArgs 1000000 128).Allrows
          + (dumpTableRows scenarioConn (exampleArgs 1000000 128) "db" "t").length) % u64 ∧
    (dumpTableLoop (exampleArgs 1000000 128) "db" "t"
        (dumpTableFields scenarioConn (exampleArgs 1000000 128) "db" "t")
        (((dumpTableRows scenarioConn (exampleArgs 1000000 128) "db" "t").map
          (sqlTuple (fun b => b))).take 1)).Allbytes
      = (exampleArgs 1000000 128).Allbytes + totalLen
          (((dumpTableRows scenarioConn (exampleArgs 1000000 128) "db" "t").map
            (sqlTuple (fun b => b))).take 1) ∧
    (dumpTable (fun b => b) scenarioConn (exampleArgs 1000000 128) "db" "t").Allrows = 2 ∧
    (dumpTable (fun b => b) scenarioConn (exampleArgs 1000000 128) "db" "t").Allbytes = 17 :=
  ⟨(totals_updated (fun b => b) scenarioConn (exampleArgs 1000000 128) "db" "t" (by decide)
      (by decide)).2.1,
    (((totals_updated (fun b => b) scenarioConn (exampleArgs 1000000 128) "db" "t" (by decide)
      (by decide)).2.2.2 (by decide) (by decide)).1 1 (by decide)).2,
    by decide, by decide⟩

/-! ## C14: the names of the SQL-format files -/

theorem digitChar_value (d : Nat) (h : d < 10) : (Nat.digitChar d).toNat - 48 = d := by
  interval_cases d <;> rfl

theorem toDigitsCore_value (fuel : Nat) :
    ∀ (n : Nat) (ds : List Char), n < fuel →
      (Nat.toDigitsCore 10 fuel n ds).foldl (fun acc c => acc * 10 + (c.toNat - 48)) 0
        = ds.foldl (fun acc c => acc * 10 + (c.toNat - 48)) n := by
  induction fuel with
  | zero => intro n ds h; omega
  | succ fuel ih =>
    intro n ds h
    have hd : (Nat.digitChar (n % 10)).toNat - 48 = n % 10 :=
      digitChar_value (n % 10) (Nat.mod_lt n (by decide))
    unfold Nat.toDigitsCore
    dsimp only
    by_cases h0 : n / 10 = 0
    · rw [if_pos h0, List.foldl_cons, hd]
      have : n % 10 = n := by omega
      rw [Nat.zero_mul, Nat.zero_add, this]
    · rw [if_neg h0, ih (n / 10) _ (by omega), List.foldl_cons, hd]
      have : n / 10 * 10 + n % 10 = n := by omega
      rw [this]

/-- The number field of a file name reads back as the file number. -/
theorem digitsValue_pad5 (n : Nat) : digitsValue (pad5 n).data = n := by
  have hz : ∀ k : Nat,
      (List.replicate k '0').foldl (fun acc c => acc * 10 + (c.toNat - 48)) 0 = 0 := by
    intro k
    induction k with
    | zero => rfl
    | succ k ih => rw [List.replicate_succ, List.foldl_cons]; exact ih
  have hrepr : (Nat.repr n).data = Nat.toDigitsCore 10 (n + 1) n [] := rfl
  unfold digitsValue pad5
  simp only [String.data_append]
  rw [List.foldl_append, hz, hrepr, toDigitsCore_value (n + 1) n [] (Nat.lt_succ_self n)]
  rfl

theorem pad5_injective {m n : Nat} (h : pad5 m = pad5 n) : m = n := by
  have := congrArg (fun s : String => digitsValue s.data) h
  simpa [digitsValue_pad5] using this

theorem sqlFile_injective (args : Config) (database table : String) {m n : Nat}
    (h : sqlFile args database table m = sqlFile args database table n) : m = n := by
  unfold sqlFile at h
  exact pad5_injective (string_append_left_cancel (string_append_right_cancel h))

theorem pad5_length (n : Nat) (h : n < 100000) : (pad5 n).length = 5 := by
  have hl : (Nat.repr n).length ≤ 5 := Nat.repr_length n 5 (by decide) (by omega)
  unfold pad5
  dsimp only
  rw [String.length_append]
  show (List.replicate (5 - (Nat.repr n).length) '0').length + (Nat.repr n).length = 5
  rw [List.length_replicate]
  omega

/-- What the statement-level view keeps true of the file numbers: the next number is one
more than the number of files written, which are numbered from 1 in the order of
writing. -/
theorem stmtLoop_numbers (args : Config) (tuples : List String) :
    (stmtLoop args tuples).fileNo = (stmtLoop args tuples).files.length + 1 ∧
    (stmtLoop args tuples).files.map (fun f => f.fileNo)
      = List.range' 1 (stmtLoop args tuples).files.length := by
  induction tuples using List.reverseRecOn with
  | nil => exact ⟨rfl, rfl⟩
  | append_singleton l r ih =>
    rw [stmtLoop_snoc]
    obtain ⟨ih1, ih2⟩ := ih
    unfold stmtStep
    dsimp only
    split_ifs
    · refine ⟨by simp [ih1], ?_⟩
      simp only [List.map_append, List.map_cons, List.map_nil, List.length_append,
        List.length_singleton, ih2, List.range'_1_concat, ih1]
      rw [Nat.add_comm 1]
    · exact ⟨ih1, ih2⟩
    · refine ⟨by simp [ih1], ?_⟩
      simp only [List.map_append, List.map_cons, List.map_nil, List.length_append,
        List.length_singleton, ih2, List.range'_1_concat, ih1]
      rw [Nat.add_comm 1]
    · exact ⟨ih1, ih2⟩

theorem stmtFinish_numbers (args : Config) (tuples : List String) :
    (stmtFinish (stmtLoop args tuples)).files.map (fun f => f.fileNo)
      = List.range' 1 (stmtFinish (stmtLoop args tuples)).files.length := by
  obtain ⟨h1, h2⟩ := stmtLoop_numbers args tuples
  unfold stmtFinish
  by_cases hcb : 0 < (stmtLoop args tuples).chunkbytes
  · rw [if_pos hcb]
    simp only [List.map_append, List.map_cons, List.map_nil, List.length_append,
      List.length_singleton, h2, List.range'_1_concat, h1]
    rw [Nat.add_comm 1]
  · rw [if_neg hcb]
    exact h2

/-- The paths written by `dumpTable`, in the order of writing. -/
theorem dumpTable_paths (EscapeBytes : String → String) (conn : Connection) (args : Config)
    (database table : String) :
    (dumpTable EscapeBytes conn args database table).files.map Prod.fst
      = (List.range' 1 (dumpTable EscapeBytes conn args database table).files.length).map
          (sqlFile args database table) := by
  rw [dumpTable_files, List.length_map, ← stmtFinish_numbers, List.map_map, List.map_map]
  rfl

theorem stmtLoop_all_roll (args : Config) (hC : args.ChunksizeInMB ≤ 0)
    (tuples : List String) :
    (stmtLoop args tuples).files.length = tuples.length ∧
    (stmtLoop args tuples).chunkbytes = 0 := by
  induction tuples using List.reverseRecOn with
  | nil => exact ⟨rfl, rfl⟩
  | append_singleton l r ih =>
    rw [stmtLoop_snoc]
    obtain ⟨e1, _, e3⟩ := stmtStep_chunk args (stmtLoop args l) r
    have hcond : args.ChunksizeInMB
        ≤ ((((stmtLoop args l).chunkbytes + len r) / 1024 / 1024 : Nat) : Int) := by
      have := Int.natCast_nonneg (((stmtLoop args l).chunkbytes + len r) / 1024 / 1024)
      omega
    rw [if_pos hcond] at e1 e3
    rw [e1, e3, List.length_append, List.length_append, ih.1]
    exact ⟨rfl, rfl⟩

theorem dumpTable_all_roll (EscapeBytes : String → String) (conn : Connection) (args : Config)
    (database table : String) (hC : args.ChunksizeInMB ≤ 0) :
    (dumpTable EscapeBytes conn args database table).files.length
      = (dumpTableRows conn args database table).length := by
  obtain ⟨h1, h2⟩ := stmtLoop_all_roll args hC
    ((dumpTableRows conn args database table).map (sqlTuple EscapeBytes))
  rw [dumpTable_files, List.length_map]
  unfold stmtFinish
  rw [if_neg (by omega), h1, List.length_map]

/-- C14 (counterexample): a table `db.t` of 100000 rows is dumped with statement size 1
and chunk size 0, one file per row.  The last of the 100000 files is
`out/db.t.100000.sql`: its sequence number has six digits, not five. -/
theorem file_number_outgrows_five_digits :
    (dumpTable (fun b => b) (uniformConn 100000) (exampleArgs 1 0) "db" "t").files.length
      = 100000 ∧
    ((dumpTable (fun b => b) (uniformConn 100000) (exampleArgs 1 0) "db" "t").files.map
        Prod.fst)[99999]? = some "out/db.t.100000.sql" ∧
    pad5 100000 = "100000" ∧
    (pad5 100000).length = 6 := by
  have hlen : (dumpTable (fun b => b) (uniformConn 100000) (exampleArgs 1 0) "db" "t").files.length
      = 100000 := by
    rw [dumpTable_all_roll _ _ _ _ _ (by decide)]
    exact List.length_replicate _ _
  refine ⟨hlen, ?_, by decide, by decide⟩
  rw [dumpTable_paths, hlen, List.getElem?_map, List.getElem?_range' 1 1 (by decide)]
  decide

/-- C14 (amended): the SQL-format files that `dumpTable` writes for one table are named
`<outdir>/<db>.<table>.<N>.sql`, where `N` is the sequence number in decimal, padded with
zeros on the left to five digits; it has exactly five digits for the numbers below 100000
and more from there on.  For a dump that writes `k` files the numbers used are 1, 2, ...,
`k` in the order of writing, and the `k` paths are pairwise different. -/
theorem sql_file_numbering (EscapeBytes : String → String) (conn : Connection) (args : Config)
    (database table : String) :
    (dumpTable EscapeBytes conn args database table).files.map Prod.fst
      = (List.range' 1 (dumpTable EscapeBytes conn args database table).files.length).map
          (fun i => args.Outdir ++ "/" ++ database ++ "." ++ table ++ "." ++ pad5 i ++ ".sql") ∧
    ((dumpTable EscapeBytes conn args database table).files.map Prod.fst).Nodup ∧
    (∀ i : Nat, pad5 i
      = String.mk (List.replicate (5 - (Nat.repr i).length) '0') ++ Nat.repr i) ∧
    (∀ i : Nat, digitsValue (pad5 i).data = i) ∧
    (∀ i : Nat, i < 100000 → (pad5 i).length = 5) := by
  refine ⟨dumpTable_paths EscapeBytes conn args database table, ?_, fun _ => rfl,
    digitsValue_pad5, pad5_length⟩
  rw [dumpTable_paths]
  exact (List.nodup_range' 1 _).map (fun m n h => sqlFile_injective args database table h)

/-- An instance: the file number 42 is written `00042`. -/
theorem sql_file_numbering_witness :
    (pad5 42).length = 5 ∧ pad5 42 = "00042" ∧
    (dumpTable (fun b => b) scenarioConn (exampleArgs 1 0) "db" "t").files.map Prod.fst
      = ["out/db.t.00001.sql", "out/db.t.00002.sql"] :=
  ⟨(sql_file_numbering (fun b => b) scenarioConn (exampleArgs 1 0) "db" "t").2.2.2.2 42
      (by decide),
    by decide,
    ((sql_file_numbering (fun b => b) scenarioConn (exampleArgs 1 0) "db" "t").1).trans
      (by decide)⟩

end GoMydumper
